import Mathlib

/-! # Janus event ingestion: a shallow embedding of `utils.js` and `eventHandler.js`

The development models

* decoded JSON payloads (`Json`) and the JavaScript operators the handler applies to them
  (property reads, `?.`, `??`, truthiness, `String(..)`, `JSON.stringify`);
* `toDate` from `utils.js`;
* `hasSlowlink`, `saveSlowlink`, `saveSipCallMap` and `handleEvent` from `eventHandler.js`,
  run against an arbitrary persistence sink (`World`), recording every `pool.query` call.

A finite Number is modelled by its exact rational value; the products and quotients that
`toDate` computes are rounded to binary64 (`toBinary64`), as the engine does. The conversion
`String(x)` is partial (`toJsString`): it throws for an object with an own key `toString`.
-/

namespace Janus

/-! ## Decoded JSON values -/

/-- A decoded JSON value, as produced by `JSON.parse`. Object fields are kept in insertion
order. A number literal decodes to a finite Number (`num`) or, when it overflows the binary64
range as `1e999` does, to `Infinity` or `-Infinity` (`infinite`). -/
inductive Json where
  | null : Json
  | bool (b : Bool) : Json
  | num (q : ℚ) : Json
  | infinite (negative : Bool) : Json
  | str (s : String) : Json
  | arr (items : List Json) : Json
  | obj (fields : List (String × Json)) : Json

namespace Json

mutual
/-- Decision procedure for equality of JSON values. -/
def decEq : (a b : Json) → Decidable (a = b)
  | .null, .null => isTrue rfl
  | .bool a, .bool b =>
    if h : a = b then isTrue (congrArg Json.bool h) else isFalse (fun e => h (Json.bool.inj e))
  | .num a, .num b =>
    if h : a = b then isTrue (congrArg Json.num h) else isFalse (fun e => h (Json.num.inj e))
  | .infinite a, .infinite b =>
    if h : a = b then isTrue (congrArg Json.infinite h)
    else isFalse (fun e => h (Json.infinite.inj e))
  | .str a, .str b =>
    if h : a = b then isTrue (congrArg Json.str h) else isFalse (fun e => h (Json.str.inj e))
  | .arr xs, .arr ys =>
    match decEqList xs ys with
    | isTrue h => isTrue (congrArg Json.arr h)
    | isFalse h => isFalse (fun e => h (Json.arr.inj e))
  | .obj xs, .obj ys =>
    match decEqFields xs ys with
    | isTrue h => isTrue (congrArg Json.obj h)
    | isFalse h => isFalse (fun e => h (Json.obj.inj e))
  | .null, .bool _ | .null, .num _ | .null, .str _ | .null, .arr _ | .null, .obj _ =>
    isFalse nofun
  | .bool _, .null | .bool _, .num _ | .bool _, .str _ | .bool _, .arr _ | .bool _, .obj _ =>
    isFalse nofun
  | .num _, .null | .num _, .bool _ | .num _, .str _ | .num _, .arr _ | .num _, .obj _ =>
    isFalse nofun
  | .str _, .null | .str _, .bool _ | .str _, .num _ | .str _, .arr _ | .str _, .obj _ =>
    isFalse nofun
  | .arr _, .null | .arr _, .bool _ | .arr _, .num _ | .arr _, .str _ | .arr _, .obj _ =>
    isFalse nofun
  | .obj _, .null | .obj _, .bool _ | .obj _, .num _ | .obj _, .str _ | .obj _, .arr _ =>
    isFalse nofun
  | .infinite _, .null | .infinite _, .bool _ | .infinite _, .num _ | .infinite _, .str _ =>
    isFalse nofun
  | .infinite _, .arr _ | .infinite _, .obj _ => isFalse nofun
  | .null, .infinite _ | .bool _, .infinite _ | .num _, .infinite _ | .str _, .infinite _ =>
    isFalse nofun
  | .arr _, .infinite _ | .obj _, .infinite _ => isFalse nofun
/-- Decision procedure for equality of lists of JSON values. -/
def decEqList : (xs ys : List Json) → Decidable (xs = ys)
  | [], [] => isTrue rfl
  | [], _ :: _ => isFalse nofun
  | _ :: _, [] => isFalse nofun
  | x :: xs, y :: ys =>
    match decEq x y, decEqList xs ys with
    | isTrue h, isTrue hs => isTrue (congrArg₂ List.cons h hs)
    | isFalse h, _ => isFalse (fun e => h (List.cons.inj e).1)
    | _, isFalse hs => isFalse (fun e => hs (List.cons.inj e).2)
/-- Decision procedure for equality of field lists. -/
def decEqFields : (xs ys : List (String × Json)) → Decidable (xs = ys)
  | [], [] => isTrue rfl
  | [], _ :: _ => isFalse nofun
  | _ :: _, [] => isFalse nofun
  | (k, x) :: xs, (l, y) :: ys =>
    if hk : k = l then
      match decEq x y, decEqFields xs ys with
      | isTrue h, isTrue hs => isTrue (by rw [hk, h, hs])
      | isFalse h, _ => isFalse (fun e => h (Prod.mk.inj (List.cons.inj e).1).2)
      | _, isFalse hs => isFalse (fun e => hs (List.cons.inj e).2)
    else isFalse (fun e => hk (Prod.mk.inj (List.cons.inj e).1).1)
end

instance : DecidableEq Json := decEq

instance : Inhabited Json := ⟨.null⟩

end Json

/-! ## `Number::toString` on non-negative integers

`toDate` measures `String(abs).length`, where `abs` is a non-negative integer-valued Number.
ECMAScript prints such a Number from the shortest decimal `s * 10 ^ (n - k)` that rounds to
it: as `n` plain digits when `n ≤ 21`, in exponent notation otherwise. -/

/-- Floor of the binary logarithm, by fuel. -/
def log2Fuel : Nat → Nat → Nat
  | 0, _ => 0
  | fuel + 1, m => if m < 2 then 0 else log2Fuel fuel (m / 2) + 1

/-- Floor of the binary logarithm of `m` (`0` for `m = 0`). -/
def floorLog2 (m : Nat) : Nat := log2Fuel m m

/-- The integer-valued binary64 Number nearest to the integer `m` (round to nearest, ties to
even); the overflow to `Infinity` beyond the largest finite Number is not modelled. -/
def roundToDouble (m : Nat) : Nat :=
  if m < 2 ^ 53 then m
  else
    let e := floorLog2 m - 52
    let q := m / 2 ^ e
    let r := m % 2 ^ e
    if 2 * r < 2 ^ e then q * 2 ^ e
    else if 2 ^ e < 2 * r then (q + 1) * 2 ^ e
    else if q % 2 = 0 then q * 2 ^ e
    else (q + 1) * 2 ^ e

/-- Whether the decimal `v` is positive and reads back as the Number `x`. -/
def readsBack (x v : Nat) : Bool := decide (0 < v) && decide (roundToDouble v = x)

/-- The multiple of `10 ^ e` that reads back as `x`, if there is one: of the two neighbours
of `x` the valid one, the closer one when both are valid, the even multiple on a tie. -/
def pickDecimal (x e : Nat) : Option Nat :=
  let lo := x / 10 ^ e * 10 ^ e
  let hi := lo + 10 ^ e
  if readsBack x lo && readsBack x hi then
    if x - lo < hi - x then some lo
    else if hi - x < x - lo then some hi
    else if (x / 10 ^ e) % 2 = 0 then some lo else some hi
  else if readsBack x lo then some lo
  else if readsBack x hi then some hi
  else none

/-- Search for the shortest decimal: the largest `e' ≤ e` for which a multiple of `10 ^ e'`
reads back as `x`; `x` itself when there is none. -/
def shortestFrom (x : Nat) : Nat → Nat
  | 0 => (pickDecimal x 0).getD x
  | e + 1 =>
    match pickDecimal x (e + 1) with
    | some v => v
    | none => shortestFrom x e

/-- The shortest decimal that reads back as the Number `x`. -/
def shortestDecimal (x : Nat) : Nat := shortestFrom x (Nat.toDigits 10 x).length

/-- Exponent notation of the decimal `v`: its significant digits with a point after the first,
then `e+` and the decimal exponent. -/
def exponentNotation (v : Nat) : String :=
  let ds := Nat.toDigits 10 v
  let sig := (ds.reverse.dropWhile (fun c => c == '0')).reverse
  let mantissa :=
    match sig with
    | [] => []
    | [c] => [c]
    | c :: rest => c :: '.' :: rest
  String.mk mantissa ++ "e+" ++ Nat.repr (ds.length - 1)

/-- The string `String(x)` of a non-negative integer-valued Number `x`. -/
def natToJsString (x : Nat) : String :=
  if x = 0 then "0"
  else
    let v := shortestDecimal x
    if v < 10 ^ 21 then Nat.repr v else exponentNotation v

/-- The string `String(q)` of a finite Number: integers are printed by `natToJsString` with
their sign, other values by the engine's fraction printer `frac`. -/
def numberToString (frac : ℚ → String) (q : ℚ) : String :=
  if q.den = 1 then
    if q.num < 0 then "-" ++ natToJsString q.num.natAbs else natToJsString q.num.natAbs
  else frac q

/-! ## Instants -/

/-- A JavaScript `Date`: its time value in milliseconds since the epoch, `none` for an
invalid date. -/
structure JsDate where
  time : Option Int
  deriving DecidableEq

/-- The function `Math.trunc` on a finite Number. -/
def mathTrunc (q : ℚ) : Int := Int.tdiv q.num q.den

/-- The function `Math.abs` on an integer. -/
def mathAbs (z : Int) : Nat := z.natAbs

/-- The `TimeClip` operation: values further than 8.64e15 ms from the epoch have no time
value, the others are truncated to an integer. -/
def timeClip (v : ℚ) : Option Int :=
  if |v| ≤ 8640000000000000 then some (mathTrunc v) else none

/-- The instant `new Date(v)` for a finite Number `v`. -/
def newDate (v : ℚ) : JsDate := ⟨timeClip v⟩

/-- A JavaScript Number. -/
inductive JsNumber where
  | finite (q : ℚ) : JsNumber
  | nan : JsNumber
  | posInf : JsNumber
  | negInf : JsNumber
  deriving DecidableEq

/-- The instant `new Date(x)` for a Number `x`: an invalid date when `x` is not finite. -/
def newDateOf : JsNumber → JsDate
  | .finite v => newDate v
  | _ => ⟨none⟩

/-! ## Binary64 arithmetic

The operators `*` and `/` on Numbers return the binary64 Number nearest to the exact result
(ties to the even significand), `Infinity` or `-Infinity` beyond the finite range. -/

/-- The binary exponent of the binade of `q`, not below that of the subnormal Numbers. -/
def binadeExponent (q : ℚ) : Int := max (Int.log 2 |q|) (-1022)

/-- The spacing of the binary64 Numbers around `q`. -/
def ulp (q : ℚ) : ℚ := 2 ^ (binadeExponent q - 52)

/-- The integer nearest to `x`, the even one of the two when `x` lies halfway. -/
def roundHalfEven (x : ℚ) : Int :=
  if x - ⌊x⌋ < 1 / 2 then ⌊x⌋
  else if 1 / 2 < x - ⌊x⌋ then ⌊x⌋ + 1
  else if ⌊x⌋ % 2 = 0 then ⌊x⌋
  else ⌊x⌋ + 1

/-- The Number that an arithmetic operation with the exact result `q` returns. -/
def toBinary64 (q : ℚ) : JsNumber :=
  let r := (roundHalfEven (q / ulp q) : ℚ) * ulp q
  if |r| < 2 ^ 1024 then .finite r else if 0 < q then .posInf else .negInf

/-- Whether the rational `q` is the value of a binary64 Number. -/
def isBinary64 (q : ℚ) : Prop := toBinary64 q = .finite q

instance (q : ℚ) : Decidable (isBinary64 q) := by unfold isBinary64; infer_instance

/-- The values `toDate` distinguishes. -/
inductive JsValue where
  | undefined : JsValue
  | null : JsValue
  | date (d : JsDate) : JsValue
  | string (s : String) : JsValue
  | number (n : JsNumber) : JsValue
  | other : JsValue

/-! ## The persistence sink and the host environment -/

/-- A parameter handed to `pool.query`: a JSON value or an instant. -/
inductive Param where
  | json (j : Json) : Param
  | date (d : JsDate) : Param
  deriving DecidableEq

/-- One `pool.query(text, values)` call. -/
structure Query where
  text : String
  values : List Param
  deriving DecidableEq

/-- An error thrown inside the handler, by its `err.code` and `err.message`: the error of a
rejected query, or a `TypeError`, which has no code. -/
structure DbError where
  code : Option String
  message : String
  deriving DecidableEq

/-- The built-ins of the engine that the model leaves open: `Date.parse`, `Number(..)` on
strings, and the printing of non-integer Numbers. -/
structure Host where
  dateParse : String → JsNumber
  stringToNumber : String → JsNumber
  fractionToString : ℚ → String

/-- Everything outside the handler: the engine's built-ins, the sink behind `pool.query`
(a rejected query returns its error) and the clock behind `new Date()`. The state `σ` is
threaded through every query and clock reading. -/
structure World (σ : Type) where
  host : Host
  query : Query → σ → Option DbError × σ
  now : σ → JsDate × σ

/-! ## `utils.js` -/

/-- The Number branch of `toDate` (`typeof ts === 'number'`). -/
def toDateNumber {σ : Type} (w : World σ) (n : JsNumber) (s : σ) : JsDate × σ :=
  match n with
  | .finite ts =>
    let abs := mathAbs (mathTrunc ts)
    let digits := (natToJsString abs).length
    if digits ≥ 19 then (newDateOf (toBinary64 (ts / 10 ^ 6)), s)
    else if digits ≥ 16 then (newDateOf (toBinary64 (ts / 10 ^ 3)), s)
    else if digits ≥ 13 then (newDate ts, s)
    else if digits ≥ 10 then (newDateOf (toBinary64 (ts * 10 ^ 3)), s)
    else (newDateOf (toBinary64 (ts * 10 ^ 3)), s)
  | _ => w.now s

/-- The function `toDate(ts)` of `utils.js`. -/
def toDate {σ : Type} (w : World σ) (ts : JsValue) (s : σ) : JsDate × σ :=
  match ts with
  | .undefined => w.now s
  | .null => w.now s
  | .date d => (d, s)
  | .string str =>
    match w.host.dateParse str with
    | .finite iso => (newDate iso, s)
    | .posInf => (⟨none⟩, s)
    | .negInf => (⟨none⟩, s)
    | .nan =>
      match w.host.stringToNumber str with
      | .nan => w.now s
      | n => toDateNumber w n s
  | .number n => toDateNumber w n s
  | .other => w.now s

/-! ## JavaScript operators on decoded values

A value read from a payload is an `Option Json`: `none` stands for `undefined`. -/

/-- Property read `j.k` (also `j?.k`, `j[k]`). Of the decoded values only objects carry the
keys the handler probes; every other value, `null` under `?.` included, reads `undefined`. -/
def Json.get (j : Json) (k : String) : Option Json :=
  match j with
  | .obj fields => fields.lookup k
  | _ => none

/-- Optional chaining `x?.k` on a possibly undefined value. -/
def optGet (x : Option Json) (k : String) : Option Json := x.bind (fun j => j.get k)

/-- Whether a value is `null` or `undefined`. -/
def isNullish : Option Json → Bool
  | none => true
  | some .null => true
  | some _ => false

/-- Nullish coalescing `x ?? y`. -/
def orElse (x y : Option Json) : Option Json := if isNullish x then y else x

/-- Nullish coalescing with the literal `null`: `x ?? null`. -/
def orNull (x : Option Json) : Json :=
  match x with
  | none => .null
  | some v => v

/-- JavaScript truthiness (`ToBoolean`). -/
def truthy : Option Json → Bool
  | none => false
  | some .null => false
  | some (.bool b) => b
  | some (.num q) => decide (q ≠ 0)
  | some (.infinite _) => true
  | some (.str s) => decide (s ≠ "")
  | some (.arr _) => true
  | some (.obj _) => true

mutual
/-- The conversion `String(j)` (also used by template literals); `none` when it throws a
`TypeError`. A decoded object is converted by `Object.prototype.toString` unless it has an
own key `toString`: that key holds a decoded value, never a function, and `valueOf` returns
the object itself, so no primitive value is found and the conversion throws. An array is
converted by `Array.prototype.join`. -/
def toJsString (frac : ℚ → String) : Json → Option String
  | .null => some "null"
  | .bool true => some "true"
  | .bool false => some "false"
  | .num q => some (numberToString frac q)
  | .infinite negative => some (if negative then "-Infinity" else "Infinity")
  | .str s => some s
  | .arr items => joinItems frac items
  | .obj fields => if (fields.lookup "toString").isSome then none else some "[object Object]"
/-- The method `Array.prototype.join` with the separator `,`: `null` elements print as the
empty string, the others are converted in order, and the first conversion that throws ends
the join. -/
def joinItems (frac : ℚ → String) : List Json → Option String
  | [] => some ""
  | .null :: [] => some ""
  | item :: [] => toJsString frac item
  | .null :: rest => (joinItems frac rest).map fun tail => "," ++ tail
  | item :: rest =>
    (toJsString frac item).bind fun head =>
      (joinItems frac rest).map fun tail => head ++ "," ++ tail
end

/-- Two lowercase hexadecimal digits of a code below 256. -/
def hexByte (n : Nat) : String :=
  String.mk [Nat.digitChar (n / 16 % 16), Nat.digitChar (n % 16)]

/-- One character of `QuoteJSONString`. -/
def quoteChar (c : Char) : String :=
  if c = '"' then "\\\""
  else if c = '\\' then "\\\\"
  else if c.toNat = 8 then "\\b"
  else if c.toNat = 9 then "\\t"
  else if c.toNat = 10 then "\\n"
  else if c.toNat = 12 then "\\f"
  else if c.toNat = 13 then "\\r"
  else if c.toNat < 32 then "\\u00" ++ hexByte c.toNat
  else String.singleton c

/-- The operation `QuoteJSONString`. -/
def quoteJson (s : String) : String :=
  "\"" ++ String.join (s.data.map quoteChar) ++ "\""

mutual
/-- The serialisation `JSON.stringify(j)` of a decoded value (no indentation). -/
def jsonStringify (frac : ℚ → String) : Json → String
  | .null => "null"
  | .bool true => "true"
  | .bool false => "false"
  | .num q => numberToString frac q
  | .infinite _ => "null"
  | .str s => quoteJson s
  | .arr items => "[" ++ stringifyItems frac items ++ "]"
  | .obj fields => "\x7b" ++ stringifyFields frac fields ++ "\x7d"
/-- The elements of an array, separated by commas. -/
def stringifyItems (frac : ℚ → String) : List Json → String
  | [] => ""
  | item :: [] => jsonStringify frac item
  | item :: rest => jsonStringify frac item ++ "," ++ stringifyItems frac rest
/-- The members of an object, separated by commas. -/
def stringifyFields (frac : ℚ → String) : List (String × Json) → String
  | [] => ""
  | (k, v) :: [] => quoteJson k ++ ":" ++ jsonStringify frac v
  | (k, v) :: rest =>
    quoteJson k ++ ":" ++ jsonStringify frac v ++ "," ++ stringifyFields frac rest
end

/-- The value handed to `toDate` when it is read from a payload. -/
def toJsValue : Option Json → JsValue
  | none => .undefined
  | some .null => .null
  | some (.str s) => .string s
  | some (.num q) => .number (.finite q)
  | some (.infinite negative) => .number (if negative then .negInf else .posInf)
  | some (.bool _) => .other
  | some (.arr _) => .other
  | some (.obj _) => .other

/-! ## Runs of the handler -/

/-- The outcome of running a piece of the handler: the error it threw (`none` when it
returned), the `pool.query` calls it made, in order, and the state it left. -/
structure Run (σ : Type) where
  threw : Option DbError
  writes : List Query
  state : σ

/-- A piece of the handler that does nothing. -/
def Run.skip {σ : Type} (s : σ) : Run σ := ⟨none, [], s⟩

/-- The statement `await pool.query(text, values)`: a rejected query throws. -/
def runQuery {σ : Type} (w : World σ) (q : Query) (s : σ) : Run σ :=
  ⟨(w.query q s).1, [q], (w.query q s).2⟩

/-- Sequencing: the continuation runs only when the first part returned. -/
def Run.andThen {σ : Type} (r : Run σ) (k : σ → Run σ) : Run σ :=
  match r.threw with
  | some _ => r
  | none => ⟨(k r.state).threw, r.writes ++ (k r.state).writes, (k r.state).state⟩

/-- A `try` block whose `catch` only logs: whatever was thrown is dropped. -/
def tryCatch {σ : Type} (r : Run σ) : Run σ := ⟨none, r.writes, r.state⟩

/-- The `TypeError` of a conversion to text that finds no primitive value. -/
def conversionError : DbError := ⟨none, "Cannot convert object to primitive value"⟩

/-- A piece of the handler that throws `e` before any query. -/
def Run.raise {σ : Type} (e : DbError) (s : σ) : Run σ := ⟨some e, [], s⟩

/-- A piece of the handler that first converts a value to text, `text` being the outcome of
the conversion: it goes on with the text, or throws the `TypeError` of the conversion. -/
def withText {σ : Type} (text : Option String) (k : String → σ → Run σ) (s : σ) : Run σ :=
  match text with
  | some t => k t s
  | none => Run.raise conversionError s

/-! ## `eventHandler.js` -/

/-- The text of the insert into `slowlinks`. -/
def sqlSlowlinks : String :=
  "INSERT INTO slowlinks (session, handle, payload, timestamp) VALUES ($1, $2, $3, $4)"

/-- The text of the upsert into `sip_calls`. -/
def sqlSipCalls : String :=
  "INSERT INTO sip_calls (session, handle, call_id, from_uri, to_uri, direction, created_at)\n       VALUES ($1, $2, $3, $4, $5, $6, $7)\n       ON CONFLICT (call_id) DO UPDATE\n         SET session = EXCLUDED.session,\n             handle  = EXCLUDED.handle,\n             direction = COALESCE(sip_calls.direction, EXCLUDED.direction)"

/-- The text of the insert into `sessions`. -/
def sqlSessions : String :=
  "INSERT INTO sessions (session, event, timestamp) VALUES ($1, $2, $3)"

/-- The text of the insert into `handles`. -/
def sqlHandles : String :=
  "INSERT INTO handles (session, handle, event, plugin, timestamp) VALUES ($1, $2, $3, $4, $5)"

/-- The text of the insert into `sdps`. -/
def sqlSdps : String :=
  "INSERT INTO sdps (session, handle, remote, offer, sdp, timestamp) VALUES ($1, $2, $3, $4, $5, $6)"

/-- The text of the insert into `ice`. -/
def sqlIce : String :=
  "INSERT INTO ice (session, handle, stream, component, state, timestamp) VALUES ($1, $2, $3, $4, $5, $6)"

/-- The text of the insert into `selectedpairs`. -/
def sqlSelectedPairs : String :=
  "INSERT INTO selectedpairs (session, handle, stream, component, selected, timestamp) VALUES ($1, $2, $3, $4, $5, $6)"

/-- The text of the insert into `dtls`. -/
def sqlDtls : String :=
  "INSERT INTO dtls (session, handle, state, timestamp) VALUES ($1, $2, $3, $4)"

/-- The text of the insert into `connections`. -/
def sqlConnections : String :=
  "INSERT INTO connections (session, handle, state, timestamp) VALUES ($1, $2, $3, $4)"

/-- The text of the insert into `media`. -/
def sqlMedia : String :=
  "INSERT INTO media (session, handle, medium, receiving, timestamp) VALUES ($1, $2, $3, $4, $5)"

/-- The text of the insert into `stats`. -/
def sqlStats : String :=
  "INSERT INTO stats\n       (session, handle, subtype, mid, mindex, codec, medium,\n        base, lsr, lostlocal, lostremote, jitterlocal, jitterremote,\n        packetssent, packetsrecv, bytessent, bytesrecv, nackssent, nacksrecv,\n        rtt, rtt_ntp, rtt_lsr, rtt_dlsr,\n        in_link_quality, in_media_link_quality, out_link_quality, out_media_link_quality,\n        bytes_sent_lastsec, bytes_recv_lastsec, retransmissions_recv,\n        timestamp)\n       VALUES\n       ($1,$2,$3,$4,$5,$6,$7,\n        $8,$9,$10,$11,$12,$13,\n        $14,$15,$16,$17,$18,$19,\n        $20,$21,$22,$23,\n        $24,$25,$26,$27,\n        $28,$29,$30,\n        $31)"

/-- The text of the insert into `plugins`. -/
def sqlPlugins : String :=
  "INSERT INTO plugins (session, handle, plugin, event, timestamp) VALUES ($1, $2, $3, $4, $5)"

/-- The text of the insert into `transports`. -/
def sqlTransports : String :=
  "INSERT INTO transports (session, handle, plugin, event, timestamp) VALUES ($1, $2, $3, $4, $5)"

/-- The text of the insert into `core`. -/
def sqlCore : String :=
  "INSERT INTO core (name, value, timestamp) VALUES ($1, $2, $3)"

/-- The function `hasSlowlink(obj)`: the value is an object (or array) and one of the three
slowlink keys is not `undefined`. -/
def hasSlowlink (obj : Json) : Bool :=
  match obj with
  | .obj _ =>
    (obj.get "slowlink").isSome || (obj.get "slowlink_threshold").isSome ||
      (obj.get "slowlink-threshold").isSome
  | .arr _ =>
    (obj.get "slowlink").isSome || (obj.get "slowlink_threshold").isSome ||
      (obj.get "slowlink-threshold").isSome
  | _ => false

/-- The function `saveSlowlink(sessionId, handleId, payload, ts)`: the insert runs inside a
`try` whose `catch` only logs, for the code `42P01` as for any other error. -/
def saveSlowlink {σ : Type} (w : World σ) (sessionId handleId payload : Option Json)
    (ts : JsDate) (s : σ) : Run σ :=
  tryCatch (runQuery w
    ⟨sqlSlowlinks,
      [.json (orNull sessionId), .json (orNull handleId),
        .json (.str (jsonStringify w.host.fractionToString
          (if isNullish payload then .obj [] else orNull payload))),
        .date ts]⟩ s)

/-- The call identifier probed by `saveSipCallMap`. -/
def sipCallId (data : Option Json) : Json :=
  orNull (orElse (optGet data "call_id")
    (orElse (optGet data "call-id")
      (orElse (optGet (optGet data "headers") "Call-ID")
        (orElse (optGet (optGet data "headers") "call-id")
          (orElse (optGet data "sip_call_id") (some .null))))))

/-- The `fromUri` resolved by `saveSipCallMap`. -/
def sipFromUri (data : Option Json) : Json :=
  orNull (orElse (optGet data "from")
    (orElse (optGet data "from_uri") (orElse (optGet data "caller") (some .null))))

/-- The `toUri` resolved by `saveSipCallMap`. -/
def sipToUri (data : Option Json) : Json :=
  orNull (orElse (optGet data "to")
    (orElse (optGet data "to_uri") (orElse (optGet data "callee") (some .null))))

/-- The `direction` resolved by `saveSipCallMap`. -/
def sipDirection (data : Option Json) : Json :=
  if optGet data "incoming" = some (.bool true) then .str "in"
  else if optGet data "outgoing" = some (.bool true) then .str "out"
  else orNull (orElse (optGet data "direction") (some .null))

/-- The function `saveSipCallMap(sessionId, handleId, data, ts)`: nothing is done when the
call identifier is falsy; otherwise the upsert runs inside a `try` whose `catch` only logs. -/
def saveSipCallMap {σ : Type} (w : World σ) (sessionId handleId data : Option Json)
    (ts : JsDate) (s : σ) : Run σ :=
  if truthy (some (sipCallId data)) then
    tryCatch (runQuery w
      ⟨sqlSipCalls,
        [.json (orNull sessionId), .json (orNull handleId), .json (sipCallId data),
          .json (sipFromUri data), .json (sipToUri data), .json (sipDirection data),
          .date ts]⟩ s)
  else Run.skip s

/-- The branch `case 1`: session event. -/
def caseSession {σ : Type} (w : World σ) (json : Json) (ts : JsDate) (s : σ) : Run σ :=
  let sessionId := orNull (json.get "session_id")
  let event := orNull (optGet (json.get "event") "name")
  runQuery w ⟨sqlSessions, [.json sessionId, .json event, .date ts]⟩ s

/-- The branch `case 2`: handle event. -/
def caseHandle {σ : Type} (w : World σ) (json : Json) (ts : JsDate) (s : σ) : Run σ :=
  let sessionId := orNull (json.get "session_id")
  let handleId := orNull (json.get "handle_id")
  let event := orNull (optGet (json.get "event") "name")
  let plugin := orNull (optGet (json.get "event") "plugin")
  runQuery w
    ⟨sqlHandles, [.json sessionId, .json handleId, .json event, .json plugin, .date ts]⟩ s

/-- The branch `case 8`: JSEP event. -/
def caseJsep {σ : Type} (w : World σ) (json : Json) (ts : JsDate) (s : σ) : Run σ :=
  let sessionId := orNull (json.get "session_id")
  let handleId := orNull (json.get "handle_id")
  let remote := decide (optGet (json.get "event") "owner" = some (.str "remote"))
  let offer := decide (optGet (optGet (json.get "event") "jsep") "type" = some (.str "offer"))
  let sdp := orNull (optGet (optGet (json.get "event") "jsep") "sdp")
  runQuery w
    ⟨sqlSdps,
      [.json sessionId, .json handleId, .json (.bool remote), .json (.bool offer), .json sdp,
        .date ts]⟩ s

/-- The branch `case 16`: WebRTC events (ICE, selected pair, DTLS, connection). -/
def caseWebrtc {σ : Type} (w : World σ) (json : Json) (ts : JsDate) (s : σ) : Run σ :=
  let sessionId := orNull (json.get "session_id")
  let handleId := orNull (json.get "handle_id")
  let streamId := orNull (optGet (json.get "event") "stream_id")
  let componentId := orNull (optGet (json.get "event") "component_id")
  if ¬ isNullish (optGet (json.get "event") "ice") then
    withText (toJsString w.host.fractionToString (orNull (optGet (json.get "event") "ice")))
      (fun state =>
        runQuery w
          ⟨sqlIce,
            [.json sessionId, .json handleId, .json streamId, .json componentId,
              .json (.str state), .date ts]⟩) s
  else if ¬ isNullish (optGet (json.get "event") "selected-pair") then
    withText
      (toJsString w.host.fractionToString (orNull (optGet (json.get "event") "selected-pair")))
      (fun pair =>
        runQuery w
          ⟨sqlSelectedPairs,
            [.json sessionId, .json handleId, .json streamId, .json componentId,
              .json (.str pair), .date ts]⟩) s
  else if ¬ isNullish (optGet (json.get "event") "dtls") then
    withText (toJsString w.host.fractionToString (orNull (optGet (json.get "event") "dtls")))
      (fun state =>
        runQuery w
          ⟨sqlDtls, [.json sessionId, .json handleId, .json (.str state), .date ts]⟩) s
  else if ¬ isNullish (optGet (json.get "event") "connection") then
    withText
      (toJsString w.host.fractionToString (orNull (optGet (json.get "event") "connection")))
      (fun state =>
        runQuery w
          ⟨sqlConnections,
            [.json sessionId, .json handleId, .json (.str state), .date ts]⟩) s
  else Run.skip s

/-- The expression `json.event || {}`: the event when it is truthy, else an empty object. -/
def eventOrEmpty (json : Json) : Json :=
  if truthy (json.get "event") then orNull (json.get "event") else .obj []

/-- The branch `case 32`: media and statistics. -/
def caseMedia {σ : Type} (w : World σ) (json : Json) (ts : JsDate) (s : σ) : Run σ :=
  let sessionId := orNull (json.get "session_id")
  let handleId := orNull (json.get "handle_id")
  let subtype := orNull (json.get "subtype")
  let e := eventOrEmpty json
  let medium := orNull (e.get "media")
  if ¬ isNullish (e.get "receiving") then
    let receiving := decide (e.get "receiving" = some (.bool true))
    runQuery w
      ⟨sqlMedia,
        [.json sessionId, .json handleId, .json medium, .json (.bool receiving), .date ts]⟩ s
  else if ¬ isNullish (e.get "base") then
    let mid := orNull (e.get "mid")
    let mindex := orNull (e.get "mindex")
    let codec := orNull (e.get "codec")
    let rtt := orNull (e.get "rtt")
    let rtt_ntp := orNull (optGet (e.get "rtt-values") "ntp")
    let rtt_lsr := orNull (optGet (e.get "rtt-values") "lsr")
    let rtt_dlsr := orNull (optGet (e.get "rtt-values") "dlsr")
    let in_lq := orNull (e.get "in-link-quality")
    let in_mlq := orNull (e.get "in-media-link-quality")
    let out_lq := orNull (e.get "out-link-quality")
    let out_mlq := orNull (e.get "out-media-link-quality")
    let pkt_recv := orNull (e.get "packets-received")
    let pkt_sent := orNull (e.get "packets-sent")
    let by_recv := orNull (e.get "bytes-received")
    let by_sent := orNull (e.get "bytes-sent")
    let by_recv1 := orNull (e.get "bytes-received-lastsec")
    let by_sent1 := orNull (e.get "bytes-sent-lastsec")
    let nacks_recv := orNull (e.get "nacks-received")
    let nacks_sent := orNull (e.get "nacks-sent")
    let retr_recv := orNull (e.get "retransmissions-received")
    runQuery w
      ⟨sqlStats,
        [.json sessionId, .json handleId, .json subtype, .json mid, .json mindex, .json codec,
          .json medium,
          .json (orNull (e.get "base")), .json (orNull (e.get "lsr")),
          .json (orNull (e.get "lost")), .json (orNull (e.get "lost-by-remote")),
          .json (orNull (e.get "jitter-local")), .json (orNull (e.get "jitter-remote")),
          .json pkt_sent, .json pkt_recv, .json by_sent, .json by_recv, .json nacks_sent,
          .json nacks_recv,
          .json rtt, .json rtt_ntp, .json rtt_lsr, .json rtt_dlsr,
          .json in_lq, .json in_mlq, .json out_lq, .json out_mlq,
          .json by_sent1, .json by_recv1, .json retr_recv,
          .date ts]⟩ s
  else Run.skip s

/-- The branches `case 64` and `case 128`: plugin and transport events; `isPlugin` is
`json.type === 64`. -/
def casePlugin {σ : Type} (w : World σ) (isPlugin : Bool) (json : Json) (ts : JsDate)
    (s : σ) : Run σ :=
  let sessionId := orNull (json.get "session_id")
  let handleId := orNull (json.get "handle_id")
  let plugin := orNull (optGet (json.get "event") "plugin")
  let data := orNull (optGet (json.get "event") "data")
  let eventStr := jsonStringify w.host.fractionToString data
  (runQuery w
    ⟨if isPlugin then sqlPlugins else sqlTransports,
      [.json sessionId, .json handleId, .json plugin, .json (.str eventStr), .date ts]⟩
    s).andThen fun s1 =>
  (if hasSlowlink data then saveSlowlink w (some sessionId) (some handleId) (some data) ts s1
    else Run.skip s1).andThen fun s2 =>
  if plugin = .str "janus.plugin.sip" ∧ truthy (some data) then
    saveSipCallMap w (some sessionId) (some handleId) (some data) ts s2
  else Run.skip s2

/-- The branch `case 256`: core events. The template literal converts `value`, then
`signum`, to text; when a conversion throws, the core insert is not reached. -/
def caseCore {σ : Type} (w : World σ) (json : Json) (ts : JsDate) (s : σ) : Run σ :=
  let ev := eventOrEmpty json
  (if hasSlowlink ev then
      saveSlowlink w (some (orNull (json.get "session_id")))
        (some (orNull (json.get "handle_id"))) (some ev) ts s
    else Run.skip s).andThen fun s1 =>
  let name := "status"
  let value := orNull (ev.get name)
  let signum := ev.get "signum"
  let value : Option Json :=
    if truthy signum then
      (toJsString w.host.fractionToString value).bind fun status =>
        (toJsString w.host.fractionToString (orNull signum)).map fun signal =>
          Json.str (status ++ " (" ++ signal ++ ")")
    else some value
  match value with
  | some value => runQuery w ⟨sqlCore, [.json (.str name), .json value, .date ts]⟩ s1
  | none => Run.raise conversionError s1

/-- The `switch (json.type)` of `handleEvent`; the cases compare with `===`. -/
def dispatch {σ : Type} (w : World σ) (json : Json) (ts : JsDate) (s : σ) : Run σ :=
  match json.get "type" with
  | some (.num t) =>
    if t = 1 then caseSession w json ts s
    else if t = 2 then caseHandle w json ts s
    else if t = 8 then caseJsep w json ts s
    else if t = 16 then caseWebrtc w json ts s
    else if t = 32 then caseMedia w json ts s
    else if t = 64 then casePlugin w true json ts s
    else if t = 128 then casePlugin w false json ts s
    else if t = 256 then caseCore w json ts s
    else Run.skip s
  | _ => Run.skip s

/-- The part of `handleEvent` after the array test: a payload that is not an object is
ignored; otherwise the timestamp is normalised and the `switch` runs inside a `try` whose
`catch` only logs. -/
def handleObject {σ : Type} (w : World σ) (payload : Json) (s : σ) : Run σ :=
  match payload with
  | .obj _ =>
    tryCatch (dispatch w payload (toDate w (toJsValue (payload.get "timestamp")) s).1
      (toDate w (toJsValue (payload.get "timestamp")) s).2)
  | _ => Run.skip s

mutual
/-- The function `handleEvent(payload)`: an array is processed element by element, any
other payload by `handleObject`. -/
def handleEvent {σ : Type} (w : World σ) : Json → σ → Run σ
  | .arr items, s => handleItems w items s
  | .null, s => handleObject w .null s
  | .bool b, s => handleObject w (.bool b) s
  | .num q, s => handleObject w (.num q) s
  | .infinite negative, s => handleObject w (.infinite negative) s
  | .str t, s => handleObject w (.str t) s
  | .obj fields, s => handleObject w (.obj fields) s
/-- The loop `for (const item of payload) await handleEvent(item)`. -/
def handleItems {σ : Type} (w : World σ) : List Json → σ → Run σ
  | [], s => Run.skip s
  | item :: rest, s => (handleEvent w item s).andThen (handleItems w rest)
end

/-! ## The `sip_calls` relation and concrete sinks -/

/-- A row of `sip_calls`, holding the values bound to the seven parameters of the upsert. -/
structure SipCallRecord where
  session : Json
  handle : Json
  call_id : Json
  from_uri : Json
  to_uri : Json
  direction : Json
  created_at : JsDate
  deriving DecidableEq

/-- Modelled from the spec: the `sip_calls` relation with its unique key `call_id` (the
schema is not part of the source). The statement run against it is the one `saveSipCallMap`
issues: insert the row or, on a conflict on `call_id`, set `session` and `handle` to the new
values and `direction` to `COALESCE(sip_calls.direction, EXCLUDED.direction)`. -/
def upsertSipCall : List SipCallRecord → SipCallRecord → List SipCallRecord
  | [], r => [r]
  | x :: rest, r =>
    if x.call_id = r.call_id then
      { x with
        session := r.session
        handle := r.handle
        direction := if x.direction = .null then r.direction else x.direction } :: rest
    else x :: upsertSipCall rest r

/-- The stored row of a call identifier. -/
def findCall (store : List SipCallRecord) (id : Json) : Option SipCallRecord :=
  store.find? (fun x => decide (x.call_id = id))

/-- The row bound by the parameters of the `sip_calls` upsert. -/
def decodeSipCall : List Param → Option SipCallRecord
  | [.json a, .json b, .json c, .json d, .json e, .json f, .date t] =>
    some ⟨a, b, c, d, e, f, t⟩
  | _ => none

/-- The contents of an in-memory sink: the `sip_calls` relation and, in insertion order,
the inserts into the append-only relations. -/
structure Store where
  sipCalls : List SipCallRecord
  rows : List Query

/-- Modelled from the spec: a persistence sink that accepts every write, keeping
`sip_calls` under the upsert above and appending every other insert; the clock stands at
`clock`. -/
def memoryWorld (host : Host) (clock : JsDate) : World Store where
  host := host
  query q st :=
    if q.text = sqlSipCalls then
      match decodeSipCall q.values with
      | some r => (none, { st with sipCalls := upsertSipCall st.sipCalls r })
      | none => (some ⟨some "08P01", "bind message"⟩, st)
    else (none, { st with rows := st.rows ++ [q] })
  now st := (clock, st)

/-- An order-capturing sink: it accepts every write and its state is the list of the
queries it received, in order. -/
def recordingWorld (host : Host) (clock : JsDate) : World (List Query) where
  host := host
  query q st := (none, st ++ [q])
  now st := (clock, st)

/-- A sink that rejects every write with the error `err`. -/
def rejectingWorld (host : Host) (clock : JsDate) (err : DbError) : World Unit where
  host := host
  query _ st := (some err, st)
  now st := (clock, st)

/-- A host for the worked examples, none of which consults a textual built-in: their
timestamps are Numbers or absent and their Numbers are integers. -/
def plainHost : Host where
  dateParse _ := .nan
  stringToNumber _ := .nan
  fractionToString _ := ""

/-- The decimal digit count of a natural number (`0` has none). -/
def decimalDigits (a : Nat) : Nat := (Nat.digits 10 a).length

/-- The instant `handleEvent` stamps on the records of the event `json`, met in state `s`. -/
def eventStamp {σ : Type} (w : World σ) (json : Json) (s : σ) : JsDate :=
  (toDate w (toJsValue (json.get "timestamp")) s).1

/-- The write sequences of the elements of a batch, concatenated in array order, each
element being run on its own from the state its predecessors left. -/
def writesInOrder {σ : Type} (w : World σ) : List Json → σ → List Query
  | [], _ => []
  | item :: rest, s =>
    (handleEvent w item s).writes ++ writesInOrder w rest (handleEvent w item s).state

/-- The first value of a probe list that is neither `undefined` nor `null`; `null` when
there is none. -/
def firstPresent : List (Option Json) → Json
  | [] => .null
  | x :: rest => if isNullish x then firstPresent rest else orNull x

/-- A piece of the handler respects a relation `R` between the sink state and the writes
made so far when running it from a related pair leads to a related pair. -/
def Respects {σ : Type} (R : σ → List Query → Prop) (k : σ → Run σ) : Prop :=
  ∀ s acc, R s acc → R (k s).state (acc ++ (k s).writes)

/-! ## Worked payloads -/

/-- A plugin event (`type` 64) of the SIP plugin carrying the nested payload `data`. -/
def sipEvent (session handle : ℚ) (data : Json) : Json :=
  .obj [("type", .num 64), ("session_id", .num session), ("handle_id", .num handle),
    ("event", .obj [("plugin", .str "janus.plugin.sip"), ("data", data)])]

/-- The clock reading used by the worked examples. -/
def noon : JsDate := ⟨some 1725000000000⟩

/-- The empty in-memory sink. -/
def emptyStore : Store := ⟨[], []⟩

/-- The error of the rejecting sink in the worked examples. -/
def connectionLost : DbError := ⟨some "57P01", "terminating connection"⟩

/-- A session event (`type` 1). -/
def sessionCreated : Json :=
  .obj [("type", .num 1), ("session_id", .num 11), ("event", .obj [("name", .str "created")])]

/-- A handle event (`type` 2). -/
def handleAttached : Json :=
  .obj [("type", .num 2), ("session_id", .num 11), ("handle_id", .num 22),
    ("event", .obj [("name", .str "attached"), ("plugin", .str "janus.plugin.echotest")])]

/-- A core event (`type` 256) with a status and a signal number. -/
def coreStopped : Json :=
  .obj [("type", .num 256),
    ("event", .obj [("status", .str "stopped"), ("signum", .num 15)])]

/-- A core event (`type` 256) whose `signum` field is present and holds `0`. -/
def coreSignumZero : Json :=
  .obj [("type", .num 256), ("event", .obj [("status", .str "stopped"), ("signum", .num 0)])]

/-- A WebRTC event (`type` 16) with both `ice` and `selected-pair`. -/
def iceAndPair : Json :=
  .obj [("type", .num 16), ("session_id", .num 100), ("handle_id", .num 200),
    ("event", .obj [("stream_id", .num 3), ("component_id", .num 4),
      ("ice", .str "connected"), ("selected-pair", .str "a <-> b")])]

/-- A WebRTC event (`type` 16) reporting a DTLS state on stream 3, component 4. -/
def dtlsConnected : Json :=
  .obj [("type", .num 16), ("session_id", .num 100), ("handle_id", .num 200),
    ("event", .obj [("stream_id", .num 3), ("component_id", .num 4),
      ("dtls", .str "connected")])]

/-- First sighting of call `X`: session 1, handle 10, incoming, from alice to bob. -/
def sipFirst : Json :=
  sipEvent 1 10 (.obj [("call_id", .str "X"), ("incoming", .bool true),
    ("from", .str "sip:alice@example.org"), ("to", .str "sip:bob@example.org")])

/-- The nested payload of the second sighting of call `X`: no direction, other URIs. -/
def sipSecondData : Json :=
  .obj [("call_id", .str "X"), ("from", .str "sip:carol@example.org"),
    ("to", .str "sip:dave@example.org")]

/-- Second sighting of call `X`: session 2, handle 20. -/
def sipSecond : Json := sipEvent 2 20 sipSecondData

/-- A SIP payload whose `call_id` is present but empty, with a usable `call-id` alias. -/
def emptyCallId : Json := .obj [("call_id", .str ""), ("call-id", .str "abc@host")]

/-! ## Statement texts, spec-side notions and further sinks -/

/-- The rest of a statement after its first opening parenthesis. -/
def afterParen : List Char → List Char
  | [] => []
  | c :: cs => if c = '(' then cs else afterParen cs

/-- The names listed up to the next closing parenthesis, separated by commas; blanks and
line breaks are dropped. The first argument holds the name being read, last character
first. -/
def splitColumns : List Char → List Char → List String
  | _, [] => []
  | cur, c :: cs =>
    if c = ')' then [String.mk cur.reverse]
    else if c = ',' then String.mk cur.reverse :: splitColumns [] cs
    else if c = ' ' ∨ c = '\n' then splitColumns cur cs
    else splitColumns (c :: cur) cs

/-- The column list of an insert statement, read off its text. -/
def insertColumns (sql : String) : List String := splitColumns [] (afterParen sql.data)

/-- The number of parameter placeholders `$n` in a statement. -/
def placeholderCount (sql : String) : Nat := (sql.data.filter (fun c => c = '$')).length

/-- Whether a nested payload is an object with one of the keys `slowlink`,
`slowlink_threshold`, `slowlink-threshold`. -/
def containsSlowlinkKey : Json → Bool
  | .obj fields =>
    fields.any (fun kv =>
      kv.1 == "slowlink" || kv.1 == "slowlink_threshold" || kv.1 == "slowlink-threshold")
  | _ => false

/-- The statements that insert a primary record, one per relation. -/
def primaryTexts : List String :=
  [sqlSessions, sqlHandles, sqlSdps, sqlIce, sqlSelectedPairs, sqlDtls, sqlConnections,
    sqlMedia, sqlStats, sqlPlugins, sqlTransports, sqlCore]

/-- Whether a query inserts a primary record. -/
def isPrimary (q : Query) : Bool := decide (q.text ∈ primaryTexts)

/-- The primary relation of the event types that always write one record. -/
def primaryTextOf (t : ℚ) : String :=
  if t = 1 then sqlSessions
  else if t = 2 then sqlHandles
  else if t = 8 then sqlSdps
  else if t = 64 then sqlPlugins
  else if t = 128 then sqlTransports
  else sqlCore

/-- The state in which the `switch` of `handleEvent` starts: the one left by `toDate`. -/
def eventState {σ : Type} (w : World σ) (json : Json) (s : σ) : σ :=
  (toDate w (toJsValue (json.get "timestamp")) s).2

/-- The primary insert of a type-64 (`isPlugin`) or type-128 event: session, handle, plugin,
the serialised nested `data` and the timestamp. -/
def pluginQuery (frac : ℚ → String) (isPlugin : Bool) (json : Json) (ts : JsDate) : Query :=
  ⟨if isPlugin then sqlPlugins else sqlTransports,
    [.json (orNull (json.get "session_id")), .json (orNull (json.get "handle_id")),
      .json (orNull (optGet (json.get "event") "plugin")),
      .json (.str (jsonStringify frac (orNull (optGet (json.get "event") "data")))),
      .date ts]⟩

/-- The slowlinks insert of the event `json` for the nested payload `payload`: session,
handle, the serialised payload and the timestamp. -/
def slowlinkQuery (frac : ℚ → String) (json payload : Json) (ts : JsDate) : Query :=
  ⟨sqlSlowlinks,
    [.json (orNull (json.get "session_id")), .json (orNull (json.get "handle_id")),
      .json (.str (jsonStringify frac payload)), .date ts]⟩

/-- The `sip_calls` upsert of the event `json` for the nested payload `data`. -/
def sipCallQuery (json data : Json) (ts : JsDate) : Query :=
  ⟨sqlSipCalls,
    [.json (orNull (json.get "session_id")), .json (orNull (json.get "handle_id")),
      .json (sipCallId (some data)), .json (sipFromUri (some data)),
      .json (sipToUri (some data)), .json (sipDirection (some data)), .date ts]⟩

/-- The value bound by the core insert of a type-256 event: the status, followed by the
signal number in parentheses when `signum` is truthy; `none` when that text cannot be built
because a conversion throws. -/
def coreValue (frac : ℚ → String) (json : Json) : Option Json :=
  if truthy ((eventOrEmpty json).get "signum") then
    (toJsString frac (orNull ((eventOrEmpty json).get "status"))).bind fun status =>
      (toJsString frac (orNull ((eventOrEmpty json).get "signum"))).map fun signal =>
        Json.str (status ++ " (" ++ signal ++ ")")
  else some (orNull ((eventOrEmpty json).get "status"))

/-- The core insert binding the value `value`: the name `status`, the value and the
timestamp. -/
def coreQuery (value : Json) (ts : JsDate) : Query :=
  ⟨sqlCore, [.json (.str "status"), .json value, .date ts]⟩

/-- The core inserts of a type-256 event: one, or none when its value cannot be built. -/
def coreInserts (frac : ℚ → String) (json : Json) (ts : JsDate) : List Query :=
  (coreValue frac json).toList.map fun value => coreQuery value ts

/-- The error of a deployment without the `slowlinks` relation. -/
def undefinedTable : DbError := ⟨some "42P01", "relation slowlinks does not exist"⟩

/-- A sink without the `slowlinks` relation: it rejects every slowlinks insert with the
code `42P01`, accepts every other write and keeps the accepted writes in order. -/
def missingSlowlinksWorld (host : Host) (clock : JsDate) : World (List Query) where
  host := host
  query q st := if q.text = sqlSlowlinks then (some undefinedTable, st) else (none, st ++ [q])
  now st := (clock, st)

/-- A SIP plugin event (`type` 64) whose nested payload has a slowlink key and a call
identifier. -/
def sipSlowlink : Json :=
  sipEvent 5 6 (.obj [("slowlink", .str "uplink"), ("call_id", .str "Y")])

/-- A core event (`type` 256) whose payload has a slowlink threshold. -/
def coreSlowlink : Json :=
  .obj [("type", .num 256), ("event", .obj [("status", .str "update"),
    ("slowlink_threshold", .num 4)])]

/-- A media event (`type` 32) with both `receiving` and `base`. -/
def mediaReceiving : Json :=
  .obj [("type", .num 32), ("session_id", .num 5), ("handle_id", .num 6),
    ("event", .obj [("media", .str "audio"), ("receiving", .bool true), ("base", .num 90000)])]

/-- A statistics event (`type` 32) carrying only a few of the counters. -/
def statsSparse : Json :=
  .obj [("type", .num 32), ("subtype", .num 3), ("session_id", .num 5), ("handle_id", .num 6),
    ("event", .obj [("media", .str "video"), ("base", .num 90000), ("lost", .num 2),
      ("rtt-values", .obj [("ntp", .num 7)]), ("packets-sent", .num 40),
      ("bytes-received-lastsec", .num 0)])]

/-- A JSEP event (`type` 8) of a remote offer. -/
def jsepRemoteOffer : Json :=
  .obj [("type", .num 8), ("session_id", .num 5), ("handle_id", .num 6),
    ("event", .obj [("owner", .str "remote"),
      ("jsep", .obj [("type", .str "offer"), ("sdp", .str "v=0")])])]

/-- A JSEP event (`type` 8) without `owner` and without `jsep`. -/
def jsepBare : Json :=
  .obj [("type", .num 8), ("session_id", .num 5), ("handle_id", .num 6), ("event", .obj [])]

/-- An event whose `type` is the string `1`. -/
def typeAsString : Json :=
  .obj [("type", .str "1"), ("session_id", .num 11), ("event", .obj [("name", .str "created")])]

/-- A transport event (`type` 128) without nested `data`. -/
def transportNoData : Json :=
  .obj [("type", .num 128), ("session_id", .num 5),
    ("event", .obj [("plugin", .str "janus.transport.http")])]

/-- A host whose `Date.parse` reads the one text `2024-08-30T06:40:00.000Z` and whose
`Number(..)` reads the one text `1725000000`; every other text is refused by both. -/
def isoHost : Host where
  dateParse t := if t = "2024-08-30T06:40:00.000Z" then .finite 1725000000000 else .nan
  stringToNumber t := if t = "1725000000" then .finite 1725000000 else .nan
  fractionToString _ := ""

/-! ## Sequences of ingestions, a ticking clock and further payloads -/

/-- The state left by a sequence of ingestions: `handleEvent` is called on each payload in
turn. -/
def ingestAll {σ : Type} (w : World σ) : List Json → σ → σ
  | [], s => s
  | payload :: rest, s => ingestAll w rest (handleEvent w payload s).state

/-- The call identifiers held by a `sip_calls` store, in storage order. -/
def callIds (store : List SipCallRecord) : List Json := store.map (fun r => r.call_id)

/-- An order-capturing sink with a running clock: it accepts every write and keeps them in
order; every clock reading returns the current millisecond and moves the clock on by one. -/
def tickingWorld (host : Host) : World (List Query × Int) where
  host := host
  query q st := (none, (st.1 ++ [q], st.2))
  now st := (⟨some st.2⟩, (st.1, st.2 + 1))

/-- A session event (`type` 1) with a numeric timestamp in seconds. -/
def sessionStamped : Json :=
  .obj [("type", .num 1), ("session_id", .num 11), ("timestamp", .num 1725000000),
    ("event", .obj [("name", .str "created")])]

/-- A SIP payload with a free-form `direction` that is neither `in` nor `out`. -/
def sipSideways : Json := .obj [("call_id", .str "Z"), ("direction", .str "sideways")]

/-- A SIP payload whose `call_id` is present and holds `0`, with a usable `sip_call_id`. -/
def zeroCallId : Json := .obj [("call_id", .num 0), ("sip_call_id", .str "abc@host")]

/-- A plugin event (`type` 64) of another plugin whose payload carries a call identifier. -/
def echoWithCallId : Json :=
  .obj [("type", .num 64), ("session_id", .num 5), ("handle_id", .num 6),
    ("event", .obj [("plugin", .str "janus.plugin.echotest"),
      ("data", .obj [("call_id", .str "Y")])])]

/-- A write with its instants blanked out: what is left of a record when its timestamp is
disregarded. -/
def eraseStamp (q : Query) : Query :=
  ⟨q.text, q.values.map fun p =>
    match p with
    | .date _ => .date ⟨none⟩
    | .json j => .json j⟩

/-! ## Values without a conversion to text -/

mutual
/-- Whether `String(j)` returns: it does unless `j` is an object with an own key `toString`,
or an array with, at any depth of nesting, such an object among its elements. -/
def convertsToText : Json → Bool
  | .obj fields => (fields.lookup "toString").isNone
  | .arr items => allConvertToText items
  | _ => true
/-- Whether every element of an array has a conversion to text. -/
def allConvertToText : List Json → Bool
  | [] => true
  | item :: rest => convertsToText item && allConvertToText rest
end

/-- A SIP payload with the `outgoing` flag set and a free-form `direction`. -/
def sipOutgoing : Json :=
  .obj [("call_id", .str "Z"), ("outgoing", .bool true), ("direction", .str "sideways")]

/-- A session event (`type` 1) whose timestamp literal overflowed to `Infinity`. -/
def sessionInfiniteStamp : Json :=
  .obj [("type", .num 1), ("session_id", .num 11), ("timestamp", .infinite false),
    ("event", .obj [("name", .str "created")])]

/-- A WebRTC event (`type` 16) whose `ice` field is an object with an own key `toString`,
next to a `selected-pair`. -/
def iceUnprintable : Json :=
  .obj [("type", .num 16), ("session_id", .num 100), ("handle_id", .num 200),
    ("event", .obj [("ice", .obj [("toString", .num 0)]), ("selected-pair", .str "a <-> b")])]

/-- A core event (`type` 256) whose `signum` is an object with an own key `toString`. -/
def coreUnprintable : Json :=
  .obj [("type", .num 256),
    ("event", .obj [("status", .str "stopped"), ("signum", .obj [("toString", .num 0)])])]

/-! # Theorems -/

/-! ## Decimal digits and `Number::toString` -/

theorem toDigitsCore_length (f : Nat) :
    ∀ n : Nat, n < f → (Nat.toDigitsCore 10 f n []).length = Nat.log 10 n + 1 := by
  induction f with
  | zero => intro n h; omega
  | succ f ih =>
    intro n h
    simp only [Nat.toDigitsCore]
    by_cases h0 : n / 10 = 0
    · have hn : n < 10 := by omega
      simp [h0, Nat.log_of_lt hn]
    · have hn : 10 ≤ n := by omega
      rw [if_neg h0, Nat.toDigitsCore_lens_eq, ih (n / 10) (by omega),
        Nat.log_of_one_lt_of_le (by norm_num) hn]

theorem toDigits_length (n : Nat) : (Nat.toDigits 10 n).length = Nat.log 10 n + 1 := by
  unfold Nat.toDigits
  exact toDigitsCore_length (n + 1) n (by omega)

theorem repr_length (n : Nat) : (Nat.repr n).length = Nat.log 10 n + 1 := by
  simp [Nat.repr, toDigits_length]

theorem roundToDouble_pow_ten (m : Nat) (h : m ≤ 21) : roundToDouble (10 ^ m) = 10 ^ m := by
  interval_cases m <;> decide

theorem pickDecimal_spec {x e v : Nat} (h : pickDecimal x e = some v) :
    0 < v ∧ roundToDouble v = x ∧
      (v = x / 10 ^ e * 10 ^ e ∨ v = x / 10 ^ e * 10 ^ e + 10 ^ e) := by
  unfold pickDecimal at h
  simp only [readsBack, Bool.and_eq_true, decide_eq_true_eq] at h
  split_ifs at h with h1 h2 h3 h4 h5 h6 <;> simp only [Option.some.injEq] at h <;> subst h
  all_goals first
    | exact ⟨h1.1.1, h1.1.2, Or.inl rfl⟩
    | exact ⟨h1.2.1, h1.2.2, Or.inr rfl⟩
    | exact ⟨h5.1, h5.2, Or.inl rfl⟩
    | exact ⟨h6.1, h6.2, Or.inr rfl⟩

theorem pickDecimal_bounds {x e v L : Nat} (hL : L + 1 ≤ 21) (hlo : 10 ^ L ≤ x)
    (hhi : x < 10 ^ (L + 1)) (he : e ≤ L + 1) (h : pickDecimal x e = some v) :
    10 ^ L ≤ v ∧ v < 10 ^ (L + 1) := by
  obtain ⟨hpos, hrb, hv⟩ := pickDecimal_spec h
  have hp : 0 < 10 ^ e := Nat.pow_pos (by norm_num)
  have hdm := Nat.div_add_mod x (10 ^ e)
  have hmod := Nat.mod_lt x hp
  have hmul : x / 10 ^ e * 10 ^ e = 10 ^ e * (x / 10 ^ e) := Nat.mul_comm _ _
  rcases hv with hv | hv
  · -- the lower neighbour
    have hle : v ≤ x := by rw [hv, hmul]; omega
    refine ⟨?_, by omega⟩
    rcases Nat.lt_or_ge L e with hlt | hge
    · have : e = L + 1 := by omega
      subst this
      rw [Nat.div_eq_of_lt hhi] at hv
      omega
    · have hsplit : 10 ^ L = 10 ^ (L - e) * 10 ^ e := by
        rw [← pow_add]; congr 1; omega
      have : 10 ^ (L - e) ≤ x / 10 ^ e := by
        rw [Nat.le_div_iff_mul_le hp, ← hsplit]; exact hlo
      rw [hv, hsplit]
      exact Nat.mul_le_mul_right _ this
  · -- the upper neighbour
    have hgt : x < v := by rw [hv, hmul]; omega
    refine ⟨by omega, ?_⟩
    have hsplit : 10 ^ (L + 1) = 10 ^ (L + 1 - e) * 10 ^ e := by
      rw [← pow_add]; congr 1; omega
    have hq : x / 10 ^ e < 10 ^ (L + 1 - e) := by
      rw [Nat.div_lt_iff_lt_mul hp, ← hsplit]; exact hhi
    have hle : v ≤ 10 ^ (L + 1) := by
      rw [hv, hsplit]
      calc x / 10 ^ e * 10 ^ e + 10 ^ e = (x / 10 ^ e + 1) * 10 ^ e := by ring
        _ ≤ 10 ^ (L + 1 - e) * 10 ^ e := Nat.mul_le_mul_right _ hq
    rcases Nat.lt_or_ge v (10 ^ (L + 1)) with h1 | h1
    · exact h1
    · have hveq : v = 10 ^ (L + 1) := by omega
      rw [hveq, roundToDouble_pow_ten _ hL] at hrb
      omega

theorem shortestFrom_bounds {x L : Nat} (hL : L + 1 ≤ 21) (hlo : 10 ^ L ≤ x)
    (hhi : x < 10 ^ (L + 1)) :
    ∀ e : Nat, e ≤ L + 1 → 10 ^ L ≤ shortestFrom x e ∧ shortestFrom x e < 10 ^ (L + 1) := by
  intro e
  induction e with
  | zero =>
    intro he
    simp only [shortestFrom]
    cases hp : pickDecimal x 0 with
    | none => exact ⟨hlo, hhi⟩
    | some v => exact pickDecimal_bounds hL hlo hhi he hp
  | succ e ih =>
    intro he
    simp only [shortestFrom]
    cases hp : pickDecimal x (e + 1) with
    | none => exact ih (by omega)
    | some v => exact pickDecimal_bounds hL hlo hhi he hp

/-- Below `10 ^ 21`, `String(x)` has as many characters as `x` has decimal digits. -/
theorem natToJsString_length {x : Nat} (h : x < 10 ^ 21) :
    (natToJsString x).length = Nat.log 10 x + 1 := by
  unfold natToJsString
  by_cases h0 : x = 0
  · subst h0
    have h1 : ("0" : String).length = 1 := by decide
    simp [h1]
  · rw [if_neg h0]
    have hlo : 10 ^ Nat.log 10 x ≤ x := Nat.pow_log_le_self 10 h0
    have hhi : x < 10 ^ (Nat.log 10 x + 1) := Nat.lt_pow_succ_log_self (by norm_num) x
    have hL : Nat.log 10 x + 1 ≤ 21 := by
      have := (Nat.lt_pow_iff_log_lt (by norm_num : 1 < 10) h0).1 h
      omega
    have hb := shortestFrom_bounds hL hlo hhi (Nat.toDigits 10 x).length
      (by rw [toDigits_length])
    have hv21 : shortestDecimal x < 10 ^ 21 :=
      lt_of_lt_of_le hb.2 (Nat.pow_le_pow_right (by norm_num) hL)
    have hv0 : shortestDecimal x ≠ 0 := by
      have : 0 < 10 ^ Nat.log 10 x := Nat.pow_pos (by norm_num)
      unfold shortestDecimal; omega
    simp only [hv21, if_true]
    rw [repr_length]
    congr 1
    exact (Nat.log_eq_iff (Or.inr ⟨by norm_num, hv0⟩)).2 hb

theorem decimalDigits_eq {a : Nat} (h : a ≠ 0) : decimalDigits a = Nat.log 10 a + 1 :=
  Nat.digits_len 10 a (by norm_num) h

/-- Below `10 ^ 21` the length measured by `toDate` passes a threshold exactly when the
decimal digit count does. -/
theorem length_ge_iff {a k : Nat} (h : a < 10 ^ 21) (hk : 2 ≤ k) :
    k ≤ (natToJsString a).length ↔ k ≤ decimalDigits a := by
  rw [natToJsString_length h]
  by_cases h0 : a = 0
  · subst h0
    simp [decimalDigits]
    omega
  · rw [decimalDigits_eq h0]

theorem mathTrunc_natCast (n : Nat) : mathTrunc (n : ℚ) = n := by
  simp [mathTrunc]

/-! ## Binary64 rounding -/

theorem ulp_pos (q : ℚ) : 0 < ulp q := by
  unfold ulp; positivity

theorem roundHalfEven_sub_le (x : ℚ) : |(roundHalfEven x : ℚ) - x| ≤ 1 / 2 := by
  have h1 := Int.floor_le x
  have h2 := Int.lt_floor_add_one x
  unfold roundHalfEven
  rw [abs_le]
  split_ifs <;> push_cast <;> constructor <;> linarith

theorem roundHalfEven_intCast (n : ℤ) : roundHalfEven (n : ℚ) = n := by
  unfold roundHalfEven
  simp

/-- Rounding moves a value by at most half the spacing at it. -/
theorem round_sub_le (q : ℚ) :
    |(roundHalfEven (q / ulp q) : ℚ) * ulp q - q| ≤ ulp q / 2 := by
  have hu := ulp_pos q
  have h := roundHalfEven_sub_le (q / ulp q)
  have e : (roundHalfEven (q / ulp q) : ℚ) * ulp q - q =
      ((roundHalfEven (q / ulp q) : ℚ) - q / ulp q) * ulp q := by
    field_simp
  rw [e, abs_mul, abs_of_pos hu]
  calc |(roundHalfEven (q / ulp q) : ℚ) - q / ulp q| * ulp q ≤ 1 / 2 * ulp q :=
        mul_le_mul_of_nonneg_right h hu.le
    _ = ulp q / 2 := by ring

theorem binadeExponent_le {q : ℚ} {k : ℤ} (h : |q| < 2 ^ (k + 1)) (h0 : 0 ≤ k) :
    binadeExponent q ≤ k := by
  unfold binadeExponent
  apply max_le _ (by omega)
  rcases eq_or_ne q 0 with rfl | hq
  · simp [Int.log_of_right_le_zero, h0]
  · have hpos : 0 < |q| := abs_pos.2 hq
    have := (Int.lt_zpow_iff_log_lt (b := 2) (by norm_num) hpos (x := k + 1)).1
      (by exact_mod_cast h)
    omega

theorem le_binadeExponent {q : ℚ} {k : ℤ} (h : 2 ^ k ≤ |q|) : k ≤ binadeExponent q := by
  unfold binadeExponent
  have hpos : 0 < |q| := lt_of_lt_of_le (by positivity) h
  have := (Int.zpow_le_iff_le_log (b := 2) (by norm_num) hpos (x := k)).1 (by exact_mod_cast h)
  exact le_max_of_le_left this

theorem ulp_le {q : ℚ} {k : ℤ} (h : |q| < 2 ^ (k + 1)) (h0 : 0 ≤ k) :
    ulp q ≤ 2 ^ (k - 52) := by
  unfold ulp
  exact zpow_le_zpow_right₀ (by norm_num) (by have := binadeExponent_le h h0; omega)

theorem toBinary64_finite {q r : ℚ} (h : toBinary64 q = .finite r) :
    r = (roundHalfEven (q / ulp q) : ℚ) * ulp q := by
  unfold toBinary64 at h
  simp only at h
  split_ifs at h
  · exact (JsNumber.finite.inj h).symm

theorem toBinary64_of_lt {q : ℚ} (h : |(roundHalfEven (q / ulp q) : ℚ) * ulp q| < 2 ^ 1024) :
    toBinary64 q = .finite ((roundHalfEven (q / ulp q) : ℚ) * ulp q) := by
  unfold toBinary64
  simp only [h, if_true]

/-- A binary64 Number of magnitude at least `2 ^ k` is a multiple of `2 ^ (k - 52)`. -/
theorem isBinary64_grid {q : ℚ} {k : ℤ} (hd : isBinary64 q) (h : 2 ^ k ≤ |q|) :
    ∃ j : ℤ, q = j * 2 ^ (k - 52) := by
  have hq := toBinary64_finite hd
  have hk := le_binadeExponent h
  obtain ⟨n, hn⟩ := Int.eq_ofNat_of_zero_le (by omega : 0 ≤ binadeExponent q - k)
  refine ⟨roundHalfEven (q / ulp q) * 2 ^ n, ?_⟩
  have hu : ulp q = 2 ^ n * 2 ^ (k - 52) := by
    unfold ulp
    rw [← zpow_natCast, ← zpow_add₀ (by norm_num : (2 : ℚ) ≠ 0)]
    congr 1
    omega
  calc q = (roundHalfEven (q / ulp q) : ℚ) * ulp q := hq
    _ = ((roundHalfEven (q / ulp q) * 2 ^ n : ℤ) : ℚ) * 2 ^ (k - 52) := by
      rw [hu]; push_cast; ring

/-- Below a bound on the grid, a binary64 Number stays one grid step away from it. -/
theorem isBinary64_le_pred {q : ℚ} {k : ℤ} {m : ℕ} (hd : isBinary64 q)
    (hlt : |q| < m * 2 ^ (k - 52)) (hk : (2 : ℚ) ^ k ≤ (m - 1) * 2 ^ (k - 52)) :
    |q| ≤ (m - 1) * 2 ^ (k - 52) := by
  by_cases h : (2 : ℚ) ^ k ≤ |q|
  · obtain ⟨j, hj⟩ := isBinary64_grid hd h
    have hs : (0 : ℚ) < 2 ^ (k - 52) := by positivity
    rw [hj, abs_mul, abs_of_pos hs] at hlt ⊢
    have h1 : |(j : ℚ)| < m := lt_of_mul_lt_mul_right hlt hs.le
    have h2 : |j| < (m : ℤ) := by exact_mod_cast h1
    have h3 : |j| ≤ (m : ℤ) - 1 := by omega
    have h4 : |(j : ℚ)| ≤ (m : ℚ) - 1 := by exact_mod_cast h3
    exact mul_le_mul_of_nonneg_right h4 hs.le
  · exact le_trans (le_of_lt (lt_of_not_le h)) hk

theorem abs_round_le {q : ℚ} {k : ℤ} (h : |q| < 2 ^ (k + 1)) (h0 : 0 ≤ k) :
    |(roundHalfEven (q / ulp q) : ℚ) * ulp q| ≤ |q| + 2 ^ (k - 53) := by
  have h1 := round_sub_le q
  have h2 := ulp_le h h0
  have h3 : (2 : ℚ) ^ (k - 52) / 2 = 2 ^ (k - 53) := by
    rw [show k - 52 = (k - 53) + 1 by ring, zpow_add₀ (by norm_num : (2 : ℚ) ≠ 0)]
    simp
  have h4 : |(roundHalfEven (q / ulp q) : ℚ) * ulp q| ≤
      |(roundHalfEven (q / ulp q) : ℚ) * ulp q - q| + |q| := by
    have := abs_add ((roundHalfEven (q / ulp q) : ℚ) * ulp q - q) q
    simpa using this
  linarith

theorem sub_le_abs_round {q : ℚ} {k : ℤ} (h : |q| < 2 ^ (k + 1)) (h0 : 0 ≤ k) :
    |q| - 2 ^ (k - 53) ≤ |(roundHalfEven (q / ulp q) : ℚ) * ulp q| := by
  have h1 := round_sub_le q
  have h2 := ulp_le h h0
  have h3 : (2 : ℚ) ^ (k - 52) / 2 = 2 ^ (k - 53) := by
    rw [show k - 52 = (k - 53) + 1 by ring, zpow_add₀ (by norm_num : (2 : ℚ) ≠ 0)]
    simp
  have h4 : |q| ≤ |(roundHalfEven (q / ulp q) : ℚ) * ulp q - q| +
      |(roundHalfEven (q / ulp q) : ℚ) * ulp q| := by
    have := abs_sub_abs_le_abs_sub q ((roundHalfEven (q / ulp q) : ℚ) * ulp q)
    rw [abs_sub_comm] at this
    linarith
  linarith

theorem binadeExponent_le_of_ne {q : ℚ} {k : ℤ} (hq : q ≠ 0) (h : |q| < 2 ^ (k + 1))
    (hk : -1022 ≤ k) : binadeExponent q ≤ k := by
  unfold binadeExponent
  apply max_le _ hk
  have hpos : 0 < |q| := abs_pos.2 hq
  have := (Int.lt_zpow_iff_log_lt (b := 2) (by norm_num) hpos (x := k + 1)).1
    (by exact_mod_cast h)
  omega

/-- The integer within less than a half of `y` is the rounding of `y`. -/
theorem roundHalfEven_eq {y : ℚ} {n : ℤ} (h : |y - n| < 1 / 2) : roundHalfEven y = n := by
  rw [abs_lt] at h
  obtain ⟨h1, h2⟩ := h
  unfold roundHalfEven
  have hf1 := Int.floor_le y
  have hf2 := Int.lt_floor_add_one y
  split_ifs with ha hb
  · have : ⌊y⌋ = n := by
      rw [Int.floor_eq_iff]
      constructor
      · by_contra hc
        push_neg at hc
        have h5 : (⌊y⌋ : ℚ) < n := lt_of_le_of_lt hf1 hc
        have h6 : ⌊y⌋ + 1 ≤ n := by exact_mod_cast h5
        have h7 : ((⌊y⌋ : ℚ) + 1) ≤ n := by exact_mod_cast h6
        linarith
      · linarith
    exact this
  · have h5 : (n : ℚ) < ⌊y⌋ + 1 + 1 := by linarith
    have h6 : ((⌊y⌋ : ℚ)) < n := by linarith
    have h7 : n < ⌊y⌋ + 1 + 1 := by exact_mod_cast h5
    have h8 : ⌊y⌋ < n := by exact_mod_cast h6
    omega
  · exfalso
    have : y - ⌊y⌋ = 1 / 2 := le_antisymm (not_lt.1 hb) (not_lt.1 ha)
    have h5 : (n : ℚ) < ⌊y⌋ + 1 := by linarith
    have h6 : (⌊y⌋ : ℚ) < n := by linarith
    have h7 : n < ⌊y⌋ + 1 := by exact_mod_cast h5
    have h8 : ⌊y⌋ < n := by exact_mod_cast h6
    omega
  · exfalso
    have : y - ⌊y⌋ = 1 / 2 := le_antisymm (not_lt.1 hb) (not_lt.1 ha)
    have h5 : (n : ℚ) < ⌊y⌋ + 1 := by linarith
    have h6 : (⌊y⌋ : ℚ) < n := by linarith
    have h7 : n < ⌊y⌋ + 1 := by exact_mod_cast h5
    have h8 : ⌊y⌋ < n := by exact_mod_cast h6
    omega

/-- The binary64 rounding of a value in the binade of `2 ^ k`, from the integer nearest to
its scaled significand. -/
theorem toBinary64_eq {q : ℚ} {k n : ℤ} (hlo : 2 ^ k ≤ |q|) (hhi : |q| < 2 ^ (k + 1))
    (hk : -1022 ≤ k) (hn : |q / 2 ^ (k - 52) - n| < 1 / 2)
    (hfin : |(n : ℚ) * 2 ^ (k - 52)| < 2 ^ 1024) :
    toBinary64 q = .finite (n * 2 ^ (k - 52)) := by
  have hq : q ≠ 0 := by
    intro h0
    rw [h0, abs_zero] at hlo
    exact absurd hlo (not_le.2 (by positivity))
  have he : binadeExponent q = k :=
    le_antisymm (binadeExponent_le_of_ne hq hhi hk) (le_binadeExponent hlo)
  have hu : ulp q = 2 ^ (k - 52) := by unfold ulp; rw [he]
  have hr : roundHalfEven (q / 2 ^ (k - 52)) = n := roundHalfEven_eq hn
  unfold toBinary64
  simp only [hu, hr, hfin, if_true]

/-- Every multiple of a power of two with a significand below `2 ^ 53` and an exponent in
the binary64 range is a binary64 Number. -/
theorem isBinary64_of_significand (j k : ℤ) (hj : |j| < 2 ^ 53) (hk : -1074 ≤ k)
    (hk2 : k ≤ 971) : isBinary64 (j * 2 ^ k) := by
  unfold isBinary64
  rcases eq_or_ne j 0 with rfl | hj0
  · have h0 : roundHalfEven (0 : ℚ) = 0 := by simpa using roundHalfEven_intCast 0
    unfold toBinary64
    simp [h0]
  have hp : (0 : ℚ) < 2 ^ k := by positivity
  have hq : (j : ℚ) * 2 ^ k ≠ 0 := mul_ne_zero (by exact_mod_cast hj0) hp.ne.symm
  have habs : |(j : ℚ) * 2 ^ k| < 2 ^ (k + 53) := by
    rw [abs_mul, abs_of_pos hp, zpow_add₀ (by norm_num : (2 : ℚ) ≠ 0), mul_comm]
    have h53 : |(j : ℚ)| < 2 ^ (53 : ℤ) := by
      have : |(j : ℚ)| < 2 ^ (53 : ℕ) := by exact_mod_cast hj
      rw [← zpow_natCast] at this
      exact this
    exact mul_lt_mul_of_pos_left h53 hp
  have he : binadeExponent (j * 2 ^ k) ≤ max (k + 52) (-1022) := by
    by_cases hc : -1022 ≤ k + 52
    · rw [max_eq_left hc]
      exact binadeExponent_le_of_ne hq (by rw [show k + 52 + 1 = k + 53 by ring]; exact habs) hc
    · rw [max_eq_right (by omega)]
      refine binadeExponent_le_of_ne hq (lt_of_lt_of_le habs ?_) le_rfl
      exact zpow_le_zpow_right₀ (by norm_num) (by omega)
  obtain ⟨d, hd⟩ := Int.eq_ofNat_of_zero_le
    (by omega : 0 ≤ k - (binadeExponent (j * 2 ^ k) - 52))
  have hu : (2 : ℚ) ^ k = 2 ^ d * ulp (j * 2 ^ k) := by
    unfold ulp
    rw [← zpow_natCast, ← zpow_add₀ (by norm_num : (2 : ℚ) ≠ 0)]
    congr 1
    omega
  have hup := ulp_pos (j * 2 ^ k)
  have hdiv : (j : ℚ) * 2 ^ k / ulp (j * 2 ^ k) = ((j * 2 ^ d : ℤ) : ℚ) := by
    rw [div_eq_iff hup.ne.symm]
    conv_lhs => rw [hu]
    push_cast
    ring
  have hr : (roundHalfEven ((j : ℚ) * 2 ^ k / ulp (j * 2 ^ k)) : ℚ) * ulp (j * 2 ^ k) =
      j * 2 ^ k := by
    rw [hdiv, roundHalfEven_intCast]
    conv_rhs => rw [hu]
    push_cast
    ring
  have hfin : |(j : ℚ) * 2 ^ k| < 2 ^ 1024 := by
    refine lt_of_lt_of_le habs ?_
    have h1024 : (2 : ℚ) ^ (k + 53) ≤ 2 ^ (1024 : ℤ) :=
      zpow_le_zpow_right₀ (by norm_num) (by omega)
    have e : (2 : ℚ) ^ (1024 : ℤ) = 2 ^ (1024 : ℕ) := by
      rw [← zpow_natCast]; rfl
    rw [← e]
    exact h1024
  unfold toBinary64
  simp only [hr, hfin, if_true]

theorem isBinary64_intCast (j : ℤ) (hj : |j| < 2 ^ 53) : isBinary64 (j : ℚ) := by
  have := isBinary64_of_significand j 0 hj (by norm_num) (by norm_num)
  simpa using this

/-- A value below `10 ^ 15` in magnitude rounds to a finite Number not further than a
sixteenth beyond it. -/
theorem toBinary64_of_abs_lt {x : ℚ} (h : |x| < 10 ^ 15) :
    ∃ r : ℚ, toBinary64 x = .finite r ∧ |r| ≤ |x| + 1 / 16 := by
  have h50 : |x| < 2 ^ ((49 : ℤ) + 1) := lt_trans h (by norm_num)
  have hb := abs_round_le h50 (by norm_num)
  have e : (2 : ℚ) ^ ((49 : ℤ) - 53) = 1 / 16 := by norm_num
  rw [e] at hb
  refine ⟨_, toBinary64_of_lt (lt_of_le_of_lt hb ?_), hb⟩
  calc |x| + 1 / 16 < 10 ^ 15 + 1 / 16 := by linarith
    _ < 2 ^ 1024 := by norm_num

/-- A value beyond the range of time values rounds to a Number beyond it. -/
theorem newDateOf_toBinary64_none {x : ℚ} {k : ℤ} (hk : 0 ≤ k) (hhi : |x| < 2 ^ (k + 1))
    (hlo : 8640000000000000 + 2 ^ (k - 53) < |x|) : newDateOf (toBinary64 x) = ⟨none⟩ := by
  cases hr : toBinary64 x with
  | finite r =>
    have h1 := sub_le_abs_round hhi hk
    rw [← toBinary64_finite hr] at h1
    have h2 : ¬ |r| ≤ 8640000000000000 := by
      intro h3
      linarith
    simp only [newDateOf, newDate, timeClip, if_neg h2]
  | nan => rfl
  | posInf => rfl
  | negInf => rfl

/-- Below `10 ^ 21`, the Number branch of `toDate` selects the unit by the decimal digit
count of the truncated absolute value. -/
theorem toDateNumber_of_lt {σ : Type} (w : World σ) (ts : ℚ) (s : σ)
    (h : mathAbs (mathTrunc ts) < 10 ^ 21) :
    toDateNumber w (.finite ts) s =
      (newDateOf
        (if 19 ≤ decimalDigits (mathAbs (mathTrunc ts)) then toBinary64 (ts / 10 ^ 6)
          else if 16 ≤ decimalDigits (mathAbs (mathTrunc ts)) then toBinary64 (ts / 10 ^ 3)
          else if 13 ≤ decimalDigits (mathAbs (mathTrunc ts)) then .finite ts
          else toBinary64 (ts * 10 ^ 3)), s) := by
  simp only [toDateNumber, ge_iff_le, length_ge_iff h (by norm_num : 2 ≤ 19),
    length_ge_iff h (by norm_num : 2 ≤ 16), length_ge_iff h (by norm_num : 2 ≤ 13),
    length_ge_iff h (by norm_num : 2 ≤ 10)]
  split_ifs <;> rfl

theorem lt_pow_of_decimalDigits_le {a k : Nat} (h : decimalDigits a ≤ k) : a < 10 ^ k :=
  lt_of_lt_of_le (Nat.lt_base_pow_length_digits (by norm_num))
    (Nat.pow_le_pow_right (by norm_num) h)

/-- A finite Number is less than one away from its truncation. -/
theorem abs_lt_trunc_succ (q : ℚ) : |q| < (mathAbs (mathTrunc q) : ℚ) + 1 := by
  have hden : (0 : ℚ) < q.den := by exact_mod_cast q.den_pos
  have hq : |q| = (q.num.natAbs : ℚ) / q.den := by
    conv_lhs => rw [← Rat.num_div_den q]
    rw [abs_div, abs_of_pos hden, Nat.cast_natAbs, Int.cast_abs]
  have ht : mathAbs (mathTrunc q) = q.num.natAbs / q.den := by
    simp only [mathAbs, mathTrunc, Int.natAbs_tdiv, Int.natAbs_ofNat]
    rfl
  rw [hq, ht, div_lt_iff₀ hden]
  have := Nat.lt_div_mul_add (a := q.num.natAbs) q.den_pos
  have h2 : q.num.natAbs < (q.num.natAbs / q.den + 1) * q.den := by
    rw [Nat.add_mul, Nat.one_mul]; exact this
  exact_mod_cast h2

theorem abs_lt_of_trunc_lt {q : ℚ} {k : Nat} (h : mathAbs (mathTrunc q) < 10 ^ k) :
    |q| < 10 ^ k := by
  have h1 := abs_lt_trunc_succ q
  have h2 : ((mathAbs (mathTrunc q) : ℚ) + 1) ≤ 10 ^ k := by
    exact_mod_cast Nat.succ_le_of_lt h
  exact lt_of_lt_of_le h1 h2

/-- A value below `10 ^ 15` in magnitude rounds to a finite Number within the range of time
values, and to one below `10 ^ 15` when it stays a tenth away from `10 ^ 15`. -/
theorem toBinary64_in_range {x : ℚ} (hx : |x| < 10 ^ 15) :
    ∃ r : ℚ, toBinary64 x = .finite r ∧ |r| ≤ 8640000000000000 ∧
      (|x| ≤ 10 ^ 15 - 1 / 10 → |r| < 10 ^ 15) := by
  obtain ⟨r, hr, hb⟩ := toBinary64_of_abs_lt hx
  refine ⟨r, hr, ?_, fun h => ?_⟩
  · linarith
  · linarith

/-- For a finite number whose truncated absolute value is below `10 ^ 21`, `toDate` returns
`new Date` of a finite Number within the range of time values. -/
theorem toDate_number_valid {σ : Type} (w : World σ) (n : ℚ) (s : σ)
    (h : mathAbs (mathTrunc n) < 10 ^ 21) :
    ∃ ms : ℚ, toDate w (.number (.finite n)) s = (newDate ms, s) ∧
      |ms| ≤ 8640000000000000 := by
  have key : ∃ ms : ℚ,
      (if 19 ≤ decimalDigits (mathAbs (mathTrunc n)) then toBinary64 (n / 10 ^ 6)
        else if 16 ≤ decimalDigits (mathAbs (mathTrunc n)) then toBinary64 (n / 10 ^ 3)
        else if 13 ≤ decimalDigits (mathAbs (mathTrunc n)) then .finite n
        else toBinary64 (n * 10 ^ 3)) = .finite ms ∧ |ms| ≤ 8640000000000000 := by
    split_ifs with h19 h16 h13
    · have hn : |n| < 10 ^ 21 := abs_lt_of_trunc_lt h
      have hx : |n / 10 ^ 6| < 10 ^ 15 := by
        rw [abs_div, abs_of_pos (by norm_num : (0 : ℚ) < 10 ^ 6), div_lt_iff₀ (by norm_num)]
        calc |n| < 10 ^ 21 := hn
          _ = 10 ^ 15 * 10 ^ 6 := by norm_num
      obtain ⟨r, hr, hv, -⟩ := toBinary64_in_range hx
      exact ⟨r, hr, hv⟩
    · have h18 : mathAbs (mathTrunc n) < 10 ^ 18 := lt_pow_of_decimalDigits_le (by omega)
      have hn : |n| < 10 ^ 18 := abs_lt_of_trunc_lt h18
      have hx : |n / 10 ^ 3| < 10 ^ 15 := by
        rw [abs_div, abs_of_pos (by norm_num : (0 : ℚ) < 10 ^ 3), div_lt_iff₀ (by norm_num)]
        calc |n| < 10 ^ 18 := hn
          _ = 10 ^ 15 * 10 ^ 3 := by norm_num
      obtain ⟨r, hr, hv, -⟩ := toBinary64_in_range hx
      exact ⟨r, hr, hv⟩
    · have h15 : mathAbs (mathTrunc n) < 10 ^ 15 := lt_pow_of_decimalDigits_le (by omega)
      have hn : |n| < 10 ^ 15 := abs_lt_of_trunc_lt h15
      exact ⟨n, rfl, le_trans hn.le (by norm_num)⟩
    · have h12 : mathAbs (mathTrunc n) < 10 ^ 12 := lt_pow_of_decimalDigits_le (by omega)
      have hn : |n| < 10 ^ 12 := abs_lt_of_trunc_lt h12
      have hx : |n * 10 ^ 3| < 10 ^ 15 := by
        rw [abs_mul, abs_of_pos (by norm_num : (0 : ℚ) < 10 ^ 3)]
        calc |n| * 10 ^ 3 < 10 ^ 12 * 10 ^ 3 := mul_lt_mul_of_pos_right hn (by norm_num)
          _ = 10 ^ 15 := by norm_num
      obtain ⟨r, hr, hv, -⟩ := toBinary64_in_range hx
      exact ⟨r, hr, hv⟩
  obtain ⟨ms, hms, hvalid⟩ := key
  refine ⟨ms, ?_, hvalid⟩
  show toDateNumber w (.finite n) s = _
  rw [toDateNumber_of_lt w n s h, hms]
  rfl

theorem mathAbs_trunc_1e21 : mathAbs (mathTrunc (10 ^ 21)) = 10 ^ 21 := by
  have := mathTrunc_natCast (10 ^ 21)
  simp only [Nat.cast_pow, Nat.cast_ofNat] at this
  rw [this]; rfl

theorem natToJsString_1e21 : natToJsString (10 ^ 21) = "1e+21" := by decide

/-- The product `1e21 * 1e3`, rounded to binary64, is beyond the range of time values. -/
theorem newDateOf_1e24 : newDateOf (toBinary64 (10 ^ 21 * 10 ^ 3)) = ⟨none⟩ := by
  have hhi : |(10 : ℚ) ^ 21 * 10 ^ 3| < 2 ^ ((79 : ℤ) + 1) := by norm_num [abs_of_pos]
  have hlo : 8640000000000000 + (2 : ℚ) ^ ((79 : ℤ) - 53) < |(10 : ℚ) ^ 21 * 10 ^ 3| := by
    norm_num [abs_of_pos]
  exact newDateOf_toBinary64_none (by norm_num) hhi hlo

/-! ## Runs: throwing, writes and state -/

section Runs

variable {σ : Type}

@[simp] theorem skip_threw (s : σ) : (Run.skip s).threw = none := rfl

@[simp] theorem skip_writes (s : σ) : (Run.skip s).writes = [] := rfl

@[simp] theorem skip_state (s : σ) : (Run.skip s).state = s := rfl

@[simp] theorem tryCatch_threw (r : Run σ) : (tryCatch r).threw = none := rfl

@[simp] theorem tryCatch_writes (r : Run σ) : (tryCatch r).writes = r.writes := rfl

@[simp] theorem tryCatch_state (r : Run σ) : (tryCatch r).state = r.state := rfl

@[simp] theorem runQuery_writes (w : World σ) (q : Query) (s : σ) :
    (runQuery w q s).writes = [q] := rfl

@[simp] theorem runQuery_threw (w : World σ) (q : Query) (s : σ) :
    (runQuery w q s).threw = (w.query q s).1 := rfl

@[simp] theorem runQuery_state (w : World σ) (q : Query) (s : σ) :
    (runQuery w q s).state = (w.query q s).2 := rfl

@[simp] theorem raise_writes (e : DbError) (s : σ) : (Run.raise e s).writes = [] := rfl

@[simp] theorem raise_state (e : DbError) (s : σ) : (Run.raise e s).state = s := rfl

@[simp] theorem raise_threw (e : DbError) (s : σ) : (Run.raise e s).threw = some e := rfl

@[simp] theorem withText_some (t : String) (k : String → σ → Run σ) (s : σ) :
    withText (some t) k s = k t s := rfl

@[simp] theorem withText_none (k : String → σ → Run σ) (s : σ) :
    withText none k s = Run.raise conversionError s := rfl

/-- The writes of a step that needs a text: those of its continuation when the conversion
succeeds, none when it throws. -/
theorem withText_writes (text : Option String) (k : String → σ → Run σ) (s : σ) :
    (withText text k s).writes = (text.toList.map fun t => (k t s).writes).flatten := by
  cases text <;> simp

theorem andThen_of_returned {r : Run σ} (k : σ → Run σ) (h : r.threw = none) :
    r.andThen k = ⟨(k r.state).threw, r.writes ++ (k r.state).writes, (k r.state).state⟩ := by
  simp [Run.andThen, h]

theorem andThen_of_threw {r : Run σ} (k : σ → Run σ) {e : DbError} (h : r.threw = some e) :
    r.andThen k = r := by
  simp [Run.andThen, h]

theorem andThen_threw_none {r : Run σ} {k : σ → Run σ} (h : r.threw = none)
    (hk : ∀ s, (k s).threw = none) : (r.andThen k).threw = none := by
  rw [andThen_of_returned k h]; exact hk _

theorem saveSlowlink_threw (w : World σ) (a b p : Option Json) (ts : JsDate) (s : σ) :
    (saveSlowlink w a b p ts s).threw = none := rfl

theorem saveSipCallMap_threw (w : World σ) (a b d : Option Json) (ts : JsDate) (s : σ) :
    (saveSipCallMap w a b d ts s).threw = none := by
  unfold saveSipCallMap; split <;> rfl

theorem handleObject_threw (w : World σ) (j : Json) (s : σ) :
    (handleObject w j s).threw = none := by
  unfold handleObject; split <;> rfl

theorem handleEvent_arr (w : World σ) (items : List Json) (s : σ) :
    handleEvent w (.arr items) s = handleItems w items s := by
  simp [handleEvent]

theorem handleEvent_obj (w : World σ) (fields : List (String × Json)) (s : σ) :
    handleEvent w (.obj fields) s = handleObject w (.obj fields) s := by
  simp [handleEvent]

theorem handleEvent_of_not_arr (w : World σ) (j : Json) (s : σ)
    (h : ∀ items, j ≠ .arr items) : handleEvent w j s = handleObject w j s := by
  cases j <;> simp [handleEvent] at h ⊢

theorem handleItems_nil (w : World σ) (s : σ) : handleItems w [] s = Run.skip s := by
  simp [handleItems]

theorem handleItems_cons (w : World σ) (item : Json) (rest : List Json) (s : σ) :
    handleItems w (item :: rest) s =
      (handleEvent w item s).andThen (handleItems w rest) := by
  simp [handleItems]

mutual
/-- `handleEvent` never throws, whatever the payload and the sink. -/
theorem handleEvent_threw (w : World σ) : ∀ (j : Json) (s : σ), (handleEvent w j s).threw = none
  | .arr items, s => by rw [handleEvent_arr]; exact handleItems_threw w items s
  | .null, s => by rw [handleEvent_of_not_arr w _ s (by simp)]; exact handleObject_threw w _ s
  | .bool _, s => by rw [handleEvent_of_not_arr w _ s (by simp)]; exact handleObject_threw w _ s
  | .num _, s => by rw [handleEvent_of_not_arr w _ s (by simp)]; exact handleObject_threw w _ s
  | .infinite _, s => by
    rw [handleEvent_of_not_arr w _ s (by simp)]; exact handleObject_threw w _ s
  | .str _, s => by rw [handleEvent_of_not_arr w _ s (by simp)]; exact handleObject_threw w _ s
  | .obj _, s => by rw [handleEvent_of_not_arr w _ s (by simp)]; exact handleObject_threw w _ s
theorem handleItems_threw (w : World σ) :
    ∀ (items : List Json) (s : σ), (handleItems w items s).threw = none
  | [], s => by rw [handleItems_nil]; rfl
  | item :: rest, s => by
    rw [handleItems_cons]
    exact andThen_threw_none (handleEvent_threw w item s) (handleItems_threw w rest)
end

theorem handleItems_cons_writes (w : World σ) (item : Json) (rest : List Json) (s : σ) :
    (handleItems w (item :: rest) s).writes =
      (handleEvent w item s).writes ++
        (handleItems w rest (handleEvent w item s).state).writes := by
  rw [handleItems_cons, andThen_of_returned _ (handleEvent_threw w item s)]

theorem handleItems_cons_state (w : World σ) (item : Json) (rest : List Json) (s : σ) :
    (handleItems w (item :: rest) s).state =
      (handleItems w rest (handleEvent w item s).state).state := by
  rw [handleItems_cons, andThen_of_returned _ (handleEvent_threw w item s)]

theorem handleItems_append_state (w : World σ) (xs ys : List Json) (s : σ) :
    (handleItems w (xs ++ ys) s).state =
      (handleItems w ys (handleItems w xs s).state).state := by
  induction xs generalizing s with
  | nil => simp [handleItems_nil]
  | cons x xs ih => simp only [List.cons_append, handleItems_cons_state, ih]

theorem handleItems_append_writes (w : World σ) (xs ys : List Json) (s : σ) :
    (handleItems w (xs ++ ys) s).writes =
      (handleItems w xs s).writes ++ (handleItems w ys (handleItems w xs s).state).writes := by
  induction xs generalizing s with
  | nil => simp [handleItems_nil]
  | cons x xs ih =>
    simp only [List.cons_append, handleItems_cons_writes, handleItems_cons_state, ih,
      List.append_assoc]

end Runs

/-! ## Relations between sink state and writes kept by every run -/

section Invariant

variable {σ : Type} {w : World σ} {R : σ → List Query → Prop}

theorem respects_skip : Respects R (fun s : σ => Run.skip s) := by
  intro s acc h; simpa using h

theorem respects_runQuery (hq : ∀ q s acc, R s acc → R (w.query q s).2 (acc ++ [q]))
    (q : Query) : Respects R (runQuery w q) := by
  intro s acc h; exact hq q s acc h

theorem respects_tryCatch {k : σ → Run σ} (hk : Respects R k) :
    Respects R (fun s => tryCatch (k s)) := by
  intro s acc h; exact hk s acc h

theorem respects_andThen {k₁ k₂ : σ → Run σ} (h₁ : Respects R k₁) (h₂ : Respects R k₂) :
    Respects R (fun s => (k₁ s).andThen k₂) := by
  intro s acc h
  cases ht : (k₁ s).threw with
  | some e => simp only [andThen_of_threw k₂ ht]; exact h₁ s acc h
  | none =>
    simp only [andThen_of_returned k₂ ht, ← List.append_assoc]
    exact h₂ _ _ (h₁ s acc h)

theorem respects_ite {k₁ k₂ : σ → Run σ} (c : Prop) [Decidable c] (h₁ : Respects R k₁)
    (h₂ : Respects R k₂) : Respects R (fun s => if c then k₁ s else k₂ s) := by
  by_cases hc : c <;> simpa [hc]

theorem respects_raise (e : DbError) : Respects R (fun s : σ => Run.raise e s) := by
  intro s acc h; simpa using h

theorem respects_withText (text : Option String) {k : String → σ → Run σ}
    (hk : ∀ t, Respects R (k t)) : Respects R (withText text k) := by
  cases text with
  | none => exact respects_raise _
  | some t => exact hk t

theorem respects_saveSlowlink (hq : ∀ q s acc, R s acc → R (w.query q s).2 (acc ++ [q]))
    (a b p : Option Json) (ts : JsDate) : Respects R (saveSlowlink w a b p ts) :=
  respects_tryCatch (respects_runQuery hq _)

theorem respects_saveSipCallMap (hq : ∀ q s acc, R s acc → R (w.query q s).2 (acc ++ [q]))
    (a b d : Option Json) (ts : JsDate) : Respects R (saveSipCallMap w a b d ts) := by
  unfold saveSipCallMap
  exact respects_ite _ (respects_tryCatch (respects_runQuery hq _)) respects_skip

theorem respects_caseWebrtc (hq : ∀ q s acc, R s acc → R (w.query q s).2 (acc ++ [q]))
    (json : Json) (ts : JsDate) : Respects R (caseWebrtc w json ts) := by
  unfold caseWebrtc
  exact respects_ite _ (respects_withText _ fun _ => respects_runQuery hq _)
    (respects_ite _ (respects_withText _ fun _ => respects_runQuery hq _)
      (respects_ite _ (respects_withText _ fun _ => respects_runQuery hq _)
        (respects_ite _ (respects_withText _ fun _ => respects_runQuery hq _)
          respects_skip)))

theorem respects_caseMedia (hq : ∀ q s acc, R s acc → R (w.query q s).2 (acc ++ [q]))
    (json : Json) (ts : JsDate) : Respects R (caseMedia w json ts) := by
  unfold caseMedia
  exact respects_ite _ (respects_runQuery hq _) (respects_ite _ (respects_runQuery hq _)
    respects_skip)

theorem respects_casePlugin (hq : ∀ q s acc, R s acc → R (w.query q s).2 (acc ++ [q]))
    (b : Bool) (json : Json) (ts : JsDate) : Respects R (casePlugin w b json ts) := by
  unfold casePlugin
  exact respects_andThen (respects_runQuery hq _)
    (respects_andThen (respects_ite _ (respects_saveSlowlink hq _ _ _ _) respects_skip)
      (respects_ite _ (respects_saveSipCallMap hq _ _ _ _) respects_skip))

theorem respects_caseCore (hq : ∀ q s acc, R s acc → R (w.query q s).2 (acc ++ [q]))
    (json : Json) (ts : JsDate) : Respects R (caseCore w json ts) := by
  unfold caseCore
  refine respects_andThen (respects_ite _ (respects_saveSlowlink hq _ _ _ _) respects_skip) ?_
  intro s acc h
  dsimp only
  split
  · exact respects_runQuery hq _ s acc h
  · exact respects_raise _ s acc h

theorem respects_dispatch (hq : ∀ q s acc, R s acc → R (w.query q s).2 (acc ++ [q]))
    (json : Json) (ts : JsDate) : Respects R (dispatch w json ts) := by
  unfold dispatch
  split
  · exact respects_ite _ (respects_runQuery hq _) (respects_ite _ (respects_runQuery hq _)
      (respects_ite _ (respects_runQuery hq _) (respects_ite _ (respects_caseWebrtc hq _ _)
        (respects_ite _ (respects_caseMedia hq _ _) (respects_ite _ (respects_casePlugin hq _ _ _)
          (respects_ite _ (respects_casePlugin hq _ _ _)
            (respects_ite _ (respects_caseCore hq _ _) respects_skip)))))))
  · exact respects_skip

theorem toDateNumber_state (hn : ∀ s acc, R s acc → R (w.now s).2 acc) (n : JsNumber)
    (s : σ) (acc : List Query) (h : R s acc) : R (toDateNumber w n s).2 acc := by
  unfold toDateNumber
  split
  · dsimp only
    split_ifs <;> exact h
  · exact hn s acc h

theorem toDate_state (hn : ∀ s acc, R s acc → R (w.now s).2 acc) (v : JsValue)
    (s : σ) (acc : List Query) (h : R s acc) : R (toDate w v s).2 acc := by
  unfold toDate
  split
  · exact hn s acc h
  · exact hn s acc h
  · exact h
  · split
    · exact h
    · exact h
    · exact h
    · split
      · exact hn s acc h
      · exact toDateNumber_state hn _ s acc h
  · exact toDateNumber_state hn _ s acc h
  · exact hn s acc h

theorem respects_handleObject (hq : ∀ q s acc, R s acc → R (w.query q s).2 (acc ++ [q]))
    (hn : ∀ s acc, R s acc → R (w.now s).2 acc) (j : Json) :
    Respects R (handleObject w j) := by
  intro s acc h
  unfold handleObject
  split
  · exact respects_dispatch hq _ _ _ acc (toDate_state hn _ s acc h)
  · simpa using h

mutual
/-- Whatever relation between sink state and writes every query and every clock reading
keeps, a whole run of `handleEvent` keeps. -/
theorem respects_handleEvent (hq : ∀ q s acc, R s acc → R (w.query q s).2 (acc ++ [q]))
    (hn : ∀ s acc, R s acc → R (w.now s).2 acc) : ∀ j : Json, Respects R (handleEvent w j)
  | .arr items => by
    intro s acc h; rw [handleEvent_arr]; exact respects_handleItems hq hn items s acc h
  | .null => by
    intro s acc h; rw [handleEvent_of_not_arr w _ s (by simp)]
    exact respects_handleObject hq hn _ s acc h
  | .bool _ => by
    intro s acc h; rw [handleEvent_of_not_arr w _ s (by simp)]
    exact respects_handleObject hq hn _ s acc h
  | .num _ => by
    intro s acc h; rw [handleEvent_of_not_arr w _ s (by simp)]
    exact respects_handleObject hq hn _ s acc h
  | .infinite _ => by
    intro s acc h; rw [handleEvent_of_not_arr w _ s (by simp)]
    exact respects_handleObject hq hn _ s acc h
  | .str _ => by
    intro s acc h; rw [handleEvent_of_not_arr w _ s (by simp)]
    exact respects_handleObject hq hn _ s acc h
  | .obj _ => by
    intro s acc h; rw [handleEvent_of_not_arr w _ s (by simp)]
    exact respects_handleObject hq hn _ s acc h
theorem respects_handleItems (hq : ∀ q s acc, R s acc → R (w.query q s).2 (acc ++ [q]))
    (hn : ∀ s acc, R s acc → R (w.now s).2 acc) :
    ∀ items : List Json, Respects R (handleItems w items)
  | [] => by intro s acc h; rw [handleItems_nil]; simpa using h
  | item :: rest => by
    intro s acc h
    rw [handleItems_cons]
    exact respects_andThen (respects_handleEvent hq hn item) (respects_handleItems hq hn rest)
      s acc h
end

/-- A property of the sink state that every query and every clock reading keeps is kept by
`handleEvent`. -/
theorem handleEvent_preserves {P : σ → Prop} (hq : ∀ q s, P s → P (w.query q s).2)
    (hn : ∀ s, P s → P (w.now s).2) (j : Json) (s : σ) (h : P s) :
    P (handleEvent w j s).state :=
  respects_handleEvent (R := fun s _ => P s) (fun q s _ h => hq q s h) (fun s _ h => hn s h)
    j s [] h

end Invariant

/-! ## The `sip_calls` relation -/

theorem findCall_upsert_same (store : List SipCallRecord) (r x : SipCallRecord)
    (h : findCall store r.call_id = some x) :
    findCall (upsertSipCall store r) r.call_id =
      some ⟨r.session, r.handle, x.call_id, x.from_uri, x.to_uri,
        if x.direction = .null then r.direction else x.direction, x.created_at⟩ := by
  induction store with
  | nil => simp [findCall] at h
  | cons y rest ih =>
    by_cases hy : y.call_id = r.call_id
    · have hxy : y = x := by simpa [findCall, hy] using h
      subst hxy
      simp [upsertSipCall, findCall, hy]
    · have hrest : findCall rest r.call_id = some x := by simpa [findCall, hy] using h
      have := ih hrest
      simp only [findCall] at this
      simp [upsertSipCall, findCall, hy, this]

theorem findCall_upsert_other (store : List SipCallRecord) (r : SipCallRecord) (id : Json)
    (h : r.call_id ≠ id) : findCall (upsertSipCall store r) id = findCall store id := by
  induction store with
  | nil => simp [upsertSipCall, findCall, h]
  | cons y rest ih =>
    simp only [findCall] at ih
    by_cases hy : y.call_id = r.call_id
    · have hyid : y.call_id ≠ id := hy ▸ h
      simp [upsertSipCall, findCall, hy, h, hyid]
    · by_cases hyid : y.call_id = id
      · have hne : ¬ id = r.call_id := fun e => h e.symm
        simp [upsertSipCall, findCall, hyid, hne]
      · simp [upsertSipCall, findCall, hy, hyid, ih]

/-- A known direction of a stored call survives every upsert. -/
theorem upsert_keeps_direction (store : List SipCallRecord) (r : SipCallRecord) (id d : Json)
    (hd : d ≠ .null) (h : (findCall store id).map (fun x => x.direction) = some d) :
    (findCall (upsertSipCall store r) id).map (fun x => x.direction) = some d := by
  by_cases hr : r.call_id = id
  · subst hr
    cases hx : findCall store r.call_id with
    | none => simp [hx] at h
    | some x =>
      have hxd : x.direction = d := by simpa [hx] using h
      rw [findCall_upsert_same store r x hx]
      simp [hxd, hd]
  · rw [findCall_upsert_other store r id hr]; exact h

theorem memoryWorld_query_sip (host : Host) (clock : JsDate) (a b c d e f : Json)
    (t : JsDate) (st : Store) :
    (memoryWorld host clock).query
        ⟨sqlSipCalls, [.json a, .json b, .json c, .json d, .json e, .json f, .date t]⟩ st =
      (none, { st with sipCalls := upsertSipCall st.sipCalls ⟨a, b, c, d, e, f, t⟩ }) := by
  simp [memoryWorld, decodeSipCall]

theorem memoryWorld_query_keeps_direction (host : Host) (clock : JsDate) (id d : Json)
    (hd : d ≠ .null) (q : Query) (st : Store)
    (h : (findCall st.sipCalls id).map (fun x => x.direction) = some d) :
    (findCall ((memoryWorld host clock).query q st).2.sipCalls id).map
      (fun x => x.direction) = some d := by
  simp only [memoryWorld]
  split_ifs
  · split
    · exact upsert_keeps_direction _ _ _ _ hd h
    · exact h
  · exact h

/-! ## Claims on `toDate`, the SIP correlator and batches -/

/-- C1 (the code at the failing input): the timestamp `1e21` has 22 decimal digits, but
`String(1e21)` is `1e+21`, five characters long, so `toDate` takes the seconds branch and
builds `new Date(1e21 * 1e3)`, an invalid date, where the digit rule asks for the nanosecond
reading `new Date(1e21 / 1e6)`, the instant `10 ^ 15` ms. -/
theorem toDate_exponent_notation {σ : Type} (w : World σ) (s : σ) :
    decimalDigits (mathAbs (mathTrunc (10 ^ 21))) = 22 ∧
    natToJsString (mathAbs (mathTrunc (10 ^ 21))) = "1e+21" ∧
    toDateNumber w (.finite (10 ^ 21)) s = (newDate (10 ^ 21 * 10 ^ 3), s) ∧
    newDate (10 ^ 21 * 10 ^ 3) = ⟨none⟩ ∧
    newDate (10 ^ 21 / 10 ^ 6) = ⟨some (10 ^ 15)⟩ := by
  have hl : (natToJsString (10 ^ 21)).length = 5 := by rw [natToJsString_1e21]; decide
  have h0 : (10 ^ 21 : ℕ) ≠ 0 := pow_ne_zero _ (by decide)
  have h1 : Nat.log 10 (10 ^ 21) = 21 := Nat.log_pow (by decide) 21
  refine ⟨?_, ?_, ?_, ?_, ?_⟩
  · rw [mathAbs_trunc_1e21, decimalDigits_eq h0, h1]
  · rw [mathAbs_trunc_1e21, natToJsString_1e21]
  · have h4 : newDate ((10 : ℚ) ^ 21 * 10 ^ 3) = ⟨none⟩ := by
      simp only [newDate, timeClip]
      norm_num [abs_of_nonneg]
    have hd : ¬ 5 ≥ 19 ∧ ¬ 5 ≥ 16 ∧ ¬ 5 ≥ 13 ∧ ¬ 5 ≥ 10 := by decide
    simp only [toDateNumber, mathAbs_trunc_1e21, hl, hd.1, hd.2.1, hd.2.2.1, hd.2.2.2,
      if_false, newDateOf_1e24, h4]
  · simp only [newDate, timeClip]
    norm_num [abs_of_nonneg]
  · have h15 : (10 : ℚ) ^ 21 / 10 ^ 6 = ((10 ^ 15 : ℕ) : ℚ) := by norm_num
    simp only [newDate, timeClip, h15, mathTrunc_natCast]
    norm_num [abs_of_nonneg]

set_option maxRecDepth 8000 in
/-- C2 (counterexample): call `X` is stored from a first event with the URIs of alice and bob;
a second event for `X` resolves to the URIs of carol and dave, and after its upsert the
stored URIs are still those of alice and bob, while session and handle are the new ones. -/
theorem sip_uris_not_replaced :
    sipFromUri (some sipSecondData) = .str "sip:carol@example.org" ∧
    sipToUri (some sipSecondData) = .str "sip:dave@example.org" ∧
    findCall (handleEvent (memoryWorld plainHost noon) sipSecond
        (handleEvent (memoryWorld plainHost noon) sipFirst emptyStore).state).state.sipCalls
        (.str "X") =
      some ⟨.num 2, .num 20, .str "X", .str "sip:alice@example.org",
        .str "sip:bob@example.org", .str "in", noon⟩ := by
  decide

/-- C2 (amended): when `saveSipCallMap` finds a call identifier that is already stored, the
stored session and handle are replaced by the new ones, the stored direction is replaced
only when it was null, and `from_uri`, `to_uri` and `created_at` keep their stored values. -/
theorem sip_upsert_existing (host : Host) (clock : JsDate)
    (sessionId handleId data : Option Json) (ts : JsDate) (st : Store) (x : SipCallRecord)
    (hid : truthy (some (sipCallId data)) = true)
    (hx : findCall st.sipCalls (sipCallId data) = some x) :
    findCall (saveSipCallMap (memoryWorld host clock) sessionId handleId data ts st).state.sipCalls
        (sipCallId data) =
      some ⟨orNull sessionId, orNull handleId, x.call_id, x.from_uri, x.to_uri,
        if x.direction = .null then sipDirection data else x.direction, x.created_at⟩ := by
  unfold saveSipCallMap
  rw [if_pos hid, tryCatch_state, runQuery_state, memoryWorld_query_sip]
  exact findCall_upsert_same st.sipCalls
    ⟨orNull sessionId, orNull handleId, sipCallId data, sipFromUri data, sipToUri data,
      sipDirection data, ts⟩ x hx

set_option maxRecDepth 8000 in
/-- C2 (witness): the amended statement at the second sighting of call `X`. -/
theorem sip_upsert_existing_witness :
    findCall (saveSipCallMap (memoryWorld plainHost noon) (some (.num 2)) (some (.num 20))
        (some sipSecondData) noon
        (handleEvent (memoryWorld plainHost noon) sipFirst emptyStore).state).state.sipCalls
        (sipCallId (some sipSecondData)) =
      some ⟨.num 2, .num 20, .str "X", .str "sip:alice@example.org",
        .str "sip:bob@example.org", .str "in", noon⟩ :=
  sip_upsert_existing plainHost noon (some (.num 2)) (some (.num 20)) (some sipSecondData) noon
    (handleEvent (memoryWorld plainHost noon) sipFirst emptyStore).state
    ⟨.num 1, .num 10, .str "X", .str "sip:alice@example.org", .str "sip:bob@example.org",
      .str "in", noon⟩ (by decide) (by decide)

set_option maxRecDepth 8000 in
/-- C3: once the stored record of a call identifier has a non-null direction, no later
ingestion, of any payload, changes that direction; and ingesting call `X` first as incoming,
then again without a direction and under another session, leaves the direction `in` and
stores the later session. -/
theorem sip_direction_sticky (host : Host) (clock : JsDate) (payload id : Json) (st : Store)
    (x : SipCallRecord) (hx : findCall st.sipCalls id = some x) (hd : x.direction ≠ .null) :
    (findCall (handleEvent (memoryWorld host clock) payload st).state.sipCalls id).map
        (fun r => r.direction) = some x.direction ∧
    (findCall (handleEvent (memoryWorld plainHost noon) sipSecond
        (handleEvent (memoryWorld plainHost noon) sipFirst emptyStore).state).state.sipCalls
        (.str "X")).map (fun r => (r.session, r.direction)) =
      some (.num 2, .str "in") := by
  refine ⟨?_, by decide⟩
  refine handleEvent_preserves
    (P := fun st => (findCall st.sipCalls id).map (fun r => r.direction) = some x.direction)
    (fun q s h => memoryWorld_query_keeps_direction host clock id _ hd q s h)
    (fun s h => h) payload st ?_
  simp [hx]

set_option maxRecDepth 8000 in
/-- C3 (witness): the second sighting of call `X` leaves the direction stored by the first. -/
theorem sip_direction_sticky_witness :
    (findCall (handleEvent (memoryWorld plainHost noon) sipSecond
        (handleEvent (memoryWorld plainHost noon) sipFirst emptyStore).state).state.sipCalls
        (.str "X")).map (fun r => r.direction) = some (.str "in") :=
  (sip_direction_sticky plainHost noon sipSecond (.str "X")
    (handleEvent (memoryWorld plainHost noon) sipFirst emptyStore).state
    ⟨.num 1, .num 10, .str "X", .str "sip:alice@example.org", .str "sip:bob@example.org",
      .str "in", noon⟩ (by decide) (by decide)).1

/-- C4 (counterexample): against a sink that rejects the insert of a single session event,
`handleEvent` attempts the insert, the insert raises, and `handleEvent` returns normally. -/
theorem single_event_failure_swallowed :
    ((rejectingWorld plainHost noon connectionLost).query
        ⟨sqlSessions, [.json (.num 11), .json (.str "created"), .date noon]⟩ ()).1 =
      some connectionLost ∧
    (handleEvent (rejectingWorld plainHost noon connectionLost) sessionCreated ()).writes =
      [⟨sqlSessions, [.json (.num 11), .json (.str "created"), .date noon]⟩] ∧
    (handleEvent (rejectingWorld plainHost noon connectionLost) sessionCreated ()).threw =
      none := by
  decide

/-- C4 (amended): for a single event object, whatever the sink does, `handleEvent` attempts
the writes of its `switch` and returns normally: a failing write is caught, not propagated. -/
theorem single_event_never_throws {σ : Type} (w : World σ) (fields : List (String × Json))
    (s : σ) :
    (handleEvent w (.obj fields) s).threw = none ∧
    (handleEvent w (.obj fields) s).writes =
      (dispatch w (.obj fields) (eventStamp w (.obj fields) s)
        (toDate w (toJsValue ((Json.obj fields).get "timestamp")) s).2).writes := by
  refine ⟨handleEvent_threw w _ s, ?_⟩
  rw [handleEvent_obj]; rfl

/-- C5: for every batch and every sink, `handleEvent` returns without raising, and each
element is processed wherever it stands: the writes of the batch are the writes of the
elements before it, then its own writes from the state reached, then the writes of the
elements after it. Against a sink that rejects every write, all three elements of a batch
still have their insert attempted. -/
theorem batch_isolates_failures {σ : Type} (w : World σ) (pre post : List Json) (x : Json)
    (s : σ) :
    (handleEvent w (.arr (pre ++ x :: post)) s).threw = none ∧
    (handleEvent w (.arr (pre ++ x :: post)) s).writes =
      (handleEvent w (.arr pre) s).writes ++
        (handleEvent w x (handleEvent w (.arr pre) s).state).writes ++
        (handleEvent w (.arr post)
          (handleEvent w x (handleEvent w (.arr pre) s).state).state).writes ∧
    (handleEvent (rejectingWorld plainHost noon connectionLost)
        (.arr [sessionCreated, handleAttached, coreStopped]) ()).writes =
      [⟨sqlSessions, [.json (.num 11), .json (.str "created"), .date noon]⟩,
        ⟨sqlHandles, [.json (.num 11), .json (.num 22), .json (.str "attached"),
          .json (.str "janus.plugin.echotest"), .date noon]⟩,
        ⟨sqlCore, [.json (.str "status"), .json (.str "stopped (15)"), .date noon]⟩] := by
  refine ⟨handleEvent_threw w _ s, ?_, by decide⟩
  simp only [handleEvent_arr, handleItems_append_writes, handleItems_cons_writes,
    List.append_assoc]

theorem handleItems_writes {σ : Type} (w : World σ) (items : List Json) (s : σ) :
    (handleItems w items s).writes = writesInOrder w items s := by
  induction items generalizing s with
  | nil => simp [handleItems_nil, writesInOrder]
  | cons x rest ih => rw [handleItems_cons_writes, ih, writesInOrder]

/-! ## Claims on batch order, WebRTC events, core events and call identifiers -/

theorem recordingWorld_state (host : Host) (clock : JsDate) (j : Json) (st : List Query) :
    (handleEvent (recordingWorld host clock) j st).state =
      st ++ (handleEvent (recordingWorld host clock) j st).writes := by
  have h := respects_handleEvent (w := recordingWorld host clock)
    (R := fun s acc => s = st ++ acc)
    (fun q s acc h => by simp [recordingWorld, h])
    (fun s acc h => by simpa [recordingWorld] using h) j st [] (by simp)
  simpa using h

/-- C6: the writes of a batch are the write sequences of its elements, concatenated in array
order, each element being run from the state its predecessors left; an order-capturing sink
observes exactly that sequence; and a batch of a session, a handle and a core event yields
their three records in array order. -/
theorem batch_writes_in_order {σ : Type} (w : World σ) (items : List Json) (s : σ)
    (host : Host) (clock : JsDate) (seen : List Query) :
    (handleEvent w (.arr items) s).writes = writesInOrder w items s ∧
    (handleEvent (recordingWorld host clock) (.arr items) seen).state =
      seen ++ writesInOrder (recordingWorld host clock) items seen ∧
    (handleEvent (recordingWorld plainHost noon)
        (.arr [sessionCreated, handleAttached, coreStopped]) []).state =
      [⟨sqlSessions, [.json (.num 11), .json (.str "created"), .date noon]⟩,
        ⟨sqlHandles, [.json (.num 11), .json (.num 22), .json (.str "attached"),
          .json (.str "janus.plugin.echotest"), .date noon]⟩,
        ⟨sqlCore, [.json (.str "status"), .json (.str "stopped (15)"), .date noon]⟩] := by
  refine ⟨?_, ?_, by decide⟩
  · rw [handleEvent_arr, handleItems_writes]
  · rw [recordingWorld_state, handleEvent_arr, handleItems_writes]

theorem isObj_of_get {json : Json} {k : String} {v : Json} (h : json.get k = some v) :
    ∃ fields, json = .obj fields := by
  cases json <;> simp [Json.get] at h ⊢

theorem handleEvent_writes_of_type {σ : Type} (w : World σ) (json : Json) (s : σ) {t : ℚ}
    (h : json.get "type" = some (.num t)) :
    (handleEvent w json s).writes =
      (dispatch w json (eventStamp w json s)
        (toDate w (toJsValue (json.get "timestamp")) s).2).writes := by
  obtain ⟨fields, rfl⟩ := isObj_of_get h
  rw [handleEvent_obj]; rfl

theorem dispatch_webrtc {σ : Type} (w : World σ) (json : Json) (ts : JsDate) (s : σ)
    (h : json.get "type" = some (.num 16)) : dispatch w json ts s = caseWebrtc w json ts s := by
  simp only [dispatch, h]; norm_num

theorem dispatch_core {σ : Type} (w : World σ) (json : Json) (ts : JsDate) (s : σ)
    (h : json.get "type" = some (.num 256)) : dispatch w json ts s = caseCore w json ts s := by
  simp only [dispatch, h]; norm_num

@[simp] theorem orNull_some (v : Json) : orNull (some v) = v := rfl

theorem isSome_bind_map {α β γ : Type} (a : Option α) (b : Option β) (f : α → β → γ) :
    (a.bind fun x => b.map (f x)).isSome = (a.isSome && b.isSome) := by
  cases a <;> cases b <;> rfl

mutual
/-- The conversion `String(j)` returns exactly for the values that convert to text. -/
theorem toJsString_isSome (frac : ℚ → String) :
    ∀ j : Json, (toJsString frac j).isSome = convertsToText j
  | .null => rfl
  | .bool true => rfl
  | .bool false => rfl
  | .num _ => rfl
  | .infinite _ => rfl
  | .str _ => rfl
  | .arr items => by
    simp only [toJsString, convertsToText]
    exact joinItems_isSome frac items
  | .obj fields => by
    simp only [toJsString, convertsToText]
    cases fields.lookup "toString" <;> rfl
theorem joinItems_isSome (frac : ℚ → String) :
    ∀ items : List Json, (joinItems frac items).isSome = allConvertToText items
  | [] => rfl
  | item :: rest => by
    have h1 := toJsString_isSome frac item
    have h2 := joinItems_isSome frac rest
    cases item <;> cases rest <;>
      simp only [joinItems, allConvertToText, Bool.and_true, Option.isSome_map] <;>
      first
      | exact h1
      | exact h2
      | (rw [isSome_bind_map _ _ (fun head tail => head ++ "," ++ tail), h1, h2]
         simp only [allConvertToText, convertsToText, Bool.true_and])
      | (simp only [Option.isSome_map', Option.isSome_map, h2, allConvertToText,
          convertsToText, Bool.true_and])
end

theorem toJsString_eq_none (frac : ℚ → String) (j : Json) :
    toJsString frac j = none ↔ convertsToText j = false := by
  rw [← toJsString_isSome frac j]
  cases toJsString frac j <;> simp

/-- The writes of a type-16 event, case by case: the record of the first non-null field when
that field converts to text, none when it does not. -/
theorem caseWebrtc_writes {σ : Type} (w : World σ) (json : Json) (ts : JsDate) (s : σ) :
    (caseWebrtc w json ts s).writes =
      if isNullish (optGet (json.get "event") "ice") = false then
        (toJsString w.host.fractionToString
          (orNull (optGet (json.get "event") "ice"))).toList.map fun state =>
          ⟨sqlIce,
            [.json (orNull (json.get "session_id")), .json (orNull (json.get "handle_id")),
              .json (orNull (optGet (json.get "event") "stream_id")),
              .json (orNull (optGet (json.get "event") "component_id")),
              .json (.str state), .date ts]⟩
      else if isNullish (optGet (json.get "event") "selected-pair") = false then
        (toJsString w.host.fractionToString
          (orNull (optGet (json.get "event") "selected-pair"))).toList.map fun pair =>
          ⟨sqlSelectedPairs,
            [.json (orNull (json.get "session_id")), .json (orNull (json.get "handle_id")),
              .json (orNull (optGet (json.get "event") "stream_id")),
              .json (orNull (optGet (json.get "event") "component_id")),
              .json (.str pair), .date ts]⟩
      else if isNullish (optGet (json.get "event") "dtls") = false then
        (toJsString w.host.fractionToString
          (orNull (optGet (json.get "event") "dtls"))).toList.map fun state =>
          ⟨sqlDtls,
            [.json (orNull (json.get "session_id")), .json (orNull (json.get "handle_id")),
              .json (.str state), .date ts]⟩
      else if isNullish (optGet (json.get "event") "connection") = false then
        (toJsString w.host.fractionToString
          (orNull (optGet (json.get "event") "connection"))).toList.map fun state =>
          ⟨sqlConnections,
            [.json (orNull (json.get "session_id")), .json (orNull (json.get "handle_id")),
              .json (.str state), .date ts]⟩
      else [] := by
  unfold caseWebrtc
  simp only [Bool.not_eq_true]
  split_ifs
  · cases toJsString w.host.fractionToString (orNull (optGet (json.get "event") "ice")) <;> rfl
  · cases toJsString w.host.fractionToString
      (orNull (optGet (json.get "event") "selected-pair")) <;> rfl
  · cases toJsString w.host.fractionToString (orNull (optGet (json.get "event") "dtls")) <;> rfl
  · cases toJsString w.host.fractionToString
      (orNull (optGet (json.get "event") "connection")) <;> rfl
  · rfl

set_option maxRecDepth 8000 in
/-- C7 (counterexample): a type-16 event whose `ice` field is non-null, an object with an
own key `toString`: the conversion `String(json.event.ice)` throws inside the `try`, so no
ice record is written, nor any other, and `handleEvent` returns normally. -/
theorem ice_record_not_written :
    isNullish (optGet (iceUnprintable.get "event") "ice") = false ∧
    toJsString plainHost.fractionToString
      (orNull (optGet (iceUnprintable.get "event") "ice")) = none ∧
    (handleEvent (recordingWorld plainHost noon) iceUnprintable []).writes = [] ∧
    (handleEvent (recordingWorld plainHost noon) iceUnprintable []).threw = none := by
  decide

/-- C7 (amended): for every type-16 event the sub-kind is chosen by the first non-null field
among `ice`, `selected-pair`, `dtls` and `connection`, in that order, and at most one record
is written: the record of that sub-kind and no other when the field converts to text, no
record when it does not (it is an object with an own key `toString`, or an array holding
one) or when all four fields are null. The four statements are pairwise different. -/
theorem webrtc_first_match {σ : Type} (w : World σ) (json : Json) (s : σ)
    (h16 : json.get "type" = some (.num 16)) :
    (handleEvent w json s).writes.map Query.text =
      (if isNullish (optGet (json.get "event") "ice") = false then
          if convertsToText (orNull (optGet (json.get "event") "ice")) then [sqlIce] else []
        else if isNullish (optGet (json.get "event") "selected-pair") = false then
          if convertsToText (orNull (optGet (json.get "event") "selected-pair")) then
            [sqlSelectedPairs]
          else []
        else if isNullish (optGet (json.get "event") "dtls") = false then
          if convertsToText (orNull (optGet (json.get "event") "dtls")) then [sqlDtls] else []
        else if isNullish (optGet (json.get "event") "connection") = false then
          if convertsToText (orNull (optGet (json.get "event") "connection")) then
            [sqlConnections]
          else []
        else []) ∧
    [sqlIce, sqlSelectedPairs, sqlDtls, sqlConnections].Nodup := by
  refine ⟨?_, by decide⟩
  rw [handleEvent_writes_of_type w json s h16, dispatch_webrtc w json _ _ h16,
    caseWebrtc_writes]
  simp only [← toJsString_isSome w.host.fractionToString]
  split_ifs with h1 h2 h3 h4 h5 h6 h7 h8
  · cases hx : toJsString w.host.fractionToString (orNull (optGet (json.get "event") "ice"))
    · simp [hx] at h2
    · rfl
  · cases hx : toJsString w.host.fractionToString (orNull (optGet (json.get "event") "ice"))
    · rfl
    · simp [hx] at h2
  · cases hx : toJsString w.host.fractionToString
      (orNull (optGet (json.get "event") "selected-pair"))
    · simp [hx] at h4
    · rfl
  · cases hx : toJsString w.host.fractionToString
      (orNull (optGet (json.get "event") "selected-pair"))
    · rfl
    · simp [hx] at h4
  · cases hx : toJsString w.host.fractionToString (orNull (optGet (json.get "event") "dtls"))
    · simp [hx] at h6
    · rfl
  · cases hx : toJsString w.host.fractionToString (orNull (optGet (json.get "event") "dtls"))
    · rfl
    · simp [hx] at h6
  · cases hx : toJsString w.host.fractionToString
      (orNull (optGet (json.get "event") "connection"))
    · simp [hx] at h8
    · rfl
  · cases hx : toJsString w.host.fractionToString
      (orNull (optGet (json.get "event") "connection"))
    · rfl
    · simp [hx] at h8
  · rfl

set_option maxRecDepth 8000 in
/-- C7 (witness): with both `ice` and `selected-pair` present only the `ice` record is
written. -/
theorem webrtc_first_match_witness :
    (handleEvent (recordingWorld plainHost noon) iceAndPair []).writes.map Query.text =
      [sqlIce] :=
  (webrtc_first_match (recordingWorld plainHost noon) iceAndPair [] (by decide)).1.trans
    (by decide)

/-- C8 (counterexample): a DTLS event on stream 3, component 4 is written with four
parameters, session, handle, state and timestamp; neither identifier is among them. -/
theorem dtls_record_has_no_stream :
    orNull (optGet (dtlsConnected.get "event") "stream_id") = .num 3 ∧
    orNull (optGet (dtlsConnected.get "event") "component_id") = .num 4 ∧
    (handleEvent (recordingWorld plainHost noon) dtlsConnected []).writes =
      [⟨sqlDtls,
        [.json (.num 100), .json (.num 200), .json (.str "connected"), .date noon]⟩] := by
  decide

/-- C8 (amended): of the records of a type-16 event, the ICE and the selected-pair record
carry the event's `stream_id` and `component_id` (third and fourth parameter); the DTLS and
the connection record carry session, handle, state and timestamp only. The state is the
text of the chosen field; when that field has no conversion to text there is no record. -/
theorem webrtc_stream_component {σ : Type} (w : World σ) (json : Json) (s : σ)
    (h16 : json.get "type" = some (.num 16)) :
    (handleEvent w json s).writes.map Query.values =
      (if isNullish (optGet (json.get "event") "ice") = false then
        (toJsString w.host.fractionToString
          (orNull (optGet (json.get "event") "ice"))).toList.map fun state =>
          [.json (orNull (json.get "session_id")), .json (orNull (json.get "handle_id")),
            .json (orNull (optGet (json.get "event") "stream_id")),
            .json (orNull (optGet (json.get "event") "component_id")),
            .json (.str state), .date (eventStamp w json s)]
      else if isNullish (optGet (json.get "event") "selected-pair") = false then
        (toJsString w.host.fractionToString
          (orNull (optGet (json.get "event") "selected-pair"))).toList.map fun pair =>
          [.json (orNull (json.get "session_id")), .json (orNull (json.get "handle_id")),
            .json (orNull (optGet (json.get "event") "stream_id")),
            .json (orNull (optGet (json.get "event") "component_id")),
            .json (.str pair), .date (eventStamp w json s)]
      else if isNullish (optGet (json.get "event") "dtls") = false then
        (toJsString w.host.fractionToString
          (orNull (optGet (json.get "event") "dtls"))).toList.map fun state =>
          [.json (orNull (json.get "session_id")), .json (orNull (json.get "handle_id")),
            .json (.str state), .date (eventStamp w json s)]
      else if isNullish (optGet (json.get "event") "connection") = false then
        (toJsString w.host.fractionToString
          (orNull (optGet (json.get "event") "connection"))).toList.map fun state =>
          [.json (orNull (json.get "session_id")), .json (orNull (json.get "handle_id")),
            .json (.str state), .date (eventStamp w json s)]
      else []) ∧
    (∀ q ∈ (handleEvent w json s).writes,
      (q.text = sqlIce ∨ q.text = sqlSelectedPairs →
        q.values.take 4 =
          [.json (orNull (json.get "session_id")), .json (orNull (json.get "handle_id")),
            .json (orNull (optGet (json.get "event") "stream_id")),
            .json (orNull (optGet (json.get "event") "component_id"))]) ∧
      (q.text = sqlDtls ∨ q.text = sqlConnections → q.values.length = 4)) := by
  rw [handleEvent_writes_of_type w json s h16, dispatch_webrtc w json _ _ h16,
    caseWebrtc_writes]
  constructor
  · split_ifs <;> simp [List.map_map, Function.comp_def]
  · intro q hq
    split_ifs at hq <;>
      simp only [List.mem_map, Option.mem_toList, Option.mem_def, List.not_mem_nil] at hq
    all_goals
      obtain ⟨t, -, rfl⟩ := hq
      refine ⟨fun h => ?_, fun h => ?_⟩
      · first
        | rfl
        | (dsimp only at h; rcases h with h | h <;> exact absurd h (by decide))
      · first
        | rfl
        | (dsimp only at h; rcases h with h | h <;> exact absurd h (by decide))

set_option maxRecDepth 8000 in
/-- C8 (witness): the ICE record of an event on stream 3, component 4 carries both. -/
theorem webrtc_stream_component_witness :
    (handleEvent (recordingWorld plainHost noon) iceAndPair []).writes.map Query.values =
      [[.json (.num 100), .json (.num 200), .json (.num 3), .json (.num 4),
        .json (.str "connected"), .date noon]] :=
  (webrtc_stream_component (recordingWorld plainHost noon) iceAndPair []
    (by decide)).1.trans (by decide)

theorem isNullish_of_hasSlowlink {ev : Json} (h : hasSlowlink ev = true) :
    isNullish (some ev) = false := by
  cases ev <;> simp [hasSlowlink, isNullish] at h ⊢

theorem caseCore_value {σ : Type} (w : World σ) (json : Json) :
    (if truthy ((eventOrEmpty json).get "signum") then
      (toJsString w.host.fractionToString (orNull ((eventOrEmpty json).get "status"))).bind
        fun status =>
          (toJsString w.host.fractionToString
            (orNull ((eventOrEmpty json).get "signum"))).map fun signal =>
            Json.str (status ++ " (" ++ signal ++ ")")
      else some (orNull ((eventOrEmpty json).get "status"))) =
      coreValue w.host.fractionToString json := rfl

/-- The writes of a type-256 event: the slowlink insert when the event payload has a
slowlink key, then the core insert when its value can be built. -/
theorem caseCore_writes {σ : Type} (w : World σ) (json : Json) (ts : JsDate) (s : σ) :
    (caseCore w json ts s).writes =
      (if hasSlowlink (eventOrEmpty json) then
        [⟨sqlSlowlinks,
          [.json (orNull (json.get "session_id")), .json (orNull (json.get "handle_id")),
            .json (.str (jsonStringify w.host.fractionToString (eventOrEmpty json))),
            .date ts]⟩]
        else []) ++
      coreInserts w.host.fractionToString json ts := by
  unfold caseCore
  by_cases hs : hasSlowlink (eventOrEmpty json) = true
  · simp only [hs, if_true]
    rw [andThen_of_returned _ (saveSlowlink_threw _ _ _ _ _ _)]
    simp only [caseCore_value]
    simp only [saveSlowlink, isNullish_of_hasSlowlink hs, orNull_some, tryCatch_writes,
      tryCatch_state, runQuery_writes, runQuery_state, Bool.false_eq_true, if_false]
    unfold coreInserts
    cases coreValue w.host.fractionToString json <;> rfl
  · simp only [hs, Bool.false_eq_true, if_false]
    rw [andThen_of_returned _ (skip_threw _)]
    simp only [caseCore_value, skip_writes, skip_state, List.nil_append]
    unfold coreInserts
    cases coreValue w.host.fractionToString json <;> rfl

theorem coreValue_isSome (frac : ℚ → String) (json : Json) :
    (coreValue frac json).isSome =
      (!truthy ((eventOrEmpty json).get "signum") ||
        (convertsToText (orNull ((eventOrEmpty json).get "status")) &&
          convertsToText (orNull ((eventOrEmpty json).get "signum")))) := by
  unfold coreValue
  by_cases hs : truthy ((eventOrEmpty json).get "signum") = true
  · simp only [hs, if_true, Bool.not_true, Bool.false_or]
    rw [isSome_bind_map _ _ (fun status signal => Json.str (status ++ " (" ++ signal ++ ")")),
      toJsString_isSome, toJsString_isSome]
  · simp [hs]

set_option maxRecDepth 8000 in
/-- C9 (counterexample): a core event whose `signum` field is present and holds `0` is
stored with the bare status `stopped`, not with `stopped (0)`. -/
theorem core_signum_zero_not_appended :
    (eventOrEmpty coreSignumZero).get "signum" = some (.num 0) ∧
    (handleEvent (recordingWorld plainHost noon) coreSignumZero []).writes =
      [⟨sqlCore, [.json (.str "status"), .json (.str "stopped"), .date noon]⟩] := by
  decide

/-- C9 (amended): every type-256 event gets at most one core insert, after the slowlink
insert if there is one, with the name `status`; its value is the status followed by the
signal number in parentheses when `signum` is truthy, and the status itself (null when
absent) when `signum` is absent or falsy. The insert is made unless `signum` is truthy and
the status or the signal number has no conversion to text. -/
theorem core_status_record {σ : Type} (w : World σ) (json : Json) (s : σ)
    (h256 : json.get "type" = some (.num 256)) :
    (handleEvent w json s).writes =
      (if hasSlowlink (eventOrEmpty json) then
        [⟨sqlSlowlinks,
          [.json (orNull (json.get "session_id")), .json (orNull (json.get "handle_id")),
            .json (.str (jsonStringify w.host.fractionToString (eventOrEmpty json))),
            .date (eventStamp w json s)]⟩]
        else []) ++
      (if truthy ((eventOrEmpty json).get "signum") then
          (toJsString w.host.fractionToString
            (orNull ((eventOrEmpty json).get "status"))).bind fun status =>
            (toJsString w.host.fractionToString
              (orNull ((eventOrEmpty json).get "signum"))).map fun signal =>
              Json.str (status ++ " (" ++ signal ++ ")")
        else some (orNull ((eventOrEmpty json).get "status"))).toList.map
        (fun value =>
          ⟨sqlCore, [.json (.str "status"), .json value, .date (eventStamp w json s)]⟩) ∧
    ((handleEvent w json s).writes.filter (fun q => decide (q.text = sqlCore))).length =
      (if truthy ((eventOrEmpty json).get "signum") = true ∧
          (convertsToText (orNull ((eventOrEmpty json).get "status")) &&
            convertsToText (orNull ((eventOrEmpty json).get "signum"))) = false
        then 0 else 1) ∧
    sqlSlowlinks ≠ sqlCore := by
  have hw : (handleEvent w json s).writes =
      (if hasSlowlink (eventOrEmpty json) then
        [⟨sqlSlowlinks,
          [.json (orNull (json.get "session_id")), .json (orNull (json.get "handle_id")),
            .json (.str (jsonStringify w.host.fractionToString (eventOrEmpty json))),
            .date (eventStamp w json s)]⟩]
        else []) ++
      coreInserts w.host.fractionToString json (eventStamp w json s) := by
    rw [handleEvent_writes_of_type w json s h256, dispatch_core w json _ _ h256,
      caseCore_writes]
  refine ⟨hw, ?_, by decide⟩
  rw [hw, List.filter_append]
  have h1 : (if hasSlowlink (eventOrEmpty json) then
        [(⟨sqlSlowlinks,
          [.json (orNull (json.get "session_id")), .json (orNull (json.get "handle_id")),
            .json (.str (jsonStringify w.host.fractionToString (eventOrEmpty json))),
            .date (eventStamp w json s)]⟩ : Query)]
        else []).filter (fun q => decide (q.text = sqlCore)) = [] := by
    have hne : sqlSlowlinks ≠ sqlCore := by decide
    split_ifs <;> simp [hne]
  have h2 := coreValue_isSome w.host.fractionToString json
  rw [h1, List.nil_append]
  unfold coreInserts
  cases hv : coreValue w.host.fractionToString json with
  | none =>
    rw [hv] at h2
    have h3 : truthy ((eventOrEmpty json).get "signum") = true ∧
        (convertsToText (orNull ((eventOrEmpty json).get "status")) &&
          convertsToText (orNull ((eventOrEmpty json).get "signum"))) = false := by
      revert h2
      cases truthy ((eventOrEmpty json).get "signum") <;>
        cases (convertsToText (orNull ((eventOrEmpty json).get "status")) &&
          convertsToText (orNull ((eventOrEmpty json).get "signum"))) <;> simp
    rw [if_pos h3]
    rfl
  | some v =>
    rw [hv] at h2
    have h3 : ¬ (truthy ((eventOrEmpty json).get "signum") = true ∧
        (convertsToText (orNull ((eventOrEmpty json).get "status")) &&
          convertsToText (orNull ((eventOrEmpty json).get "signum"))) = false) := by
      revert h2
      cases truthy ((eventOrEmpty json).get "signum") <;>
        cases (convertsToText (orNull ((eventOrEmpty json).get "status")) &&
          convertsToText (orNull ((eventOrEmpty json).get "signum"))) <;> simp
    rw [if_neg h3]
    simp [coreQuery]

set_option maxRecDepth 8000 in
/-- C9 (witness): status `stopped` with signum 15 is stored as `stopped (15)`. -/
theorem core_status_record_witness :
    (handleEvent (recordingWorld plainHost noon) coreStopped []).writes =
      [⟨sqlCore, [.json (.str "status"), .json (.str "stopped (15)"), .date noon]⟩] :=
  (core_status_record (recordingWorld plainHost noon) coreStopped [] (by decide)).1.trans
    (by decide)

theorem sipCallId_eq_firstPresent (data : Option Json) :
    sipCallId data =
      firstPresent [optGet data "call_id", optGet data "call-id",
        optGet (optGet data "headers") "Call-ID", optGet (optGet data "headers") "call-id",
        optGet data "sip_call_id"] := by
  simp only [sipCallId, firstPresent, orElse]
  split_ifs <;> rfl

/-- C10 (counterexample): with `call_id` present but empty and a usable `call-id` alias, the
first present value is the empty string and `saveSipCallMap` writes nothing. -/
theorem empty_call_id_not_upserted :
    firstPresent [optGet (some emptyCallId) "call_id", optGet (some emptyCallId) "call-id",
        optGet (optGet (some emptyCallId) "headers") "Call-ID",
        optGet (optGet (some emptyCallId) "headers") "call-id",
        optGet (some emptyCallId) "sip_call_id"] = .str "" ∧
    (saveSipCallMap (recordingWorld plainHost noon) (some (.num 1)) (some (.num 10))
        (some emptyCallId) noon []).writes = [] := by
  decide

/-- C10 (amended): the call identifier of `saveSipCallMap` is the first value that is
neither absent nor null among `call_id`, `call-id`, `headers['Call-ID']`,
`headers['call-id']` and `sip_call_id`; when it is truthy one upsert is made under it, and
when there is none or it is falsy no write is made; in no case is anything raised. -/
theorem sip_call_id_probe {σ : Type} (w : World σ) (sessionId handleId data : Option Json)
    (ts : JsDate) (s : σ) :
    sipCallId data =
      firstPresent [optGet data "call_id", optGet data "call-id",
        optGet (optGet data "headers") "Call-ID", optGet (optGet data "headers") "call-id",
        optGet data "sip_call_id"] ∧
    (saveSipCallMap w sessionId handleId data ts s).writes =
      (if truthy (some (sipCallId data)) then
        [⟨sqlSipCalls,
          [.json (orNull sessionId), .json (orNull handleId), .json (sipCallId data),
            .json (sipFromUri data), .json (sipToUri data), .json (sipDirection data),
            .date ts]⟩]
        else []) ∧
    truthy (some Json.null) = false ∧
    (saveSipCallMap w sessionId handleId data ts s).threw = none := by
  refine ⟨sipCallId_eq_firstPresent data, ?_, rfl, saveSipCallMap_threw w _ _ _ ts s⟩
  unfold saveSipCallMap
  split_ifs <;> rfl

/-! ## Event payloads, dispatch and the writes of each branch -/

theorem eventOrEmpty_get (json : Json) (k : String) :
    (eventOrEmpty json).get k = optGet (json.get "event") k := by
  unfold eventOrEmpty
  cases h : json.get "event" with
  | none => simp [truthy, optGet, Json.get]
  | some v =>
    cases v with
    | null => simp [truthy, optGet, Json.get]
    | bool b => cases b <;> simp [truthy, optGet, Json.get, orNull]
    | num q => by_cases hq : q = 0 <;> simp [truthy, optGet, Json.get, orNull, hq]
    | infinite n => simp [truthy, optGet, Json.get, orNull]
    | str t => by_cases ht : t = "" <;> simp [truthy, optGet, Json.get, orNull, ht]
    | arr items => simp [truthy, optGet, Json.get, orNull]
    | obj fields => simp [truthy, optGet, Json.get, orNull]

theorem dispatch_session {σ : Type} (w : World σ) (json : Json) (ts : JsDate) (s : σ)
    (h : json.get "type" = some (.num 1)) : dispatch w json ts s = caseSession w json ts s := by
  simp only [dispatch, h]; norm_num

theorem dispatch_handle {σ : Type} (w : World σ) (json : Json) (ts : JsDate) (s : σ)
    (h : json.get "type" = some (.num 2)) : dispatch w json ts s = caseHandle w json ts s := by
  simp only [dispatch, h]; norm_num

theorem dispatch_jsep {σ : Type} (w : World σ) (json : Json) (ts : JsDate) (s : σ)
    (h : json.get "type" = some (.num 8)) : dispatch w json ts s = caseJsep w json ts s := by
  simp only [dispatch, h]; norm_num

theorem dispatch_media {σ : Type} (w : World σ) (json : Json) (ts : JsDate) (s : σ)
    (h : json.get "type" = some (.num 32)) : dispatch w json ts s = caseMedia w json ts s := by
  simp only [dispatch, h]; norm_num

theorem dispatch_plugin {σ : Type} (w : World σ) (json : Json) (ts : JsDate) (s : σ)
    (h : json.get "type" = some (.num 64)) :
    dispatch w json ts s = casePlugin w true json ts s := by
  simp only [dispatch, h]; norm_num

theorem dispatch_transport {σ : Type} (w : World σ) (json : Json) (ts : JsDate) (s : σ)
    (h : json.get "type" = some (.num 128)) :
    dispatch w json ts s = casePlugin w false json ts s := by
  simp only [dispatch, h]; norm_num

/-- The `default` branch: a `type` that is none of the eight numbers writes nothing. -/
theorem dispatch_default {σ : Type} (w : World σ) (json : Json) (ts : JsDate) (s : σ)
    (h : ∀ t ∈ [(1 : ℚ), 2, 8, 16, 32, 64, 128, 256], json.get "type" ≠ some (.num t)) :
    dispatch w json ts s = Run.skip s := by
  unfold dispatch
  split
  · next t ht =>
    have h1 := h 1 (by simp)
    have h2 := h 2 (by simp)
    have h8 := h 8 (by simp)
    have h16 := h 16 (by simp)
    have h32 := h 32 (by simp)
    have h64 := h 64 (by simp)
    have h128 := h 128 (by simp)
    have h256 := h 256 (by simp)
    simp only [ht, ne_eq, Option.some.injEq, Json.num.injEq] at h1 h2 h8 h16 h32 h64 h128 h256
    simp [h1, h2, h8, h16, h32, h64, h128, h256]
  · rfl

/-- The first write of a type-64 (`isPlugin`) or type-128 event is its primary insert. -/
theorem casePlugin_primary {σ : Type} (w : World σ) (isPlugin : Bool) (json : Json)
    (ts : JsDate) (s : σ) :
    (casePlugin w isPlugin json ts s).writes.head? =
      some (pluginQuery w.host.fractionToString isPlugin json ts) := by
  unfold casePlugin Run.andThen
  simp only [runQuery_threw, runQuery_writes, runQuery_state]
  split <;> simp [pluginQuery]

/-- When the primary insert of a type-64 or type-128 event is rejected, nothing else is
attempted. -/
theorem casePlugin_writes_of_rejected {σ : Type} (w : World σ) (isPlugin : Bool) (json : Json)
    (ts : JsDate) (s : σ) (e : DbError)
    (h : (w.query (pluginQuery w.host.fractionToString isPlugin json ts) s).1 = some e) :
    (casePlugin w isPlugin json ts s).writes =
      [pluginQuery w.host.fractionToString isPlugin json ts] := by
  unfold casePlugin
  rw [andThen_of_threw _ (e := e) (by simpa [pluginQuery] using h)]
  rfl

/-- When the primary insert of a type-64 or type-128 event is accepted, the slowlinks insert
follows if the nested payload has a slowlink key, then the `sip_calls` upsert if the plugin
is the SIP plugin and the payload carries a truthy call identifier; neither depends on what
the sink answers. -/
theorem casePlugin_writes_of_accepted {σ : Type} (w : World σ) (isPlugin : Bool) (json : Json)
    (ts : JsDate) (s : σ)
    (h : (w.query (pluginQuery w.host.fractionToString isPlugin json ts) s).1 = none) :
    (casePlugin w isPlugin json ts s).writes =
      [pluginQuery w.host.fractionToString isPlugin json ts] ++
      (if hasSlowlink (orNull (optGet (json.get "event") "data")) then
        [slowlinkQuery w.host.fractionToString json
          (orNull (optGet (json.get "event") "data")) ts]
        else []) ++
      (if orNull (optGet (json.get "event") "plugin") = .str "janus.plugin.sip" ∧
          truthy (some (orNull (optGet (json.get "event") "data"))) = true ∧
          truthy (some (sipCallId (some (orNull (optGet (json.get "event") "data"))))) = true
        then [sipCallQuery json (orNull (optGet (json.get "event") "data")) ts]
        else []) := by
  unfold casePlugin
  rw [andThen_of_returned _ (by simpa [pluginQuery] using h)]
  simp only [runQuery_writes, runQuery_state, pluginQuery, slowlinkQuery, sipCallQuery]
  generalize orNull (optGet (json.get "event") "data") = data
  generalize orNull (optGet (json.get "event") "plugin") = plugin
  generalize orNull (json.get "session_id") = sid
  generalize orNull (json.get "handle_id") = hid
  generalize (w.query _ s).2 = s1
  have hslow : (if hasSlowlink data = true then
        saveSlowlink w (some sid) (some hid) (some data) ts s1 else Run.skip s1).threw =
      none := by
    split <;> rfl
  rw [andThen_of_returned _ hslow]
  simp only [List.append_assoc]
  congr 1
  congr 1
  · by_cases hs : hasSlowlink data = true
    · simp [hs, saveSlowlink, isNullish_of_hasSlowlink hs, orNull_some]
    · simp [hs]
  · by_cases hp : plugin = .str "janus.plugin.sip" ∧ truthy (some data) = true
    · by_cases hc : truthy (some (sipCallId (some data))) = true
      · simp [hp, hc, saveSipCallMap, orNull_some]
      · simp [hp, hc, saveSipCallMap]
    · have hp' : ¬ (plugin = .str "janus.plugin.sip" ∧ truthy (some data) = true ∧
          truthy (some (sipCallId (some data))) = true) := fun h3 => hp ⟨h3.1, h3.2.1⟩
      simp only [hp, hp', if_false, skip_writes]

theorem lookup_isSome (k : String) (fields : List (String × Json)) :
    (fields.lookup k).isSome = fields.any (fun kv => kv.1 == k) := by
  induction fields with
  | nil => rfl
  | cons kv rest ih =>
    obtain ⟨a, v⟩ := kv
    by_cases hk : k = a
    · subst hk; simp [List.lookup]
    · have hk' : (k == a) = false := by simpa using hk
      have hk'' : (a == k) = false := by simpa using fun e : a = k => hk e.symm
      simp [List.lookup, hk', hk'', ih]

/-- The test `hasSlowlink` holds exactly for the objects that contain one of the three
slowlink keys. -/
theorem hasSlowlink_eq (payload : Json) : hasSlowlink payload = containsSlowlinkKey payload := by
  cases payload with
  | obj fields =>
    simp only [hasSlowlink, containsSlowlinkKey, Json.get, lookup_isSome]
    induction fields with
    | nil => rfl
    | cons kv rest ih =>
      simp only [List.any_cons, ← ih]
      cases (kv.1 == "slowlink") <;> cases (kv.1 == "slowlink_threshold") <;>
        cases (kv.1 == "slowlink-threshold") <;>
        cases (rest.any fun kv => kv.1 == "slowlink") <;>
        cases (rest.any fun kv => kv.1 == "slowlink_threshold") <;>
        cases (rest.any fun kv => kv.1 == "slowlink-threshold") <;> rfl
  | arr items => simp [hasSlowlink, containsSlowlinkKey, Json.get]
  | null => rfl
  | bool b => rfl
  | num q => rfl
  | infinite n => rfl
  | str t => rfl

theorem eventOrEmpty_of_contains {json : Json}
    (h : containsSlowlinkKey (orNull (json.get "event")) = true) :
    eventOrEmpty json = orNull (json.get "event") := by
  unfold eventOrEmpty
  cases hv : json.get "event" with
  | none => simp [hv, orNull, containsSlowlinkKey] at h
  | some v => cases v <;> simp [hv, orNull, containsSlowlinkKey, truthy] at h ⊢

theorem containsSlowlinkKey_eventOrEmpty (json : Json) :
    containsSlowlinkKey (eventOrEmpty json) = containsSlowlinkKey (orNull (json.get "event")) := by
  unfold eventOrEmpty
  cases hv : json.get "event" with
  | none => simp [orNull, containsSlowlinkKey, truthy]
  | some v =>
    cases v with
    | null => simp [orNull, containsSlowlinkKey, truthy]
    | bool b => cases b <;> simp [orNull, containsSlowlinkKey, truthy]
    | num q => by_cases hq : q = 0 <;> simp [orNull, containsSlowlinkKey, truthy, hq]
    | infinite n => simp [orNull, containsSlowlinkKey, truthy]
    | str t => by_cases ht : t = "" <;> simp [orNull, containsSlowlinkKey, truthy, ht]
    | arr items => simp [orNull, containsSlowlinkKey, truthy]
    | obj fields => simp [orNull, truthy]

/-- The writes of a type-256 event, with the queries named. -/
theorem caseCore_writes_named {σ : Type} (w : World σ) (json : Json) (ts : JsDate) (s : σ) :
    (caseCore w json ts s).writes =
      (if containsSlowlinkKey (orNull (json.get "event")) then
        [slowlinkQuery w.host.fractionToString json (orNull (json.get "event")) ts]
        else []) ++
      coreInserts w.host.fractionToString json ts := by
  rw [caseCore_writes, hasSlowlink_eq, containsSlowlinkKey_eventOrEmpty]
  by_cases h : containsSlowlinkKey (orNull (json.get "event")) = true
  · simp [h, slowlinkQuery, eventOrEmpty_of_contains h]
  · simp [h]

theorem coreInserts_text (frac : ℚ → String) (json : Json) (ts : JsDate) :
    ∀ q ∈ coreInserts frac json ts, q.text = sqlCore := by
  intro q hq
  unfold coreInserts at hq
  simp only [List.mem_map, Option.mem_toList, Option.mem_def] at hq
  obtain ⟨v, -, rfl⟩ := hq
  rfl

/-! ## Claims on slowlink detection and the slowlink writer -/

theorem pluginQuery_text_ne_slowlinks (frac : ℚ → String) (isPlugin : Bool) (json : Json)
    (ts : JsDate) : (pluginQuery frac isPlugin json ts).text ≠ sqlSlowlinks := by
  cases isPlugin <;> simp only [pluginQuery] <;> decide

theorem filter_slowlinks_plugin (frac : ℚ → String) (isPlugin : Bool) (json data : Json)
    (ts : JsDate) (c₁ c₂ : Prop) [Decidable c₁] [Decidable c₂] :
    ([pluginQuery frac isPlugin json ts] ++
        (if c₁ then [slowlinkQuery frac json data ts] else []) ++
        (if c₂ then [sipCallQuery json data ts] else [])).filter
        (fun q => decide (q.text = sqlSlowlinks)) =
      if c₁ then [slowlinkQuery frac json data ts] else [] := by
  have h1 := pluginQuery_text_ne_slowlinks frac isPlugin json ts
  have h2 : (sipCallQuery json data ts).text ≠ sqlSlowlinks := by
    simp only [sipCallQuery]; decide
  have h3 : (slowlinkQuery frac json data ts).text = sqlSlowlinks := rfl
  by_cases hc₁ : c₁ <;> by_cases hc₂ : c₂ <;> simp [hc₁, hc₂, List.filter, h1, h2, h3]

theorem filter_slowlinks_core (frac : ℚ → String) (json payload : Json) (ts : JsDate)
    (c : Prop) [Decidable c] :
    ((if c then [slowlinkQuery frac json payload ts] else []) ++
        coreInserts frac json ts).filter (fun q => decide (q.text = sqlSlowlinks)) =
      if c then [slowlinkQuery frac json payload ts] else [] := by
  have hne : sqlCore ≠ sqlSlowlinks := by decide
  have h2 : (coreInserts frac json ts).filter (fun q => decide (q.text = sqlSlowlinks)) =
      [] := by
    rw [List.filter_eq_nil_iff]
    intro q hq
    rw [coreInserts_text frac json ts q hq]
    simpa using hne
  have h3 : (slowlinkQuery frac json payload ts).text = sqlSlowlinks := rfl
  rw [List.filter_append, h2, List.append_nil]
  by_cases hc : c <;> simp [hc, List.filter, h3]

theorem handleEvent_plugin_writes {σ : Type} (w : World σ) (json : Json) (s : σ)
    (isPlugin : Bool) (h : json.get "type" = some (.num (if isPlugin then 64 else 128))) :
    (handleEvent w json s).writes =
      (casePlugin w isPlugin json (eventStamp w json s) (eventState w json s)).writes := by
  rw [handleEvent_writes_of_type w json s h]
  cases isPlugin
  · rw [dispatch_transport w json _ _ (by simpa using h)]; rfl
  · rw [dispatch_plugin w json _ _ (by simpa using h)]; rfl

theorem handleEvent_core_writes {σ : Type} (w : World σ) (json : Json) (s : σ)
    (h : json.get "type" = some (.num 256)) :
    (handleEvent w json s).writes =
      (if containsSlowlinkKey (orNull (json.get "event")) then
        [slowlinkQuery w.host.fractionToString json (orNull (json.get "event"))
          (eventStamp w json s)]
        else []) ++
      coreInserts w.host.fractionToString json (eventStamp w json s) := by
  rw [handleEvent_writes_of_type w json s h, dispatch_core w json _ _ h, caseCore_writes_named]

theorem handleEvent_plugin_writes_of_accepted {σ : Type} (w : World σ) (json : Json) (s : σ)
    (isPlugin : Bool) (h : json.get "type" = some (.num (if isPlugin then 64 else 128)))
    (hacc : (w.query (pluginQuery w.host.fractionToString isPlugin json (eventStamp w json s))
      (eventState w json s)).1 = none) :
    (handleEvent w json s).writes =
      [pluginQuery w.host.fractionToString isPlugin json (eventStamp w json s)] ++
      (if containsSlowlinkKey (orNull (optGet (json.get "event") "data")) then
        [slowlinkQuery w.host.fractionToString json
          (orNull (optGet (json.get "event") "data")) (eventStamp w json s)]
        else []) ++
      (if orNull (optGet (json.get "event") "plugin") = .str "janus.plugin.sip" ∧
          truthy (some (orNull (optGet (json.get "event") "data"))) = true ∧
          truthy (some (sipCallId (some (orNull (optGet (json.get "event") "data"))))) = true
        then [sipCallQuery json (orNull (optGet (json.get "event") "data"))
          (eventStamp w json s)]
        else []) := by
  rw [handleEvent_plugin_writes w json s isPlugin h,
    casePlugin_writes_of_accepted w isPlugin json _ _ hacc, hasSlowlink_eq]

set_option maxRecDepth 8000 in
/-- C11 (counterexample): a type-64 event whose nested payload has the key `slowlink`, run
against a sink that rejects the plugins insert: the plugins insert is the only write
attempted, no slowlinks write follows. -/
theorem slowlink_skipped_after_rejection :
    containsSlowlinkKey (orNull (optGet (sipSlowlink.get "event") "data")) = true ∧
    (handleEvent (rejectingWorld plainHost noon connectionLost) sipSlowlink ()).writes =
      [⟨sqlPlugins,
        [.json (.num 5), .json (.num 6), .json (.str "janus.plugin.sip"),
          .json (.str "\x7b\"slowlink\":\"uplink\",\"call_id\":\"Y\"\x7d"),
          .date noon]⟩] := by
  decide

/-- C11 (amended): for every type-256 event, and for every type-64 or type-128 event whose
primary insert the sink accepts, the slowlinks writes attempted are exactly one, carrying
the serialised nested payload (`event` for type 256, `event.data` for types 64 and 128),
when that payload is an object with one of the three slowlink keys, and none otherwise. -/
theorem slowlink_detection {σ : Type} (w : World σ) (json : Json) (s : σ) :
    (json.get "type" = some (.num 256) →
      (handleEvent w json s).writes.filter (fun q => decide (q.text = sqlSlowlinks)) =
        if containsSlowlinkKey (orNull (json.get "event")) then
          [⟨sqlSlowlinks,
            [.json (orNull (json.get "session_id")), .json (orNull (json.get "handle_id")),
              .json (.str (jsonStringify w.host.fractionToString (orNull (json.get "event")))),
              .date (eventStamp w json s)]⟩]
        else []) ∧
    (∀ isPlugin : Bool, json.get "type" = some (.num (if isPlugin then 64 else 128)) →
      (w.query (pluginQuery w.host.fractionToString isPlugin json (eventStamp w json s))
        (eventState w json s)).1 = none →
      (handleEvent w json s).writes.filter (fun q => decide (q.text = sqlSlowlinks)) =
        if containsSlowlinkKey (orNull (optGet (json.get "event") "data")) then
          [⟨sqlSlowlinks,
            [.json (orNull (json.get "session_id")), .json (orNull (json.get "handle_id")),
              .json (.str (jsonStringify w.host.fractionToString
                (orNull (optGet (json.get "event") "data")))),
              .date (eventStamp w json s)]⟩]
        else []) := by
  refine ⟨fun h => ?_, fun isPlugin h hacc => ?_⟩
  · rw [handleEvent_core_writes w json s h, filter_slowlinks_core]; rfl
  · rw [handleEvent_plugin_writes_of_accepted w json s isPlugin h hacc,
      filter_slowlinks_plugin]
    rfl

set_option maxRecDepth 8000 in
/-- C11 (witness): a type-64 event with the key `slowlink`, accepted by the sink, gets one
slowlinks write with its whole nested payload. -/
theorem slowlink_detection_witness :
    (handleEvent (recordingWorld plainHost noon) sipSlowlink []).writes.filter
        (fun q => decide (q.text = sqlSlowlinks)) =
      [⟨sqlSlowlinks,
        [.json (.num 5), .json (.num 6),
          .json (.str "\x7b\"slowlink\":\"uplink\",\"call_id\":\"Y\"\x7d"), .date noon]⟩] :=
  ((slowlink_detection (recordingWorld plainHost noon) sipSlowlink []).2 true (by decide)
    (by decide)).trans (by decide)

/-- C12: `saveSlowlink` never raises, whatever error the sink answers, and `handleEvent`
never raises; the writes that follow the slowlinks insert do not depend on its outcome: a
type-256 event still gets its core insert (`coreInserts`: the one insert of the event, which
is missing only when its value has no conversion to text, whatever the sink does), and a
type-64 or type-128 event whose primary insert was accepted still gets its `sip_calls`
upsert when it is due. -/
theorem slowlink_writer_never_raises {σ : Type} (w : World σ)
    (sessionId handleId payload : Option Json) (ts : JsDate) (s : σ) (json : Json) :
    (saveSlowlink w sessionId handleId payload ts s).threw = none ∧
    (handleEvent w json s).threw = none ∧
    (json.get "type" = some (.num 256) →
      (handleEvent w json s).writes =
        (if containsSlowlinkKey (orNull (json.get "event")) then
          [slowlinkQuery w.host.fractionToString json (orNull (json.get "event"))
            (eventStamp w json s)]
          else []) ++
        coreInserts w.host.fractionToString json (eventStamp w json s)) ∧
    (∀ isPlugin : Bool, json.get "type" = some (.num (if isPlugin then 64 else 128)) →
      (w.query (pluginQuery w.host.fractionToString isPlugin json (eventStamp w json s))
        (eventState w json s)).1 = none →
      (handleEvent w json s).writes =
        [pluginQuery w.host.fractionToString isPlugin json (eventStamp w json s)] ++
        (if containsSlowlinkKey (orNull (optGet (json.get "event") "data")) then
          [slowlinkQuery w.host.fractionToString json
            (orNull (optGet (json.get "event") "data")) (eventStamp w json s)]
          else []) ++
        (if orNull (optGet (json.get "event") "plugin") = .str "janus.plugin.sip" ∧
            truthy (some (orNull (optGet (json.get "event") "data"))) = true ∧
            truthy (some (sipCallId (some (orNull (optGet (json.get "event") "data"))))) =
              true
          then [sipCallQuery json (orNull (optGet (json.get "event") "data"))
            (eventStamp w json s)]
          else [])) :=
  ⟨saveSlowlink_threw w _ _ _ ts s, handleEvent_threw w json s,
    handleEvent_core_writes w json s, handleEvent_plugin_writes_of_accepted w json s⟩

set_option maxRecDepth 8000 in
/-- C12 (witness): against a sink without the `slowlinks` relation (code `42P01`), a SIP
plugin event with a slowlink key has its slowlinks insert rejected and its `sip_calls`
upsert performed all the same, and a core event with a slowlink key has its core insert
performed all the same. -/
theorem slowlink_writer_never_raises_witness :
    ((missingSlowlinksWorld plainHost noon).query
        (slowlinkQuery plainHost.fractionToString sipSlowlink
          (orNull (optGet (sipSlowlink.get "event") "data")) noon) []).1 =
      some undefinedTable ∧
    (handleEvent (missingSlowlinksWorld plainHost noon) sipSlowlink []).writes.map Query.text =
      [sqlPlugins, sqlSlowlinks, sqlSipCalls] ∧
    (handleEvent (missingSlowlinksWorld plainHost noon) coreSlowlink []).writes.map
        Query.text = [sqlSlowlinks, sqlCore] :=
  ⟨by decide,
    (congrArg (List.map Query.text)
      ((slowlink_writer_never_raises (missingSlowlinksWorld plainHost noon) none none none
        noon [] sipSlowlink).2.2.2 true (by decide) (by decide))).trans (by decide),
    (congrArg (List.map Query.text)
      ((slowlink_writer_never_raises (missingSlowlinksWorld plainHost noon) none none none
        noon [] coreSlowlink).2.2.1 (by decide))).trans (by decide)⟩

/-! ## Claims on media and statistics events -/

/-- The writes of a type-32 event, case by case. -/
theorem caseMedia_writes {σ : Type} (w : World σ) (json : Json) (ts : JsDate) (s : σ) :
    (caseMedia w json ts s).writes =
      if isNullish (optGet (json.get "event") "receiving") = false then
        [⟨sqlMedia,
          [.json (orNull (json.get "session_id")), .json (orNull (json.get "handle_id")),
            .json (orNull (optGet (json.get "event") "media")),
            .json (.bool (decide (optGet (json.get "event") "receiving" = some (.bool true)))),
            .date ts]⟩]
      else if isNullish (optGet (json.get "event") "base") = false then
        [⟨sqlStats,
          [.json (orNull (json.get "session_id")), .json (orNull (json.get "handle_id")),
            .json (orNull (json.get "subtype")),
            .json (orNull (optGet (json.get "event") "mid")),
            .json (orNull (optGet (json.get "event") "mindex")),
            .json (orNull (optGet (json.get "event") "codec")),
            .json (orNull (optGet (json.get "event") "media")),
            .json (orNull (optGet (json.get "event") "base")),
            .json (orNull (optGet (json.get "event") "lsr")),
            .json (orNull (optGet (json.get "event") "lost")),
            .json (orNull (optGet (json.get "event") "lost-by-remote")),
            .json (orNull (optGet (json.get "event") "jitter-local")),
            .json (orNull (optGet (json.get "event") "jitter-remote")),
            .json (orNull (optGet (json.get "event") "packets-sent")),
            .json (orNull (optGet (json.get "event") "packets-received")),
            .json (orNull (optGet (json.get "event") "bytes-sent")),
            .json (orNull (optGet (json.get "event") "bytes-received")),
            .json (orNull (optGet (json.get "event") "nacks-sent")),
            .json (orNull (optGet (json.get "event") "nacks-received")),
            .json (orNull (optGet (json.get "event") "rtt")),
            .json (orNull (optGet (optGet (json.get "event") "rtt-values") "ntp")),
            .json (orNull (optGet (optGet (json.get "event") "rtt-values") "lsr")),
            .json (orNull (optGet (optGet (json.get "event") "rtt-values") "dlsr")),
            .json (orNull (optGet (json.get "event") "in-link-quality")),
            .json (orNull (optGet (json.get "event") "in-media-link-quality")),
            .json (orNull (optGet (json.get "event") "out-link-quality")),
            .json (orNull (optGet (json.get "event") "out-media-link-quality")),
            .json (orNull (optGet (json.get "event") "bytes-sent-lastsec")),
            .json (orNull (optGet (json.get "event") "bytes-received-lastsec")),
            .json (orNull (optGet (json.get "event") "retransmissions-received")),
            .date ts]⟩]
      else [] := by
  unfold caseMedia
  simp only [Bool.not_eq_true, eventOrEmpty_get]
  split_ifs <;> rfl

theorem handleEvent_media_writes {σ : Type} (w : World σ) (json : Json) (s : σ)
    (h : json.get "type" = some (.num 32)) :
    (handleEvent w json s).writes =
      (caseMedia w json (eventStamp w json s) (eventState w json s)).writes := by
  rw [handleEvent_writes_of_type w json s h, dispatch_media w json _ _ h]; rfl

/-- C13: for every type-32 event, a non-null `event.receiving` gives exactly one media
record, whose `receiving` is the boolean `event.receiving === true`, and no stats record,
whatever `base` holds; otherwise a non-null `event.base` gives exactly one stats record;
otherwise nothing is written; and nothing is raised. -/
theorem media_or_stats {σ : Type} (w : World σ) (json : Json) (s : σ)
    (h32 : json.get "type" = some (.num 32)) :
    (handleEvent w json s).writes.map Query.text =
      (if isNullish (optGet (json.get "event") "receiving") = false then [sqlMedia]
        else if isNullish (optGet (json.get "event") "base") = false then [sqlStats]
        else []) ∧
    (handleEvent w json s).writes.filter (fun q => decide (q.text = sqlMedia)) =
      (if isNullish (optGet (json.get "event") "receiving") = false then
        [⟨sqlMedia,
          [.json (orNull (json.get "session_id")), .json (orNull (json.get "handle_id")),
            .json (orNull (optGet (json.get "event") "media")),
            .json (.bool (decide (optGet (json.get "event") "receiving" = some (.bool true)))),
            .date (eventStamp w json s)]⟩]
        else []) ∧
    (handleEvent w json s).threw = none ∧
    sqlMedia ≠ sqlStats := by
  have hne : sqlStats ≠ sqlMedia := by decide
  refine ⟨?_, ?_, handleEvent_threw w json s, by decide⟩
  · rw [handleEvent_media_writes w json s h32, caseMedia_writes]
    split_ifs <;> rfl
  · rw [handleEvent_media_writes w json s h32, caseMedia_writes]
    split_ifs <;> simp [List.filter, hne]

/-- C13 (witness): with `receiving` and `base` both present only the media record is
written. -/
theorem media_or_stats_witness :
    (handleEvent (recordingWorld plainHost noon) mediaReceiving []).writes.map Query.text =
      [sqlMedia] :=
  (media_or_stats (recordingWorld plainHost noon) mediaReceiving [] (by decide)).1.trans
    (by decide)

theorem insertColumns_stats :
    insertColumns sqlStats =
      ["session", "handle", "subtype", "mid", "mindex", "codec", "medium", "base", "lsr",
        "lostlocal", "lostremote", "jitterlocal", "jitterremote", "packetssent",
        "packetsrecv", "bytessent", "bytesrecv", "nackssent", "nacksrecv", "rtt", "rtt_ntp",
        "rtt_lsr", "rtt_dlsr", "in_link_quality", "in_media_link_quality", "out_link_quality",
        "out_media_link_quality", "bytes_sent_lastsec", "bytes_recv_lastsec",
        "retransmissions_recv", "timestamp"] := by
  decide

theorem placeholderCount_stats : placeholderCount sqlStats = 31 := by decide

/-- C14: the insert of a type-32 stats event (`receiving` null or absent, `base` non-null)
is the only write; it has 31 parameters for the 31 listed columns and the 31 placeholders,
and each column is bound to its own source field, read with `?? null`, so that an absent
field is written as null; and nothing is raised. -/
theorem stats_columns {σ : Type} (w : World σ) (json : Json) (s : σ)
    (h32 : json.get "type" = some (.num 32))
    (hr : isNullish (optGet (json.get "event") "receiving") = true)
    (hb : isNullish (optGet (json.get "event") "base") = false) :
    (handleEvent w json s).writes.map
        (fun q => (q.text, q.values.length, placeholderCount q.text)) =
      [(sqlStats, 31, 31)] ∧
    (handleEvent w json s).writes.map (fun q => (insertColumns q.text).zip q.values) =
      [[("session", .json (orNull (json.get "session_id"))),
        ("handle", .json (orNull (json.get "handle_id"))),
        ("subtype", .json (orNull (json.get "subtype"))),
        ("mid", .json (orNull (optGet (json.get "event") "mid"))),
        ("mindex", .json (orNull (optGet (json.get "event") "mindex"))),
        ("codec", .json (orNull (optGet (json.get "event") "codec"))),
        ("medium", .json (orNull (optGet (json.get "event") "media"))),
        ("base", .json (orNull (optGet (json.get "event") "base"))),
        ("lsr", .json (orNull (optGet (json.get "event") "lsr"))),
        ("lostlocal", .json (orNull (optGet (json.get "event") "lost"))),
        ("lostremote", .json (orNull (optGet (json.get "event") "lost-by-remote"))),
        ("jitterlocal", .json (orNull (optGet (json.get "event") "jitter-local"))),
        ("jitterremote", .json (orNull (optGet (json.get "event") "jitter-remote"))),
        ("packetssent", .json (orNull (optGet (json.get "event") "packets-sent"))),
        ("packetsrecv", .json (orNull (optGet (json.get "event") "packets-received"))),
        ("bytessent", .json (orNull (optGet (json.get "event") "bytes-sent"))),
        ("bytesrecv", .json (orNull (optGet (json.get "event") "bytes-received"))),
        ("nackssent", .json (orNull (optGet (json.get "event") "nacks-sent"))),
        ("nacksrecv", .json (orNull (optGet (json.get "event") "nacks-received"))),
        ("rtt", .json (orNull (optGet (json.get "event") "rtt"))),
        ("rtt_ntp", .json (orNull (optGet (optGet (json.get "event") "rtt-values") "ntp"))),
        ("rtt_lsr", .json (orNull (optGet (optGet (json.get "event") "rtt-values") "lsr"))),
        ("rtt_dlsr", .json (orNull (optGet (optGet (json.get "event") "rtt-values") "dlsr"))),
        ("in_link_quality", .json (orNull (optGet (json.get "event") "in-link-quality"))),
        ("in_media_link_quality",
          .json (orNull (optGet (json.get "event") "in-media-link-quality"))),
        ("out_link_quality", .json (orNull (optGet (json.get "event") "out-link-quality"))),
        ("out_media_link_quality",
          .json (orNull (optGet (json.get "event") "out-media-link-quality"))),
        ("bytes_sent_lastsec", .json (orNull (optGet (json.get "event") "bytes-sent-lastsec"))),
        ("bytes_recv_lastsec",
          .json (orNull (optGet (json.get "event") "bytes-received-lastsec"))),
        ("retransmissions_recv",
          .json (orNull (optGet (json.get "event") "retransmissions-received"))),
        ("timestamp", .date (eventStamp w json s))]] ∧
    orNull none = Json.null ∧
    (handleEvent w json s).threw = none := by
  have hr' : ¬ isNullish (optGet (json.get "event") "receiving") = false := by simp [hr]
  refine ⟨?_, ?_, rfl, handleEvent_threw w json s⟩
  · rw [handleEvent_media_writes w json s h32, caseMedia_writes, if_neg hr', if_pos hb]
    simp only [List.map, placeholderCount_stats]
    rfl
  · rw [handleEvent_media_writes w json s h32, caseMedia_writes, if_neg hr', if_pos hb]
    simp only [List.map, insertColumns_stats]
    rfl

set_option maxRecDepth 8000 in
/-- C14 (witness): a stats event that carries only `media`, `base`, `lost`,
`rtt-values.ntp`, `packets-sent` and `bytes-received-lastsec` (the last one `0`) binds those
to their columns and writes null for every other counter. -/
theorem stats_columns_witness :
    (handleEvent (recordingWorld plainHost noon) statsSparse []).writes.map
        (fun q => (insertColumns q.text).zip q.values) =
      [[("session", .json (.num 5)), ("handle", .json (.num 6)), ("subtype", .json (.num 3)),
        ("mid", .json .null), ("mindex", .json .null), ("codec", .json .null),
        ("medium", .json (.str "video")), ("base", .json (.num 90000)), ("lsr", .json .null),
        ("lostlocal", .json (.num 2)), ("lostremote", .json .null),
        ("jitterlocal", .json .null), ("jitterremote", .json .null),
        ("packetssent", .json (.num 40)), ("packetsrecv", .json .null),
        ("bytessent", .json .null), ("bytesrecv", .json .null), ("nackssent", .json .null),
        ("nacksrecv", .json .null), ("rtt", .json .null), ("rtt_ntp", .json (.num 7)),
        ("rtt_lsr", .json .null), ("rtt_dlsr", .json .null), ("in_link_quality", .json .null),
        ("in_media_link_quality", .json .null), ("out_link_quality", .json .null),
        ("out_media_link_quality", .json .null), ("bytes_sent_lastsec", .json .null),
        ("bytes_recv_lastsec", .json (.num 0)), ("retransmissions_recv", .json .null),
        ("timestamp", .date noon)]] :=
  (stats_columns (recordingWorld plainHost noon) statsSparse [] (by decide) (by decide)
    (by decide)).2.1.trans (by decide)

/-! ## Claims on primary inserts, unknown types, plugin and JSEP records -/

theorem slowlinks_not_primary : sqlSlowlinks ∉ primaryTexts := by decide

theorem sipCalls_not_primary : sqlSipCalls ∉ primaryTexts := by decide

theorem sessions_primary : sqlSessions ∈ primaryTexts := by decide

theorem handles_primary : sqlHandles ∈ primaryTexts := by decide

theorem sdps_primary : sqlSdps ∈ primaryTexts := by decide

theorem plugins_primary : sqlPlugins ∈ primaryTexts := by decide

theorem transports_primary : sqlTransports ∈ primaryTexts := by decide

theorem core_primary : sqlCore ∈ primaryTexts := by decide

theorem pluginQuery_isPrimary (frac : ℚ → String) (isPlugin : Bool) (json : Json)
    (ts : JsDate) : isPrimary (pluginQuery frac isPlugin json ts) = true := by
  cases isPlugin <;> simp [pluginQuery, isPrimary, plugins_primary, transports_primary]

theorem filter_primary_plugin (frac : ℚ → String) (isPlugin : Bool) (json data : Json)
    (ts : JsDate) (c₁ c₂ : Prop) [Decidable c₁] [Decidable c₂] :
    ([pluginQuery frac isPlugin json ts] ++
        (if c₁ then [slowlinkQuery frac json data ts] else []) ++
        (if c₂ then [sipCallQuery json data ts] else [])).filter isPrimary =
      [pluginQuery frac isPlugin json ts] := by
  have h1 := pluginQuery_isPrimary frac isPlugin json ts
  have h2 : isPrimary (sipCallQuery json data ts) = false := by
    simp [sipCallQuery, isPrimary, sipCalls_not_primary]
  have h3 : isPrimary (slowlinkQuery frac json data ts) = false := by
    simp [slowlinkQuery, isPrimary, slowlinks_not_primary]
  by_cases hc₁ : c₁ <;> by_cases hc₂ : c₂ <;> simp [hc₁, hc₂, List.filter, h1, h2, h3]

theorem filter_primary_core (frac : ℚ → String) (json payload : Json) (ts : JsDate)
    (c : Prop) [Decidable c] :
    ((if c then [slowlinkQuery frac json payload ts] else []) ++
        coreInserts frac json ts).filter isPrimary = coreInserts frac json ts := by
  have h2 : (coreInserts frac json ts).filter isPrimary = coreInserts frac json ts := by
    rw [List.filter_eq_self]
    intro q hq
    simp [isPrimary, coreInserts_text frac json ts q hq, core_primary]
  have h3 : isPrimary (slowlinkQuery frac json payload ts) = false := by
    simp [slowlinkQuery, isPrimary, slowlinks_not_primary]
  rw [List.filter_append, h2]
  by_cases hc : c <;> simp [hc, List.filter, h3]

set_option maxRecDepth 8000 in
/-- C15 (counterexample): a type-256 event whose `signum` is an object with an own key
`toString`, run against a sink that accepts every write: the template literal throws before
the core insert, and the event gets no primary insert at all. -/
theorem core_insert_missing :
    (∀ q st, ((recordingWorld plainHost noon).query q st).1 = none) ∧
    coreUnprintable.get "type" = some (.num 256) ∧
    (handleEvent (recordingWorld plainHost noon) coreUnprintable []).writes.filter
      isPrimary = [] :=
  ⟨fun _ _ => rfl, by decide, by decide⟩

/-- C15 (amended): for every event whose type is 1, 2, 8, 64, 128 or 256, run against a sink
that accepts every write, the writes into primary relations are exactly one, into sessions,
handles, sdps, plugins, transports or core respectively, except for a type-256 event whose
`signum` is truthy while the status or the signal number has no conversion to text, which
gets none; the twelve primary statements are pairwise different. -/
theorem one_primary_insert {σ : Type} (w : World σ) (json : Json) (s : σ) (t : ℚ)
    (hacc : ∀ q st, (w.query q st).1 = none)
    (ht : json.get "type" = some (.num t)) (hmem : t ∈ [(1 : ℚ), 2, 8, 64, 128, 256]) :
    ((handleEvent w json s).writes.filter isPrimary).map Query.text =
      (if t = 256 ∧ truthy ((eventOrEmpty json).get "signum") = true ∧
          (convertsToText (orNull ((eventOrEmpty json).get "status")) &&
            convertsToText (orNull ((eventOrEmpty json).get "signum"))) = false
        then [] else [primaryTextOf t]) ∧
    primaryTexts.Nodup := by
  refine ⟨?_, by decide⟩
  simp only [List.mem_cons, List.mem_singleton, List.not_mem_nil, or_false] at hmem
  rcases hmem with rfl | rfl | rfl | rfl | rfl | rfl
  · rw [handleEvent_writes_of_type w json s ht, dispatch_session w json _ _ ht,
      if_neg (fun h => absurd h.1 (by norm_num))]
    simp [caseSession, List.filter, isPrimary, sessions_primary, primaryTextOf]
  · rw [handleEvent_writes_of_type w json s ht, dispatch_handle w json _ _ ht,
      if_neg (fun h => absurd h.1 (by norm_num))]
    simp [caseHandle, List.filter, isPrimary, handles_primary, primaryTextOf]
  · rw [handleEvent_writes_of_type w json s ht, dispatch_jsep w json _ _ ht,
      if_neg (fun h => absurd h.1 (by norm_num))]
    simp [caseJsep, List.filter, isPrimary, sdps_primary, primaryTextOf]
  · rw [handleEvent_plugin_writes_of_accepted w json s true ht (hacc _ _),
      filter_primary_plugin, if_neg (fun h => absurd h.1 (by norm_num))]
    simp [pluginQuery, primaryTextOf]
  · rw [handleEvent_plugin_writes_of_accepted w json s false ht (hacc _ _),
      filter_primary_plugin, if_neg (fun h => absurd h.1 (by norm_num))]
    simp [pluginQuery, primaryTextOf]
  · rw [handleEvent_core_writes w json s ht, filter_primary_core]
    have h2 := coreValue_isSome w.host.fractionToString json
    unfold coreInserts
    cases hv : coreValue w.host.fractionToString json with
    | none =>
      rw [hv] at h2
      have h3 : truthy ((eventOrEmpty json).get "signum") = true ∧
          (convertsToText (orNull ((eventOrEmpty json).get "status")) &&
            convertsToText (orNull ((eventOrEmpty json).get "signum"))) = false := by
        revert h2
        cases truthy ((eventOrEmpty json).get "signum") <;>
          cases (convertsToText (orNull ((eventOrEmpty json).get "status")) &&
            convertsToText (orNull ((eventOrEmpty json).get "signum"))) <;> simp
      rw [if_pos ⟨rfl, h3⟩]
      rfl
    | some v =>
      rw [hv] at h2
      have h3 : ¬ ((256 : ℚ) = 256 ∧ truthy ((eventOrEmpty json).get "signum") = true ∧
          (convertsToText (orNull ((eventOrEmpty json).get "status")) &&
            convertsToText (orNull ((eventOrEmpty json).get "signum"))) = false) := by
        revert h2
        cases truthy ((eventOrEmpty json).get "signum") <;>
          cases (convertsToText (orNull ((eventOrEmpty json).get "status")) &&
            convertsToText (orNull ((eventOrEmpty json).get "signum"))) <;> simp
      rw [if_neg h3]
      simp [coreQuery, primaryTextOf]

set_option maxRecDepth 8000 in
/-- C15 (witness): a SIP plugin event with a slowlink key and a call identifier makes three
writes against an accepting sink, one of them primary, into plugins. -/
theorem one_primary_insert_witness :
    ((handleEvent (recordingWorld plainHost noon) sipSlowlink []).writes.filter
        isPrimary).map Query.text = [sqlPlugins] :=
  (one_primary_insert (recordingWorld plainHost noon) sipSlowlink [] 64 (fun _ _ => rfl)
    (by decide) (by decide)).1.trans (by decide)

/-- C16: an event whose `type` is none of the numbers 1, 2, 8, 16, 32, 64, 128, 256, be it
another number, a string such as `1`, any other value or missing, writes nothing and raises
nothing. -/
theorem unknown_type_writes_nothing {σ : Type} (w : World σ) (fields : List (String × Json))
    (s : σ)
    (h : ∀ t ∈ [(1 : ℚ), 2, 8, 16, 32, 64, 128, 256],
      (Json.obj fields).get "type" ≠ some (.num t)) :
    (handleEvent w (.obj fields) s).writes = [] ∧
    (handleEvent w (.obj fields) s).threw = none := by
  refine ⟨?_, handleEvent_threw w _ s⟩
  rw [handleEvent_obj]
  simp only [handleObject, tryCatch_writes, dispatch_default w _ _ _ h, skip_writes]

/-- C16 (witness): an event whose `type` is the string `1` writes nothing. -/
theorem unknown_type_writes_nothing_witness :
    (handleEvent (recordingWorld plainHost noon) typeAsString []).writes = [] ∧
    (handleEvent (recordingWorld plainHost noon) typeAsString []).threw = none :=
  unknown_type_writes_nothing (recordingWorld plainHost noon)
    [("type", .str "1"), ("session_id", .num 11), ("event", .obj [("name", .str "created")])]
    [] (by decide)

theorem intercalate_go_append (x y sep : String) (l : List String) :
    String.intercalate.go (x ++ y) sep l = x ++ String.intercalate.go y sep l := by
  induction l generalizing y with
  | nil => rfl
  | cons c l ih =>
    simp only [String.intercalate.go]
    rw [String.append_assoc, String.append_assoc, ih, ← String.append_assoc]

theorem intercalate_cons_cons (sep a b : String) (rest : List String) :
    sep.intercalate (a :: b :: rest) = a ++ sep ++ sep.intercalate (b :: rest) := by
  simp only [String.intercalate, String.intercalate.go]
  rw [String.append_assoc, intercalate_go_append, intercalate_go_append,
    String.append_assoc]

theorem stringifyItems_eq (frac : ℚ → String) (items : List Json) :
    stringifyItems frac items = ",".intercalate (items.map (jsonStringify frac)) := by
  induction items with
  | nil => rfl
  | cons x rest ih =>
    cases rest with
    | nil => simp [stringifyItems, String.intercalate, String.intercalate.go]
    | cons y rest =>
      simp only [List.map_cons] at ih ⊢
      rw [intercalate_cons_cons, ← ih]
      simp [stringifyItems]

theorem stringifyFields_eq (frac : ℚ → String) (fields : List (String × Json)) :
    stringifyFields frac fields =
      ",".intercalate
        (fields.map fun kv => quoteJson kv.1 ++ ":" ++ jsonStringify frac kv.2) := by
  induction fields with
  | nil => rfl
  | cons x rest ih =>
    obtain ⟨k, v⟩ := x
    cases rest with
    | nil => simp [stringifyFields, String.intercalate, String.intercalate.go]
    | cons y rest =>
      simp only [List.map_cons] at ih ⊢
      rw [intercalate_cons_cons, ← ih]
      simp [stringifyFields]

set_option maxRecDepth 8000 in
/-- C17: the first write of every type-64 or type-128 event is its insert into plugins or
transports, binding the event's plugin identifier (null when absent) and, as text, the JSON
serialisation of `event.data`; when `event.data` is missing or null that text is `null`,
which is not the empty string. The serialisation is that of `JSON.stringify`: `null`, `true`
and `false` for the literals, the number as printed, `null` for an infinite number, the
quoted string, the serialised elements between brackets and the quoted keys with their
serialised values between braces, each separated by commas; so the payload
`{"slowlink":"uplink","call_id":"Y"}` is stored as exactly that text. -/
theorem plugin_record {σ : Type} (w : World σ) (json : Json) (s : σ) (isPlugin : Bool)
    (h : json.get "type" = some (.num (if isPlugin then 64 else 128))) :
    (handleEvent w json s).writes.head? =
      some ⟨if isPlugin then sqlPlugins else sqlTransports,
        [.json (orNull (json.get "session_id")), .json (orNull (json.get "handle_id")),
          .json (orNull (optGet (json.get "event") "plugin")),
          .json (.str (jsonStringify w.host.fractionToString
            (orNull (optGet (json.get "event") "data")))),
          .date (eventStamp w json s)]⟩ ∧
    (isNullish (optGet (json.get "event") "data") = true →
      jsonStringify w.host.fractionToString (orNull (optGet (json.get "event") "data")) =
        "null") ∧
    "null" ≠ "" ∧
    jsonStringify w.host.fractionToString .null = "null" ∧
    jsonStringify w.host.fractionToString (.bool true) = "true" ∧
    jsonStringify w.host.fractionToString (.bool false) = "false" ∧
    (∀ q, jsonStringify w.host.fractionToString (.num q) =
      numberToString w.host.fractionToString q) ∧
    (∀ n, jsonStringify w.host.fractionToString (.infinite n) = "null") ∧
    (∀ t, jsonStringify w.host.fractionToString (.str t) = quoteJson t) ∧
    (∀ items, jsonStringify w.host.fractionToString (.arr items) =
      "[" ++ ",".intercalate (items.map (jsonStringify w.host.fractionToString)) ++ "]") ∧
    (∀ fields, jsonStringify w.host.fractionToString (.obj fields) =
      "\x7b" ++ ",".intercalate (fields.map fun kv =>
        quoteJson kv.1 ++ ":" ++ jsonStringify w.host.fractionToString kv.2) ++ "\x7d") ∧
    jsonStringify w.host.fractionToString
        (.obj [("slowlink", .str "uplink"), ("call_id", .str "Y")]) =
      "\x7b\"slowlink\":\"uplink\",\"call_id\":\"Y\"\x7d" := by
  refine ⟨?_, fun hn => ?_, by decide, rfl, rfl, rfl, fun _ => rfl, fun _ => rfl,
    fun _ => rfl, fun items => ?_, fun fields => ?_, ?_⟩
  · rw [handleEvent_plugin_writes w json s isPlugin h, casePlugin_primary]; rfl
  · cases hd : optGet (json.get "event") "data" with
    | none => simp [orNull, jsonStringify]
    | some v => cases v <;> simp [hd, isNullish, orNull, jsonStringify] at hn ⊢
  · simp only [jsonStringify, stringifyItems_eq]
  · simp only [jsonStringify, stringifyFields_eq]
  · simp only [jsonStringify, stringifyFields]
    decide

set_option maxRecDepth 8000 in
/-- C17 (witness): a plugin event with a nested payload is stored with the serialisation of
that payload, and a transport event without `data` with the text `null`. -/
theorem plugin_record_witness :
    (handleEvent (recordingWorld plainHost noon) sipSlowlink []).writes.head? =
      some ⟨sqlPlugins,
        [.json (.num 5), .json (.num 6), .json (.str "janus.plugin.sip"),
          .json (.str "\x7b\"slowlink\":\"uplink\",\"call_id\":\"Y\"\x7d"),
          .date noon]⟩ ∧
    (handleEvent (recordingWorld plainHost noon) transportNoData []).writes.head? =
      some ⟨sqlTransports,
        [.json (.num 5), .json .null, .json (.str "janus.transport.http"),
          .json (.str "null"), .date noon]⟩ :=
  ⟨(plugin_record (recordingWorld plainHost noon) sipSlowlink [] true
      (by decide)).1.trans (by decide),
    (plugin_record (recordingWorld plainHost noon) transportNoData [] false
      (by decide)).1.trans (by decide)⟩

/-- C18: every type-8 event writes one sdps record whose `remote` is the boolean
`event.owner === "remote"`, whose `offer` is the boolean `event.jsep.type === "offer"`
(both false when the field is absent) and whose `sdp` is `event.jsep.sdp`, or null. -/
theorem jsep_record {σ : Type} (w : World σ) (json : Json) (s : σ)
    (h8 : json.get "type" = some (.num 8)) :
    (handleEvent w json s).writes =
      [⟨sqlSdps,
        [.json (orNull (json.get "session_id")), .json (orNull (json.get "handle_id")),
          .json (.bool (decide (optGet (json.get "event") "owner" = some (.str "remote")))),
          .json (.bool (decide
            (optGet (optGet (json.get "event") "jsep") "type" = some (.str "offer")))),
          .json (orNull (optGet (optGet (json.get "event") "jsep") "sdp")),
          .date (eventStamp w json s)]⟩] ∧
    decide ((none : Option Json) = some (.str "remote")) = false ∧
    decide ((none : Option Json) = some (.str "offer")) = false := by
  refine ⟨?_, by decide, by decide⟩
  rw [handleEvent_writes_of_type w json s h8, dispatch_jsep w json _ _ h8]
  rfl

/-- C18 (witness): a remote offer is stored with `remote` and `offer` true, an event
without `owner` and `jsep` with both false and a null `sdp`. -/
theorem jsep_record_witness :
    (handleEvent (recordingWorld plainHost noon) jsepRemoteOffer []).writes =
      [⟨sqlSdps,
        [.json (.num 5), .json (.num 6), .json (.bool true), .json (.bool true),
          .json (.str "v=0"), .date noon]⟩] ∧
    (handleEvent (recordingWorld plainHost noon) jsepBare []).writes =
      [⟨sqlSdps,
        [.json (.num 5), .json (.num 6), .json (.bool false), .json (.bool false),
          .json .null, .date noon]⟩] :=
  ⟨(jsep_record (recordingWorld plainHost noon) jsepRemoteOffer [] (by decide)).1.trans
      (by decide),
    (jsep_record (recordingWorld plainHost noon) jsepBare [] (by decide)).1.trans
      (by decide)⟩

/-! ## Claims on `toDate` for texts and for values without a reading -/

/-- C19: for every textual timestamp, `toDate` is the instant of the calendar/ISO parse when
`Date.parse` succeeds; otherwise, when `Number(..)` reads the text as a number, it is
`toDate` of that number; otherwise it is the current instant. -/
theorem toDate_text {σ : Type} (w : World σ) (str : String) (s : σ) :
    (∀ iso : ℚ, w.host.dateParse str = .finite iso →
      toDate w (.string str) s = (newDate iso, s)) ∧
    (w.host.dateParse str = .nan → w.host.stringToNumber str ≠ .nan →
      toDate w (.string str) s = toDate w (.number (w.host.stringToNumber str)) s) ∧
    (w.host.dateParse str = .nan → w.host.stringToNumber str = .nan →
      toDate w (.string str) s = w.now s) := by
  refine ⟨fun iso h => ?_, fun h hn => ?_, fun h hn => ?_⟩
  · simp only [toDate, h]
  · cases hv : w.host.stringToNumber str with
    | nan => exact absurd hv hn
    | finite q => simp only [toDate, h, hv]
    | posInf => simp only [toDate, h, hv]
    | negInf => simp only [toDate, h, hv]
  · simp only [toDate, h, hn]

/-- C19 (witness): with a host that parses one ISO text and reads one numeric text, the ISO
text gives the parsed instant, the numeric text gives `toDate` of its number (read as
seconds), and any other text gives the current instant. -/
theorem toDate_text_witness :
    toDate (recordingWorld isoHost noon) (.string "2024-08-30T06:40:00.000Z") [] =
      (newDate 1725000000000, []) ∧
    toDate (recordingWorld isoHost noon) (.string "1725000000") [] =
      toDate (recordingWorld isoHost noon)
        (.number ((recordingWorld isoHost noon).host.stringToNumber "1725000000")) [] ∧
    toDate (recordingWorld isoHost noon) (.string "yesterday") [] =
      (recordingWorld isoHost noon).now [] :=
  ⟨(toDate_text (recordingWorld isoHost noon) "2024-08-30T06:40:00.000Z" []).1 1725000000000
      (by decide),
    (toDate_text (recordingWorld isoHost noon) "1725000000" []).2.1 (by decide) (by decide),
    (toDate_text (recordingWorld isoHost noon) "yesterday" []).2.2 (by decide) (by decide)⟩

theorem natToJsString_1e22 : natToJsString (10 ^ 22) = "1e+22" := by decide

theorem mathAbs_trunc_1e22 : mathAbs (mathTrunc (10 ^ 22)) = 10 ^ 22 := by
  have := mathTrunc_natCast (10 ^ 22)
  simp only [Nat.cast_pow, Nat.cast_ofNat] at this
  rw [this]; rfl

/-- The product `1e22 * 1e3`, rounded to binary64, is beyond the range of time values. -/
theorem newDateOf_1e25 : newDateOf (toBinary64 (10 ^ 22 * 10 ^ 3)) = ⟨none⟩ := by
  have hhi : |(10 : ℚ) ^ 22 * 10 ^ 3| < 2 ^ ((83 : ℤ) + 1) := by norm_num [abs_of_pos]
  have hlo : 8640000000000000 + (2 : ℚ) ^ ((83 : ℤ) - 53) < |(10 : ℚ) ^ 22 * 10 ^ 3| := by
    norm_num [abs_of_pos]
  exact newDateOf_toBinary64_none (by norm_num) hhi hlo

theorem isBinary64_1e22 : isBinary64 (10 ^ 22) := by
  have := isBinary64_of_significand 2384185791015625 22 (by norm_num) (by norm_num)
    (by norm_num)
  norm_num at this
  norm_num
  exact this

/-- The Number branch of `toDate` returns `new Date` of a Number, or the clock reading. -/
theorem toDateNumber_cases {σ : Type} (w : World σ) (n : JsNumber) (s : σ) :
    toDateNumber w n s = w.now s ∨ ∃ x : JsNumber, toDateNumber w n s = (newDateOf x, s) := by
  cases n with
  | finite ts =>
    right
    simp only [toDateNumber]
    split_ifs
    · exact ⟨_, rfl⟩
    · exact ⟨_, rfl⟩
    · exact ⟨.finite ts, rfl⟩
    · exact ⟨_, rfl⟩
    · exact ⟨_, rfl⟩
  | nan => exact Or.inl rfl
  | posInf => exact Or.inl rfl
  | negInf => exact Or.inl rfl

/-- C20 (counterexample): the Number `1e22` is finite, yet `toDate(1e22)` is an Invalid
Date, not an instant; and no unit reading would give one: already the nanosecond reading
`1e22 / 1e6` lies beyond the range of time values. -/
theorem toDate_invalid_date :
    isBinary64 (10 ^ 22) ∧
    toDate (recordingWorld plainHost noon) (.number (.finite (10 ^ 22))) [] = (⟨none⟩, []) ∧
    newDate (10 ^ 22 / 10 ^ 6) = ⟨none⟩ := by
  have hl : (natToJsString (10 ^ 22)).length = 5 := by rw [natToJsString_1e22]; decide
  have hd : ¬ 5 ≥ 19 ∧ ¬ 5 ≥ 16 ∧ ¬ 5 ≥ 13 ∧ ¬ 5 ≥ 10 := by decide
  refine ⟨isBinary64_1e22, ?_, ?_⟩
  · show toDateNumber (recordingWorld plainHost noon) (.finite (10 ^ 22)) [] = _
    simp only [toDateNumber, mathAbs_trunc_1e22, hl, hd.1, hd.2.1, hd.2.2.1, hd.2.2.2,
      if_false, newDateOf_1e25]
  · simp only [newDate, timeClip]
    norm_num [abs_of_nonneg]

/-- C20 (amended): for every input value `toDate` returns a `Date`, which is the clock
reading, the input `Date` itself, or `new Date` of a Number; for an absent or null value it
is the clock reading, for a `Date` it is that same `Date`, and for a value without a reading
(a NaN or infinite number, a boolean, an array, an object) it is the clock reading; for a
finite number whose truncated absolute value is below `10 ^ 21` the `Date` is a valid
instant. -/
theorem toDate_total {σ : Type} (w : World σ) (v : JsValue) (s : σ) (d : JsDate) (b n : Bool)
    (items : List Json) (fields : List (String × Json)) :
    (toDate w v s = w.now s ∨ (∃ d, v = .date d ∧ toDate w v s = (d, s)) ∨
      ∃ x : JsNumber, toDate w v s = (newDateOf x, s)) ∧
    toDate w .undefined s = w.now s ∧
    toDate w .null s = w.now s ∧
    toDate w (toJsValue none) s = w.now s ∧
    toDate w (toJsValue (some .null)) s = w.now s ∧
    toDate w (.date d) s = (d, s) ∧
    toDate w (.number .nan) s = w.now s ∧
    toDate w (.number .posInf) s = w.now s ∧
    toDate w (.number .negInf) s = w.now s ∧
    toDate w (toJsValue (some (.infinite n))) s = w.now s ∧
    toDate w (toJsValue (some (.bool b))) s = w.now s ∧
    toDate w (toJsValue (some (.arr items))) s = w.now s ∧
    toDate w (toJsValue (some (.obj fields))) s = w.now s ∧
    (∀ q : ℚ, v = .number (.finite q) → mathAbs (mathTrunc q) < 10 ^ 21 →
      ∃ t : Int, toDate w v s = (⟨some t⟩, s)) := by
  refine ⟨?_, rfl, rfl, rfl, rfl, rfl, rfl, rfl, rfl, ?_, rfl, rfl, rfl, ?_⟩
  · cases v with
    | undefined => exact Or.inl rfl
    | null => exact Or.inl rfl
    | date d => exact Or.inr (Or.inl ⟨d, rfl, rfl⟩)
    | other => exact Or.inl rfl
    | number x =>
      rcases toDateNumber_cases w x s with h | ⟨y, h⟩
      · exact Or.inl h
      · exact Or.inr (Or.inr ⟨y, h⟩)
    | string str =>
      simp only [toDate]
      cases hp : w.host.dateParse str with
      | finite iso => exact Or.inr (Or.inr ⟨.finite iso, rfl⟩)
      | posInf => exact Or.inr (Or.inr ⟨.posInf, rfl⟩)
      | negInf => exact Or.inr (Or.inr ⟨.negInf, rfl⟩)
      | nan =>
        cases hn : w.host.stringToNumber str with
        | nan => exact Or.inl rfl
        | finite q =>
          rcases toDateNumber_cases w (.finite q) s with h | ⟨y, h⟩
          · exact Or.inl h
          · exact Or.inr (Or.inr ⟨y, h⟩)
        | posInf => exact Or.inl rfl
        | negInf => exact Or.inl rfl
  · cases n <;> rfl
  · intro q hv hq
    subst hv
    obtain ⟨ms, ht, hvalid⟩ := toDate_number_valid w q s hq
    refine ⟨mathTrunc ms, ?_⟩
    rw [ht]
    simp only [newDate, timeClip, if_pos hvalid]

/-- C20 (witness): the seconds timestamp 1725000000 gives a valid instant. -/
theorem toDate_total_witness :
    ∃ t : Int, toDate (recordingWorld plainHost noon) (.number (.finite 1725000000)) [] =
      (⟨some t⟩, []) :=
  (toDate_total (recordingWorld plainHost noon) (.number (.finite 1725000000)) [] noon true
    true [] []).2.2.2.2.2.2.2.2.2.2.2.2.2 1725000000 rfl (by decide)

/-! ## Claims on the fields resolved by the SIP correlator -/

theorem orNull_orElse_null (x : Option Json) : orNull (orElse x (some .null)) = orNull x := by
  cases x with
  | none => rfl
  | some v => cases v <;> rfl

set_option maxRecDepth 8000 in
/-- C21 (counterexample): for a payload whose free-form `direction` is `sideways`, the
direction bound by the upsert is `sideways`, which is neither `in`, `out` nor null. -/
theorem sip_direction_free_form :
    sipDirection (some sipSideways) = .str "sideways" ∧
    (saveSipCallMap (recordingWorld plainHost noon) (some (.num 1)) (some (.num 10))
        (some sipSideways) noon []).writes =
      [⟨sqlSipCalls,
        [.json (.num 1), .json (.num 10), .json (.str "Z"), .json .null, .json .null,
          .json (.str "sideways"), .date noon]⟩] := by
  decide

/-- C21 (amended): the direction `saveSipCallMap` resolves is `in` when `data.incoming` is
the boolean true, else `out` when `data.outgoing` is the boolean true, else the value of
the payload's `direction` field as it stands (null when that field is absent or null); this
is the value its upsert binds as sixth parameter; so the direction is one of `in`, `out` and
null whenever that field is itself one of them or absent, and whenever a flag is set. -/
theorem sip_direction_values {σ : Type} (w : World σ) (sessionId handleId data : Option Json)
    (ts : JsDate) (s : σ) :
    sipDirection data =
      (if optGet data "incoming" = some (.bool true) then .str "in"
        else if optGet data "outgoing" = some (.bool true) then .str "out"
        else orNull (optGet data "direction")) ∧
    (truthy (some (sipCallId data)) = true →
      (saveSipCallMap w sessionId handleId data ts s).writes =
        [⟨sqlSipCalls,
          [.json (orNull sessionId), .json (orNull handleId), .json (sipCallId data),
            .json (sipFromUri data), .json (sipToUri data),
            .json (if optGet data "incoming" = some (.bool true) then .str "in"
              else if optGet data "outgoing" = some (.bool true) then .str "out"
              else orNull (optGet data "direction")),
            .date ts]⟩]) ∧
    (optGet data "incoming" = some (.bool true) ∨ optGet data "outgoing" = some (.bool true) ∨
        orNull (optGet data "direction") ∈ [Json.str "in", .str "out", .null] →
      sipDirection data ∈ [Json.str "in", .str "out", .null]) := by
  have h : sipDirection data =
      (if optGet data "incoming" = some (.bool true) then .str "in"
        else if optGet data "outgoing" = some (.bool true) then .str "out"
        else orNull (optGet data "direction")) := by
    unfold sipDirection
    split_ifs
    · rfl
    · rfl
    · exact orNull_orElse_null _
  refine ⟨h, fun hid => ?_, fun hd => ?_⟩
  · rw [← h]
    unfold saveSipCallMap
    rw [if_pos hid]
    rfl
  · rw [h]
    split_ifs with h1 h2
    · simp
    · simp
    · rcases hd with hd | hd | hd
      · exact absurd hd h1
      · exact absurd hd h2
      · exact hd

set_option maxRecDepth 8000 in
/-- C21 (witness): a payload with the `outgoing` flag and a free-form `direction` is
upserted with the direction `out`. -/
theorem sip_direction_values_witness :
    (saveSipCallMap (recordingWorld plainHost noon) (some (.num 1)) (some (.num 10))
        (some sipOutgoing) noon []).writes =
      [⟨sqlSipCalls,
        [.json (.num 1), .json (.num 10), .json (.str "Z"), .json .null, .json .null,
          .json (.str "out"), .date noon]⟩] ∧
    sipDirection (some sipOutgoing) ∈ [Json.str "in", .str "out", .null] :=
  ⟨((sip_direction_values (recordingWorld plainHost noon) (some (.num 1)) (some (.num 10))
      (some sipOutgoing) noon []).2.1 (by decide)).trans (by decide),
    (sip_direction_values (recordingWorld plainHost noon) (some (.num 1)) (some (.num 10))
      (some sipOutgoing) noon []).2.2 (Or.inr (Or.inl (by decide)))⟩

/-- C22: `saveSipCallMap` resolves the direction to `in` when `data.incoming` is the boolean
true, else to `out` when `data.outgoing` is the boolean true, else to the first present of
`data.direction` (null when there is none); `from_uri` to the first present of `data.from`,
`data.from_uri`, `data.caller`, and `to_uri` to the first present of `data.to`,
`data.to_uri`, `data.callee`; and these are the values its upsert binds. -/
theorem sip_fields_resolved {σ : Type} (w : World σ) (sessionId handleId data : Option Json)
    (ts : JsDate) (s : σ) :
    sipDirection data =
      (if optGet data "incoming" = some (.bool true) then .str "in"
        else if optGet data "outgoing" = some (.bool true) then .str "out"
        else firstPresent [optGet data "direction"]) ∧
    sipFromUri data =
      firstPresent [optGet data "from", optGet data "from_uri", optGet data "caller"] ∧
    sipToUri data =
      firstPresent [optGet data "to", optGet data "to_uri", optGet data "callee"] ∧
    (saveSipCallMap w sessionId handleId data ts s).writes.map
        (fun q => (q.values.drop 3).take 3) =
      (if truthy (some (sipCallId data)) then
        [[.json (firstPresent
            [optGet data "from", optGet data "from_uri", optGet data "caller"]),
          .json (firstPresent [optGet data "to", optGet data "to_uri", optGet data "callee"]),
          .json (if optGet data "incoming" = some (.bool true) then .str "in"
            else if optGet data "outgoing" = some (.bool true) then .str "out"
            else firstPresent [optGet data "direction"])]]
        else []) := by
  have hd : sipDirection data =
      (if optGet data "incoming" = some (.bool true) then .str "in"
        else if optGet data "outgoing" = some (.bool true) then .str "out"
        else firstPresent [optGet data "direction"]) := by
    simp only [sipDirection, firstPresent, orElse]
    split_ifs <;> rfl
  have hf : sipFromUri data =
      firstPresent [optGet data "from", optGet data "from_uri", optGet data "caller"] := by
    simp only [sipFromUri, firstPresent, orElse]
    split_ifs <;> rfl
  have ht : sipToUri data =
      firstPresent [optGet data "to", optGet data "to_uri", optGet data "callee"] := by
    simp only [sipToUri, firstPresent, orElse]
    split_ifs <;> rfl
  refine ⟨hd, hf, ht, ?_⟩
  rw [← hd, ← hf, ← ht]
  unfold saveSipCallMap
  split_ifs <;> rfl

/-- C30 (statement on every payload): when the first value that is neither absent nor null
among `call_id`, `call-id`, `headers['Call-ID']`, `headers['call-id']` and `sip_call_id` is
falsy, `saveSipCallMap` makes no write, whatever the aliases after it hold, and raises
nothing. -/
theorem falsy_call_id_stops_probe {σ : Type} (w : World σ)
    (sessionId handleId data : Option Json) (ts : JsDate) (s : σ)
    (h : truthy (some (firstPresent [optGet data "call_id", optGet data "call-id",
      optGet (optGet data "headers") "Call-ID", optGet (optGet data "headers") "call-id",
      optGet data "sip_call_id"])) = false) :
    (saveSipCallMap w sessionId handleId data ts s).writes = [] ∧
    (saveSipCallMap w sessionId handleId data ts s).threw = none ∧
    (saveSipCallMap w sessionId handleId data ts s).state = s := by
  rw [← sipCallId_eq_firstPresent] at h
  unfold saveSipCallMap
  simp [h]

/-- C30 (witness): with `call_id` holding `0` and `sip_call_id` holding a usable identifier,
no upsert is made. -/
theorem falsy_call_id_stops_probe_witness :
    optGet (some zeroCallId) "sip_call_id" = some (.str "abc@host") ∧
    (saveSipCallMap (recordingWorld plainHost noon) (some (.num 1)) (some (.num 10))
        (some zeroCallId) noon []).writes = [] :=
  ⟨by decide,
    (falsy_call_id_stops_probe (recordingWorld plainHost noon) (some (.num 1))
      (some (.num 10)) (some zeroCallId) noon [] (by decide)).1⟩

/-! ## Claims on SIP correlation, write order, scalar payloads and nested batches -/

theorem pluginQuery_text_ne_sipCalls (frac : ℚ → String) (isPlugin : Bool) (json : Json)
    (ts : JsDate) : (pluginQuery frac isPlugin json ts).text ≠ sqlSipCalls := by
  cases isPlugin <;> simp only [pluginQuery] <;> decide

theorem slowlinks_ne_sipCalls : sqlSlowlinks ≠ sqlSipCalls := by decide

theorem filter_sipCalls_plugin (frac : ℚ → String) (isPlugin : Bool) (json data : Json)
    (ts : JsDate) (c₁ c₂ : Prop) [Decidable c₁] [Decidable c₂] :
    ([pluginQuery frac isPlugin json ts] ++
        (if c₁ then [slowlinkQuery frac json data ts] else []) ++
        (if c₂ then [sipCallQuery json data ts] else [])).filter
        (fun q => decide (q.text = sqlSipCalls)) =
      if c₂ then [sipCallQuery json data ts] else [] := by
  have h1 := pluginQuery_text_ne_sipCalls frac isPlugin json ts
  have h2 : (sipCallQuery json data ts).text = sqlSipCalls := rfl
  have h3 : (slowlinkQuery frac json data ts).text ≠ sqlSipCalls := slowlinks_ne_sipCalls
  by_cases hc₁ : c₁ <;> by_cases hc₂ : c₂ <;> simp [hc₁, hc₂, List.filter, h1, h2, h3]

/-- A payload that is not an object carries no call identifier. -/
theorem truthy_of_sipCallId {data : Json} (h : truthy (some (sipCallId (some data))) = true) :
    truthy (some data) = true := by
  cases data with
  | obj fields => rfl
  | arr items => rfl
  | null => exact absurd h (by decide)
  | infinite n => rfl
  | bool b =>
    simp [sipCallId, optGet, Json.get, orElse, isNullish, orNull, truthy] at h
  | num q =>
    simp [sipCallId, optGet, Json.get, orElse, isNullish, orNull, truthy] at h
  | str t =>
    simp [sipCallId, optGet, Json.get, orElse, isNullish, orNull, truthy] at h

/-- Without the SIP plugin identifier, a type-64 or type-128 event makes no `sip_calls`
write, whatever the sink answers. -/
theorem casePlugin_no_sipCalls {σ : Type} (w : World σ) (isPlugin : Bool) (json : Json)
    (ts : JsDate) (s : σ)
    (hp : orNull (optGet (json.get "event") "plugin") ≠ .str "janus.plugin.sip") :
    ∀ q ∈ (casePlugin w isPlugin json ts s).writes, q.text ≠ sqlSipCalls := by
  intro q hq
  cases hacc : (w.query (pluginQuery w.host.fractionToString isPlugin json ts) s).1 with
  | some e =>
    rw [casePlugin_writes_of_rejected w isPlugin json ts s e hacc] at hq
    rw [List.mem_singleton] at hq
    rw [hq]; exact pluginQuery_text_ne_sipCalls _ _ _ _
  | none =>
    rw [casePlugin_writes_of_accepted w isPlugin json ts s hacc] at hq
    simp only [hp, false_and, if_false, List.append_nil, List.mem_append,
      List.mem_singleton] at hq
    rcases hq with hq | hq
    · rw [hq]; exact pluginQuery_text_ne_sipCalls _ _ _ _
    · split_ifs at hq
      · rw [List.mem_singleton] at hq
        rw [hq]; exact slowlinks_ne_sipCalls
      · simp at hq

/-- The branches of the `switch` other than `case 64` and `case 128`, and these two without
the SIP plugin identifier, make no `sip_calls` write. -/
theorem dispatch_no_sipCalls {σ : Type} (w : World σ) (json : Json) (ts : JsDate) (s : σ)
    (h : ¬ ((json.get "type" = some (.num 64) ∨ json.get "type" = some (.num 128)) ∧
      orNull (optGet (json.get "event") "plugin") = .str "janus.plugin.sip")) :
    ∀ q ∈ (dispatch w json ts s).writes, q.text ≠ sqlSipCalls := by
  intro q hq
  by_cases h1 : json.get "type" = some (.num 1)
  · rw [dispatch_session w json ts s h1] at hq
    simp only [caseSession, runQuery_writes, List.mem_singleton] at hq
    rw [hq]; dsimp only; decide
  by_cases h2 : json.get "type" = some (.num 2)
  · rw [dispatch_handle w json ts s h2] at hq
    simp only [caseHandle, runQuery_writes, List.mem_singleton] at hq
    rw [hq]; dsimp only; decide
  by_cases h8 : json.get "type" = some (.num 8)
  · rw [dispatch_jsep w json ts s h8] at hq
    simp only [caseJsep, runQuery_writes, List.mem_singleton] at hq
    rw [hq]; dsimp only; decide
  by_cases h16 : json.get "type" = some (.num 16)
  · rw [dispatch_webrtc w json ts s h16, caseWebrtc_writes] at hq
    split_ifs at hq <;>
      simp only [List.mem_map, Option.mem_toList, Option.mem_def, List.not_mem_nil] at hq
    all_goals
      obtain ⟨t, -, rfl⟩ := hq
      dsimp only
      decide
  by_cases h32 : json.get "type" = some (.num 32)
  · rw [dispatch_media w json ts s h32, caseMedia_writes] at hq
    split_ifs at hq <;> simp only [List.mem_singleton, List.not_mem_nil] at hq <;>
      (rw [hq]; dsimp only; decide)
  by_cases h64 : json.get "type" = some (.num 64)
  · rw [dispatch_plugin w json ts s h64] at hq
    exact casePlugin_no_sipCalls w true json ts s (fun hp => h ⟨Or.inl h64, hp⟩) q hq
  by_cases h128 : json.get "type" = some (.num 128)
  · rw [dispatch_transport w json ts s h128] at hq
    exact casePlugin_no_sipCalls w false json ts s (fun hp => h ⟨Or.inr h128, hp⟩) q hq
  by_cases h256 : json.get "type" = some (.num 256)
  · rw [dispatch_core w json ts s h256, caseCore_writes_named] at hq
    simp only [List.mem_append, List.mem_singleton] at hq
    rcases hq with hq | hq
    · split_ifs at hq
      · rw [List.mem_singleton] at hq
        rw [hq]; exact slowlinks_ne_sipCalls
      · simp at hq
    · rw [coreInserts_text _ _ _ q hq]; decide
  · rw [dispatch_default w json ts s] at hq
    · simp at hq
    · intro t ht
      simp only [List.mem_cons, List.mem_singleton, List.not_mem_nil, or_false] at ht
      rcases ht with rfl | rfl | rfl | rfl | rfl | rfl | rfl | rfl <;> assumption

set_option maxRecDepth 8000 in
/-- C23 (counterexample): a type-64 event of the SIP plugin whose payload carries the call
identifier `X`, run against a sink that rejects the plugins insert: the plugins insert is
the only write attempted, no `sip_calls` upsert follows. -/
theorem sip_upsert_skipped_after_rejection :
    orNull (optGet (sipFirst.get "event") "plugin") = .str "janus.plugin.sip" ∧
    sipCallId (some (orNull (optGet (sipFirst.get "event") "data"))) = .str "X" ∧
    (handleEvent (rejectingWorld plainHost noon connectionLost) sipFirst ()).writes.map
        Query.text = [sqlPlugins] := by
  decide

/-- C23 (amended): for every type-64 or type-128 event whose primary insert the sink
accepts, the `sip_calls` writes attempted are exactly one, the upsert for the nested `data`
payload, when the plugin identifier is `janus.plugin.sip` and that payload carries a truthy
call identifier, and none otherwise; for every event object with another plugin identifier,
or of another type, no `sip_calls` write is attempted, whatever the sink answers. -/
theorem sip_correlation {σ : Type} (w : World σ) (json : Json) (s : σ) :
    (∀ isPlugin : Bool, json.get "type" = some (.num (if isPlugin then 64 else 128)) →
      (w.query (pluginQuery w.host.fractionToString isPlugin json (eventStamp w json s))
        (eventState w json s)).1 = none →
      (handleEvent w json s).writes.filter (fun q => decide (q.text = sqlSipCalls)) =
        if orNull (optGet (json.get "event") "plugin") = .str "janus.plugin.sip" ∧
            truthy (some (sipCallId (some (orNull (optGet (json.get "event") "data"))))) =
              true
        then
          [⟨sqlSipCalls,
            [.json (orNull (json.get "session_id")), .json (orNull (json.get "handle_id")),
              .json (sipCallId (some (orNull (optGet (json.get "event") "data")))),
              .json (sipFromUri (some (orNull (optGet (json.get "event") "data")))),
              .json (sipToUri (some (orNull (optGet (json.get "event") "data")))),
              .json (sipDirection (some (orNull (optGet (json.get "event") "data")))),
              .date (eventStamp w json s)]⟩]
        else []) ∧
    ((∀ items, json ≠ .arr items) →
      ¬ ((json.get "type" = some (.num 64) ∨ json.get "type" = some (.num 128)) ∧
        orNull (optGet (json.get "event") "plugin") = .str "janus.plugin.sip") →
      ∀ q ∈ (handleEvent w json s).writes, q.text ≠ sqlSipCalls) := by
  refine ⟨fun isPlugin h hacc => ?_, fun hna hno q hq => ?_⟩
  · rw [handleEvent_plugin_writes_of_accepted w json s isPlugin h hacc,
      filter_sipCalls_plugin]
    by_cases hc : orNull (optGet (json.get "event") "plugin") = .str "janus.plugin.sip" ∧
        truthy (some (sipCallId (some (orNull (optGet (json.get "event") "data"))))) = true
    · rw [if_pos hc, if_pos ⟨hc.1, truthy_of_sipCallId hc.2, hc.2⟩]; rfl
    · rw [if_neg hc, if_neg (fun h3 => hc ⟨h3.1, h3.2.2⟩)]
  · rw [handleEvent_of_not_arr w json s hna] at hq
    cases json with
    | obj fields =>
      simp only [handleObject, tryCatch_writes] at hq
      exact dispatch_no_sipCalls w _ _ _ hno q hq
    | arr items => exact absurd rfl (hna items)
    | null => simp [handleObject] at hq
    | bool b => simp [handleObject] at hq
    | num n => simp [handleObject] at hq
    | infinite n => simp [handleObject] at hq
    | str t => simp [handleObject] at hq

set_option maxRecDepth 8000 in
/-- C23 (witness): an accepted type-64 event of the SIP plugin carrying call `X` gets one
`sip_calls` upsert, and an event of the echo-test plugin carrying a call identifier gets
none. -/
theorem sip_correlation_witness :
    (handleEvent (recordingWorld plainHost noon) sipFirst []).writes.filter
        (fun q => decide (q.text = sqlSipCalls)) =
      [⟨sqlSipCalls,
        [.json (.num 1), .json (.num 10), .json (.str "X"),
          .json (.str "sip:alice@example.org"), .json (.str "sip:bob@example.org"),
          .json (.str "in"), .date noon]⟩] ∧
    ∀ q ∈ (handleEvent (recordingWorld plainHost noon) echoWithCallId []).writes,
      q.text ≠ sqlSipCalls :=
  ⟨((sip_correlation (recordingWorld plainHost noon) sipFirst []).1 true (by decide)
      (by decide)).trans (by decide),
    (sip_correlation (recordingWorld plainHost noon) echoWithCallId []).2
      (fun _ h => Json.noConfusion h) (by decide)⟩

/-- C29: for every event of type 64 or 128, when the sink rejects the primary insert into
plugins or transports, that insert is the only write attempted, so neither a slowlinks write
nor a `sip_calls` upsert is made, and nothing is raised; when the sink accepts it, the writes
are the primary insert, then the slowlinks write if it is due, then the `sip_calls` upsert
if it is due, in this order. -/
theorem plugin_write_order {σ : Type} (w : World σ) (json : Json) (s : σ) (isPlugin : Bool)
    (h : json.get "type" = some (.num (if isPlugin then 64 else 128))) :
    (∀ e, (w.query (pluginQuery w.host.fractionToString isPlugin json (eventStamp w json s))
        (eventState w json s)).1 = some e →
      (handleEvent w json s).writes =
        [pluginQuery w.host.fractionToString isPlugin json (eventStamp w json s)] ∧
      (∀ q ∈ (handleEvent w json s).writes,
        q.text ≠ sqlSlowlinks ∧ q.text ≠ sqlSipCalls) ∧
      (handleEvent w json s).threw = none) ∧
    ((w.query (pluginQuery w.host.fractionToString isPlugin json (eventStamp w json s))
        (eventState w json s)).1 = none →
      (handleEvent w json s).writes =
        [pluginQuery w.host.fractionToString isPlugin json (eventStamp w json s)] ++
        (if containsSlowlinkKey (orNull (optGet (json.get "event") "data")) then
          [slowlinkQuery w.host.fractionToString json
            (orNull (optGet (json.get "event") "data")) (eventStamp w json s)]
          else []) ++
        (if orNull (optGet (json.get "event") "plugin") = .str "janus.plugin.sip" ∧
            truthy (some (orNull (optGet (json.get "event") "data"))) = true ∧
            truthy (some (sipCallId (some (orNull (optGet (json.get "event") "data"))))) =
              true
          then [sipCallQuery json (orNull (optGet (json.get "event") "data"))
            (eventStamp w json s)]
          else [])) := by
  refine ⟨fun e he => ?_, handleEvent_plugin_writes_of_accepted w json s isPlugin h⟩
  have hw : (handleEvent w json s).writes =
      [pluginQuery w.host.fractionToString isPlugin json (eventStamp w json s)] := by
    rw [handleEvent_plugin_writes w json s isPlugin h]
    exact casePlugin_writes_of_rejected w isPlugin json _ _ e he
  refine ⟨hw, fun q hq => ?_, handleEvent_threw w json s⟩
  rw [hw, List.mem_singleton] at hq
  rw [hq]
  exact ⟨pluginQuery_text_ne_slowlinks _ _ _ _, pluginQuery_text_ne_sipCalls _ _ _ _⟩

set_option maxRecDepth 8000 in
/-- C29 (witness): a SIP plugin event with a slowlink key and a call identifier: rejected by
the sink, it has its plugins insert attempted and nothing else; accepted, it writes into
plugins, slowlinks and `sip_calls`, in this order. -/
theorem plugin_write_order_witness :
    (handleEvent (rejectingWorld plainHost noon connectionLost) sipSlowlink ()).writes.map
        Query.text = [sqlPlugins] ∧
    (handleEvent (recordingWorld plainHost noon) sipSlowlink []).writes.map Query.text =
      [sqlPlugins, sqlSlowlinks, sqlSipCalls] :=
  ⟨(congrArg (List.map Query.text)
      ((plugin_write_order (rejectingWorld plainHost noon connectionLost) sipSlowlink ()
        true (by decide)).1 connectionLost (by decide)).1).trans (by decide),
    (congrArg (List.map Query.text)
      ((plugin_write_order (recordingWorld plainHost noon) sipSlowlink [] true
        (by decide)).2 (by decide))).trans (by decide)⟩

/-- C26: for every payload that is neither an object nor an array, so for null, every
boolean, every number (finite or infinite) and every string, `handleEvent` makes no write,
raises nothing and leaves the sink as it was. -/
theorem scalar_payload_ignored {σ : Type} (w : World σ) (payload : Json) (s : σ)
    (hobj : ∀ fields, payload ≠ .obj fields) (harr : ∀ items, payload ≠ .arr items) :
    (payload = .null ∨ (∃ b, payload = .bool b) ∨ (∃ q, payload = .num q) ∨
      (∃ n, payload = .infinite n) ∨ ∃ t, payload = .str t) ∧
    (handleEvent w payload s).writes = [] ∧
    (handleEvent w payload s).threw = none ∧
    (handleEvent w payload s).state = s := by
  cases payload with
  | obj fields => exact absurd rfl (hobj fields)
  | arr items => exact absurd rfl (harr items)
  | null => exact ⟨Or.inl rfl, by simp [handleEvent, handleObject]⟩
  | bool b => exact ⟨Or.inr (Or.inl ⟨b, rfl⟩), by simp [handleEvent, handleObject]⟩
  | num q => exact ⟨Or.inr (Or.inr (Or.inl ⟨q, rfl⟩)), by simp [handleEvent, handleObject]⟩
  | infinite n =>
    exact ⟨Or.inr (Or.inr (Or.inr (Or.inl ⟨n, rfl⟩))), by simp [handleEvent, handleObject]⟩
  | str t =>
    exact ⟨Or.inr (Or.inr (Or.inr (Or.inr ⟨t, rfl⟩))), by simp [handleEvent, handleObject]⟩

/-- C26 (witness): the string payload `ping`, sent to a sink that would reject any write,
causes no write and no error. -/
theorem scalar_payload_ignored_witness :
    (handleEvent (rejectingWorld plainHost noon connectionLost) (.str "ping") ()).writes =
      [] ∧
    (handleEvent (rejectingWorld plainHost noon connectionLost) (.str "ping") ()).threw =
      none :=
  ⟨(scalar_payload_ignored (rejectingWorld plainHost noon connectionLost) (.str "ping") ()
      (by simp) (by simp)).2.1,
    (scalar_payload_ignored (rejectingWorld plainHost noon connectionLost) (.str "ping") ()
      (by simp) (by simp)).2.2.1⟩

/-- C28: a batch element that is itself a batch is processed in place: the writes of
`xs ++ ys` are those of `xs` followed by those of `ys`, run from the state `xs` left; a
nested batch `xs` standing anywhere in a batch gives the same writes and the same final
state as its elements standing there; and `[[a, b], c]` gives the same writes, in the same
order, as `[a, b, c]`. -/
theorem nested_batches_flatten {σ : Type} (w : World σ) (pre xs ys : List Json)
    (a b c : Json) (s : σ) :
    (handleEvent w (.arr (xs ++ ys)) s).writes =
      (handleEvent w (.arr xs) s).writes ++
        (handleEvent w (.arr ys) (handleEvent w (.arr xs) s).state).writes ∧
    (handleEvent w (.arr (pre ++ .arr xs :: ys)) s).writes =
      (handleEvent w (.arr (pre ++ xs ++ ys)) s).writes ∧
    (handleEvent w (.arr (pre ++ .arr xs :: ys)) s).state =
      (handleEvent w (.arr (pre ++ xs ++ ys)) s).state ∧
    (handleEvent w (.arr [.arr [a, b], c]) s).writes =
      (handleEvent w (.arr [a, b, c]) s).writes ∧
    (handleEvent (recordingWorld plainHost noon)
        (.arr [.arr [sessionCreated, handleAttached], coreStopped]) []).writes.map
        Query.text = [sqlSessions, sqlHandles, sqlCore] := by
  have hw : ∀ (items rest : List Json) (s0 : σ),
      (handleItems w (.arr items :: rest) s0).writes =
        (handleItems w (items ++ rest) s0).writes := by
    intro items rest s0
    rw [handleItems_cons_writes, handleEvent_arr, handleItems_append_writes]
  have hs : ∀ (items rest : List Json) (s0 : σ),
      (handleItems w (.arr items :: rest) s0).state =
        (handleItems w (items ++ rest) s0).state := by
    intro items rest s0
    rw [handleItems_cons_state, handleEvent_arr, handleItems_append_state]
  refine ⟨?_, ?_, ?_, ?_, by decide⟩
  · simp only [handleEvent_arr, handleItems_append_writes]
  · simp only [handleEvent_arr, List.append_assoc]
    rw [handleItems_append_writes, handleItems_append_writes w pre (xs ++ ys), hw]
  · simp only [handleEvent_arr, List.append_assoc]
    rw [handleItems_append_state, handleItems_append_state w pre (xs ++ ys), hs]
  · simp only [handleEvent_arr]
    exact hw [a, b] [c] s

/-! ## Claims on call-identifier uniqueness, determinism and the range of `toDate` -/

theorem findCall_eq_none_iff (store : List SipCallRecord) (id : Json) :
    findCall store id = none ↔ id ∉ callIds store := by
  simp only [findCall, callIds, List.find?_eq_none, List.mem_map, decide_eq_true_eq,
    not_exists, not_and]

theorem callIds_upsert (store : List SipCallRecord) (r : SipCallRecord) :
    callIds (upsertSipCall store r) =
      if r.call_id ∈ callIds store then callIds store else callIds store ++ [r.call_id] := by
  induction store with
  | nil => simp [upsertSipCall, callIds]
  | cons x rest ih =>
    simp only [callIds] at ih
    by_cases hx : x.call_id = r.call_id
    · simp [upsertSipCall, callIds, hx]
    · have hx' : ¬ r.call_id = x.call_id := fun e => hx e.symm
      simp only [upsertSipCall, callIds, hx, if_false, List.map_cons, ih, List.mem_cons, hx',
        false_or]
      split_ifs <;> simp

theorem nodup_upsert (store : List SipCallRecord) (r : SipCallRecord)
    (h : (callIds store).Nodup) : (callIds (upsertSipCall store r)).Nodup := by
  rw [callIds_upsert]
  split_ifs with hr
  · exact h
  · rw [List.nodup_append]
    refine ⟨h, List.nodup_singleton _, ?_⟩
    intro a ha hb
    rw [List.mem_singleton] at hb
    exact hr (hb ▸ ha)

theorem memoryWorld_query_nodup (host : Host) (clock : JsDate) (q : Query) (st : Store)
    (h : (callIds st.sipCalls).Nodup) :
    (callIds ((memoryWorld host clock).query q st).2.sipCalls).Nodup := by
  simp only [memoryWorld]
  split_ifs
  · split
    · exact nodup_upsert _ _ h
    · exact h
  · exact h

theorem ingestAll_preserves {σ : Type} (w : World σ) {P : σ → Prop}
    (hq : ∀ q s, P s → P (w.query q s).2) (hn : ∀ s, P s → P (w.now s).2)
    (payloads : List Json) (s : σ) (h : P s) : P (ingestAll w payloads s) := by
  induction payloads generalizing s with
  | nil => exact h
  | cons x rest ih => exact ih _ (handleEvent_preserves hq hn x s h)

theorem saveSipCallMap_memory_state (host : Host) (clock : JsDate)
    (sessionId handleId data : Option Json) (ts : JsDate) (st : Store)
    (hid : truthy (some (sipCallId data)) = true) :
    (saveSipCallMap (memoryWorld host clock) sessionId handleId data ts st).state.sipCalls =
      upsertSipCall st.sipCalls
        ⟨orNull sessionId, orNull handleId, sipCallId data, sipFromUri data, sipToUri data,
          sipDirection data, ts⟩ := by
  unfold saveSipCallMap
  rw [if_pos hid, tryCatch_state, runQuery_state, memoryWorld_query_sip]

set_option maxRecDepth 8000 in
/-- C24: a `sip_calls` store with at most one record per call identifier still has at most
one record per call identifier after any sequence of ingestions; the upsert of
`saveSipCallMap` for an identifier that is not stored adds exactly one record, under that
identifier, and for a stored identifier it adds none and leaves the stored identifiers as
they were. -/
theorem call_id_unique (host : Host) (clock : JsDate) (payloads : List Json) (st : Store)
    (h : (callIds st.sipCalls).Nodup) :
    (callIds (ingestAll (memoryWorld host clock) payloads st).sipCalls).Nodup ∧
    (∀ (sessionId handleId data : Option Json) (ts : JsDate),
      truthy (some (sipCallId data)) = true →
      findCall st.sipCalls (sipCallId data) = none →
      callIds (saveSipCallMap (memoryWorld host clock) sessionId handleId data ts
          st).state.sipCalls = callIds st.sipCalls ++ [sipCallId data] ∧
      (saveSipCallMap (memoryWorld host clock) sessionId handleId data ts
          st).state.sipCalls.length = st.sipCalls.length + 1) ∧
    (∀ (sessionId handleId data : Option Json) (ts : JsDate) (x : SipCallRecord),
      truthy (some (sipCallId data)) = true →
      findCall st.sipCalls (sipCallId data) = some x →
      callIds (saveSipCallMap (memoryWorld host clock) sessionId handleId data ts
          st).state.sipCalls = callIds st.sipCalls ∧
      (saveSipCallMap (memoryWorld host clock) sessionId handleId data ts
          st).state.sipCalls.length = st.sipCalls.length) := by
  have hlen : ∀ l : List SipCallRecord, l.length = (callIds l).length := fun l => by
    simp [callIds]
  refine ⟨?_, ?_, ?_⟩
  · exact ingestAll_preserves (memoryWorld host clock)
      (P := fun st => (callIds st.sipCalls).Nodup)
      (fun q s hs => memoryWorld_query_nodup host clock q s hs) (fun s hs => hs) payloads st h
  · intro sessionId handleId data ts hid hx
    have hc : callIds (saveSipCallMap (memoryWorld host clock) sessionId handleId data ts
        st).state.sipCalls = callIds st.sipCalls ++ [sipCallId data] := by
      rw [saveSipCallMap_memory_state host clock _ _ _ ts st hid, callIds_upsert,
        if_neg ((findCall_eq_none_iff _ _).1 hx)]
    refine ⟨hc, ?_⟩
    rw [hlen, hc, List.length_append, ← hlen]; rfl
  · intro sessionId handleId data ts x hid hx
    have hmem : sipCallId data ∈ callIds st.sipCalls := by
      by_contra hn
      rw [(findCall_eq_none_iff _ _).2 hn] at hx
      exact Option.noConfusion hx
    have hc : callIds (saveSipCallMap (memoryWorld host clock) sessionId handleId data ts
        st).state.sipCalls = callIds st.sipCalls := by
      rw [saveSipCallMap_memory_state host clock _ _ _ ts st hid, callIds_upsert]
      exact if_pos hmem
    refine ⟨hc, ?_⟩
    rw [hlen, hc, ← hlen]

set_option maxRecDepth 8000 in
/-- C24 (witness): after call `X` is ingested twice, under two sessions, and an event
without a call identifier in between, the store holds `X` once. -/
theorem call_id_unique_witness :
    (callIds (ingestAll (memoryWorld plainHost noon) [sipFirst, sessionCreated, sipSecond]
        emptyStore).sipCalls).Nodup ∧
    callIds (ingestAll (memoryWorld plainHost noon) [sipFirst, sessionCreated, sipSecond]
        emptyStore).sipCalls = [.str "X"] :=
  ⟨(call_id_unique plainHost noon [sipFirst, sessionCreated, sipSecond] emptyStore
      (by decide)).1, by decide⟩

/-- Against a sink that accepts every write, the writes of the `switch` depend on the event
and its timestamp only, not on the state of the sink. -/
theorem dispatch_writes_of_accepting {σ : Type} (w : World σ)
    (hacc : ∀ q st, (w.query q st).1 = none) (json : Json) (ts : JsDate) (s s' : σ) :
    (dispatch w json ts s).writes = (dispatch w json ts s').writes := by
  by_cases h1 : json.get "type" = some (.num 1)
  · rw [dispatch_session w json ts s h1, dispatch_session w json ts s' h1]; rfl
  by_cases h2 : json.get "type" = some (.num 2)
  · rw [dispatch_handle w json ts s h2, dispatch_handle w json ts s' h2]; rfl
  by_cases h8 : json.get "type" = some (.num 8)
  · rw [dispatch_jsep w json ts s h8, dispatch_jsep w json ts s' h8]; rfl
  by_cases h16 : json.get "type" = some (.num 16)
  · rw [dispatch_webrtc w json ts s h16, dispatch_webrtc w json ts s' h16,
      caseWebrtc_writes, caseWebrtc_writes]
  by_cases h32 : json.get "type" = some (.num 32)
  · rw [dispatch_media w json ts s h32, dispatch_media w json ts s' h32,
      caseMedia_writes, caseMedia_writes]
  by_cases h64 : json.get "type" = some (.num 64)
  · rw [dispatch_plugin w json ts s h64, dispatch_plugin w json ts s' h64,
      casePlugin_writes_of_accepted w true json ts s (hacc _ _),
      casePlugin_writes_of_accepted w true json ts s' (hacc _ _)]
  by_cases h128 : json.get "type" = some (.num 128)
  · rw [dispatch_transport w json ts s h128, dispatch_transport w json ts s' h128,
      casePlugin_writes_of_accepted w false json ts s (hacc _ _),
      casePlugin_writes_of_accepted w false json ts s' (hacc _ _)]
  by_cases h256 : json.get "type" = some (.num 256)
  · rw [dispatch_core w json ts s h256, dispatch_core w json ts s' h256,
      caseCore_writes_named, caseCore_writes_named]
  · have hd : ∀ t ∈ [(1 : ℚ), 2, 8, 16, 32, 64, 128, 256],
        json.get "type" ≠ some (.num t) := by
      intro t ht
      simp only [List.mem_cons, List.mem_singleton, List.not_mem_nil, or_false] at ht
      rcases ht with rfl | rfl | rfl | rfl | rfl | rfl | rfl | rfl <;> assumption
    rw [dispatch_default w json ts s hd, dispatch_default w json ts s' hd]; rfl

/-- Against a sink that accepts every write, the writes of the `switch` for two instants
and two states of the sink differ in their instants only. -/
theorem dispatch_writes_eraseStamp {σ : Type} (w : World σ)
    (hacc : ∀ q st, (w.query q st).1 = none) (json : Json) (ts ts' : JsDate) (s s' : σ) :
    (dispatch w json ts s).writes.map eraseStamp =
      (dispatch w json ts' s').writes.map eraseStamp := by
  by_cases h1 : json.get "type" = some (.num 1)
  · rw [dispatch_session w json ts s h1, dispatch_session w json ts' s' h1]; rfl
  by_cases h2 : json.get "type" = some (.num 2)
  · rw [dispatch_handle w json ts s h2, dispatch_handle w json ts' s' h2]; rfl
  by_cases h8 : json.get "type" = some (.num 8)
  · rw [dispatch_jsep w json ts s h8, dispatch_jsep w json ts' s' h8]; rfl
  by_cases h16 : json.get "type" = some (.num 16)
  · rw [dispatch_webrtc w json ts s h16, dispatch_webrtc w json ts' s' h16,
      caseWebrtc_writes, caseWebrtc_writes]
    split_ifs <;> simp only [List.map_map] <;> rfl
  by_cases h32 : json.get "type" = some (.num 32)
  · rw [dispatch_media w json ts s h32, dispatch_media w json ts' s' h32,
      caseMedia_writes, caseMedia_writes]
    split_ifs <;> rfl
  by_cases h64 : json.get "type" = some (.num 64)
  · rw [dispatch_plugin w json ts s h64, dispatch_plugin w json ts' s' h64,
      casePlugin_writes_of_accepted w true json ts s (hacc _ _),
      casePlugin_writes_of_accepted w true json ts' s' (hacc _ _)]
    split_ifs <;> rfl
  by_cases h128 : json.get "type" = some (.num 128)
  · rw [dispatch_transport w json ts s h128, dispatch_transport w json ts' s' h128,
      casePlugin_writes_of_accepted w false json ts s (hacc _ _),
      casePlugin_writes_of_accepted w false json ts' s' (hacc _ _)]
    split_ifs <;> rfl
  by_cases h256 : json.get "type" = some (.num 256)
  · rw [dispatch_core w json ts s h256, dispatch_core w json ts' s' h256,
      caseCore_writes_named, caseCore_writes_named]
    split_ifs <;> simp only [List.map_append, coreInserts, List.map_map] <;> rfl
  · have hd : ∀ t ∈ [(1 : ℚ), 2, 8, 16, 32, 64, 128, 256],
        json.get "type" ≠ some (.num t) := by
      intro t ht
      simp only [List.mem_cons, List.mem_singleton, List.not_mem_nil, or_false] at ht
      rcases ht with rfl | rfl | rfl | rfl | rfl | rfl | rfl | rfl <;> assumption
    rw [dispatch_default w json ts s hd, dispatch_default w json ts' s' hd]; rfl

/-- A numeric timestamp is normalised without a clock reading. -/
theorem eventStamp_of_number {σ : Type} (w : World σ) (json : Json) (q : ℚ) (s s' : σ)
    (h : json.get "timestamp" = some (.num q)) : eventStamp w json s = eventStamp w json s' := by
  simp only [eventStamp, h, toJsValue, toDate, toDateNumber]
  split_ifs <;> rfl

set_option maxRecDepth 8000 in
/-- C25 (counterexample): a session event without a timestamp, processed twice against an
accepting sink whose clock moves on by a millisecond at each reading: the two records
differ in their timestamp. -/
theorem untimed_event_differs :
    (∀ q st, ((tickingWorld plainHost).query q st).1 = none) ∧
    (handleEvent (tickingWorld plainHost) sessionCreated ([], 5)).writes =
      [⟨sqlSessions, [.json (.num 11), .json (.str "created"), .date ⟨some 5⟩]⟩] ∧
    (handleEvent (tickingWorld plainHost) sessionCreated
        (handleEvent (tickingWorld plainHost) sessionCreated ([], 5)).state).writes =
      [⟨sqlSessions, [.json (.num 11), .json (.str "created"), .date ⟨some 6⟩]⟩] :=
  ⟨fun _ _ => rfl, by decide, by decide⟩

/-- C25 (amended): for every event object, processed from any two states of a sink that
accepts every write, the two write sequences have the same statements and the same field
values, in the same order, except possibly for the timestamp; they are identical whenever
the two runs stamp the same instant, which is the case whenever the event has a finite
numeric timestamp; a timestamp that is absent, null or an infinite number is stamped with
the clock reading of the run. -/
theorem classification_deterministic {σ : Type} (w : World σ)
    (fields : List (String × Json)) (s₁ s₂ : σ) (hacc : ∀ q st, (w.query q st).1 = none) :
    (handleEvent w (.obj fields) s₁).writes.map eraseStamp =
      (handleEvent w (.obj fields) s₂).writes.map eraseStamp ∧
    (eventStamp w (.obj fields) s₁ = eventStamp w (.obj fields) s₂ →
      (handleEvent w (.obj fields) s₁).writes = (handleEvent w (.obj fields) s₂).writes) ∧
    (∀ q : ℚ, (Json.obj fields).get "timestamp" = some (.num q) →
      (handleEvent w (.obj fields) s₁).writes = (handleEvent w (.obj fields) s₂).writes) ∧
    ((Json.obj fields).get "timestamp" = none ∨
        (Json.obj fields).get "timestamp" = some .null ∨
        (∃ n, (Json.obj fields).get "timestamp" = some (.infinite n)) →
      eventStamp w (.obj fields) s₁ = (w.now s₁).1) := by
  have hmain : eventStamp w (.obj fields) s₁ = eventStamp w (.obj fields) s₂ →
      (handleEvent w (.obj fields) s₁).writes = (handleEvent w (.obj fields) s₂).writes := by
    intro hts
    rw [handleEvent_obj, handleEvent_obj]
    simp only [handleObject, tryCatch_writes]
    simp only [eventStamp] at hts
    rw [hts]
    exact dispatch_writes_of_accepting w hacc _ _ _ _
  refine ⟨?_, hmain, fun q hq => hmain (eventStamp_of_number w _ q s₁ s₂ hq), ?_⟩
  · rw [handleEvent_obj, handleEvent_obj]
    simp only [handleObject, tryCatch_writes]
    exact dispatch_writes_eraseStamp w hacc _ _ _ _ _
  · rintro (h | h | ⟨n, h⟩)
    · simp only [eventStamp, h, toJsValue, toDate]
    · simp only [eventStamp, h, toJsValue, toDate]
    · cases n <;> simp [eventStamp, h, toJsValue, toDate, toDateNumber]

set_option maxRecDepth 8000 in
/-- C25 (witness): a session event with a numeric timestamp gives the same record from two
states of the sink with a moving clock, and one whose timestamp is `Infinity` is stamped
with the clock reading. -/
theorem classification_deterministic_witness :
    (handleEvent (tickingWorld plainHost) sessionStamped ([], 5)).writes =
      (handleEvent (tickingWorld plainHost) sessionStamped ([], 77)).writes ∧
    eventStamp (tickingWorld plainHost) sessionInfiniteStamp ([], 5) = ⟨some 5⟩ :=
  ⟨(classification_deterministic (tickingWorld plainHost)
      [("type", .num 1), ("session_id", .num 11), ("timestamp", .num 1725000000),
        ("event", .obj [("name", .str "created")])]
      ([], 5) ([], 77) (fun _ _ => rfl)).2.2.1 1725000000 (by decide),
    (classification_deterministic (tickingWorld plainHost)
      [("type", .num 1), ("session_id", .num 11), ("timestamp", .infinite false),
        ("event", .obj [("name", .str "created")])]
      ([], 5) ([], 77) (fun _ _ => rfl)).2.2.2 (Or.inr (Or.inr ⟨false, by decide⟩))⟩

/-- The binary64 Numbers below `10 ^ 21` in magnitude stay `2 ^ 17` away from it. -/
theorem isBinary64_gap_1e21 {n : ℚ} (hd : isBinary64 n) (h : |n| < 10 ^ 21) :
    |n| ≤ 10 ^ 21 - 131072 := by
  have h1 : |n| < ((7629394531250000 : ℕ) : ℚ) * 2 ^ ((69 : ℤ) - 52) := by
    refine lt_of_lt_of_le h (le_of_eq ?_); norm_num
  have h2 := isBinary64_le_pred hd h1 (by norm_num)
  refine le_trans h2 (le_of_eq ?_); norm_num

/-- The binary64 Numbers below `10 ^ 18` in magnitude stay `2 ^ 7` away from it. -/
theorem isBinary64_gap_1e18 {n : ℚ} (hd : isBinary64 n) (h : |n| < 10 ^ 18) :
    |n| ≤ 10 ^ 18 - 128 := by
  have h1 : |n| < ((7812500000000000 : ℕ) : ℚ) * 2 ^ ((59 : ℤ) - 52) := by
    refine lt_of_lt_of_le h (le_of_eq ?_); norm_num
  have h2 := isBinary64_le_pred hd h1 (by norm_num)
  refine le_trans h2 (le_of_eq ?_); norm_num

/-- The binary64 Numbers below `10 ^ 12` in magnitude stay `2 ^ -13` away from it. -/
theorem isBinary64_gap_1e12 {n : ℚ} (hd : isBinary64 n) (h : |n| < 10 ^ 12) :
    |n| ≤ 10 ^ 12 - 1 / 8192 := by
  have h1 : |n| < ((8192000000000000 : ℕ) : ℚ) * 2 ^ ((39 : ℤ) - 52) := by
    refine lt_of_lt_of_le h (le_of_eq ?_); norm_num
  have h2 := isBinary64_le_pred hd h1 (by norm_num)
  refine le_trans h2 (le_of_eq ?_); norm_num

/-- C27: for every finite number `n` whose truncated absolute value is below `10 ^ 21`, the
millisecond value that `toDate(n)` hands to `new Date`, which is `n / 1e6`, `n / 1e3` or
`n * 1e3` rounded to binary64, or `n` itself, according to the digit count, is finite and
within 8.64e15, so the instant returned is valid: its time value is that value truncated;
and when `n` is a binary64 Number, as every Number is, its absolute value is below
`10 ^ 15`. -/
theorem toDate_number_in_range {σ : Type} (w : World σ) (n : ℚ) (s : σ)
    (h : mathAbs (mathTrunc n) < 10 ^ 21) :
    ∃ ms : ℚ,
      (if 19 ≤ decimalDigits (mathAbs (mathTrunc n)) then toBinary64 (n / 10 ^ 6)
        else if 16 ≤ decimalDigits (mathAbs (mathTrunc n)) then toBinary64 (n / 10 ^ 3)
        else if 13 ≤ decimalDigits (mathAbs (mathTrunc n)) then .finite n
        else toBinary64 (n * 10 ^ 3)) = .finite ms ∧
      toDate w (.number (.finite n)) s = (newDate ms, s) ∧
      (isBinary64 n → |ms| < 10 ^ 15) ∧ |ms| ≤ 8640000000000000 ∧
      (toDate w (.number (.finite n)) s).1.time = some (mathTrunc ms) := by
  have key : ∃ ms : ℚ,
      (if 19 ≤ decimalDigits (mathAbs (mathTrunc n)) then toBinary64 (n / 10 ^ 6)
        else if 16 ≤ decimalDigits (mathAbs (mathTrunc n)) then toBinary64 (n / 10 ^ 3)
        else if 13 ≤ decimalDigits (mathAbs (mathTrunc n)) then .finite n
        else toBinary64 (n * 10 ^ 3)) = .finite ms ∧
      (isBinary64 n → |ms| < 10 ^ 15) ∧ |ms| ≤ 8640000000000000 := by
    split_ifs with h19 h16 h13
    · have hn : |n| < 10 ^ 21 := abs_lt_of_trunc_lt h
      have hx : |n / 10 ^ 6| < 10 ^ 15 := by
        rw [abs_div, abs_of_pos (by norm_num : (0 : ℚ) < 10 ^ 6), div_lt_iff₀ (by norm_num)]
        calc |n| < 10 ^ 21 := hn
          _ = 10 ^ 15 * 10 ^ 6 := by norm_num
      obtain ⟨r, hr, hv, hs⟩ := toBinary64_in_range hx
      refine ⟨r, hr, fun hd => hs ?_, hv⟩
      have hg := isBinary64_gap_1e21 hd hn
      rw [abs_div, abs_of_pos (by norm_num : (0 : ℚ) < 10 ^ 6), div_le_iff₀ (by norm_num)]
      refine le_trans hg ?_
      norm_num
    · have h18 : mathAbs (mathTrunc n) < 10 ^ 18 := lt_pow_of_decimalDigits_le (by omega)
      have hn : |n| < 10 ^ 18 := abs_lt_of_trunc_lt h18
      have hx : |n / 10 ^ 3| < 10 ^ 15 := by
        rw [abs_div, abs_of_pos (by norm_num : (0 : ℚ) < 10 ^ 3), div_lt_iff₀ (by norm_num)]
        calc |n| < 10 ^ 18 := hn
          _ = 10 ^ 15 * 10 ^ 3 := by norm_num
      obtain ⟨r, hr, hv, hs⟩ := toBinary64_in_range hx
      refine ⟨r, hr, fun hd => hs ?_, hv⟩
      have hg := isBinary64_gap_1e18 hd hn
      rw [abs_div, abs_of_pos (by norm_num : (0 : ℚ) < 10 ^ 3), div_le_iff₀ (by norm_num)]
      refine le_trans hg ?_
      norm_num
    · have h15 : mathAbs (mathTrunc n) < 10 ^ 15 := lt_pow_of_decimalDigits_le (by omega)
      have hn : |n| < 10 ^ 15 := abs_lt_of_trunc_lt h15
      exact ⟨n, rfl, fun _ => hn, le_trans hn.le (by norm_num)⟩
    · have h12 : mathAbs (mathTrunc n) < 10 ^ 12 := lt_pow_of_decimalDigits_le (by omega)
      have hn : |n| < 10 ^ 12 := abs_lt_of_trunc_lt h12
      have hx : |n * 10 ^ 3| < 10 ^ 15 := by
        rw [abs_mul, abs_of_pos (by norm_num : (0 : ℚ) < 10 ^ 3)]
        calc |n| * 10 ^ 3 < 10 ^ 12 * 10 ^ 3 := mul_lt_mul_of_pos_right hn (by norm_num)
          _ = 10 ^ 15 := by norm_num
      obtain ⟨r, hr, hv, hs⟩ := toBinary64_in_range hx
      refine ⟨r, hr, fun hd => hs ?_, hv⟩
      have hg := isBinary64_gap_1e12 hd hn
      rw [abs_mul, abs_of_pos (by norm_num : (0 : ℚ) < 10 ^ 3)]
      calc |n| * 10 ^ 3 ≤ (10 ^ 12 - 1 / 8192) * 10 ^ 3 :=
            mul_le_mul_of_nonneg_right hg (by norm_num)
        _ ≤ 10 ^ 15 - 1 / 10 := by norm_num
  obtain ⟨ms, hms, hstrict, hvalid⟩ := key
  have ht : toDate w (.number (.finite n)) s = (newDate ms, s) := by
    show toDateNumber w (.finite n) s = _
    rw [toDateNumber_of_lt w n s h, hms]
    rfl
  refine ⟨ms, hms, ht, hstrict, hvalid, ?_⟩
  rw [ht]
  simp only [newDate, timeClip, if_pos hvalid]

theorem mathAbs_trunc_example :
    mathAbs (mathTrunc 1725000000000999936) = 1725000000000999936 := by
  have := mathTrunc_natCast 1725000000000999936
  simp only [Nat.cast_ofNat] at this
  rw [this]; rfl

theorem mathAbs_trunc_example_lt : mathAbs (mathTrunc 1725000000000999936) < 10 ^ 21 :=
  lt_of_eq_of_lt mathAbs_trunc_example (by norm_num)

theorem decimalDigits_example :
    decimalDigits (mathAbs (mathTrunc 1725000000000999936)) = 19 := by
  have hlog : Nat.log 10 1725000000000999936 = 18 :=
    (Nat.log_eq_iff (Or.inl (by norm_num))).2 ⟨by norm_num, by norm_num⟩
  rw [mathAbs_trunc_example, decimalDigits_eq (by norm_num), hlog]

theorem toBinary64_example :
    toBinary64 (1725000000000999936 / 10 ^ 6) = .finite 1725000000001 := by
  have := toBinary64_eq (q := 1725000000000999936 / 10 ^ 6) (k := 40)
    (n := 1725000000001 * 2 ^ 12) (by norm_num [abs_of_pos]) (by norm_num [abs_of_pos])
    (by norm_num) (by norm_num [abs_of_pos, abs_lt]) (by norm_num [abs_of_pos])
  rw [this]
  norm_num

theorem newDate_example : newDate 1725000000001 = ⟨some 1725000000001⟩ := by
  have ht : mathTrunc 1725000000001 = 1725000000001 := by
    have := mathTrunc_natCast 1725000000001
    simp only [Nat.cast_ofNat] at this
    exact this
  simp only [newDate, timeClip, ht]
  norm_num [abs_of_pos]

theorem isBinary64_example : isBinary64 1725000000000999936 := by
  have := isBinary64_of_significand 6738281250003906 8 (by norm_num) (by norm_num)
    (by norm_num)
  norm_num at this
  exact this

/-- The timestamp 1725000000000999936, nineteen digits long, is read as nanoseconds: the
quotient by `1e6` rounds up to the Number 1725000000001 before `new Date` truncates. -/
theorem toDate_rounds_quotient {σ : Type} (w : World σ) (s : σ) :
    toDate w (.number (.finite 1725000000000999936)) s = (⟨some 1725000000001⟩, s) := by
  have h := toDateNumber_of_lt w 1725000000000999936 s mathAbs_trunc_example_lt
  rw [decimalDigits_example] at h
  have h1 : toDateNumber w (.finite 1725000000000999936) s =
      (newDateOf (toBinary64 (1725000000000999936 / 10 ^ 6)), s) :=
    h.trans (by rw [if_pos (le_refl 19)])
  rw [toBinary64_example] at h1
  exact h1.trans (congrArg (fun d => (d, s)) newDate_example)

/-- C27 (witness): the binary64 Number 1725000000000999936: its reading is finite, below
`10 ^ 15` and a valid instant, the millisecond 1725000000001. -/
theorem toDate_number_in_range_witness :
    isBinary64 1725000000000999936 ∧
    mathAbs (mathTrunc 1725000000000999936) < 10 ^ 21 ∧
    (∃ ms : ℚ,
      (if 19 ≤ decimalDigits (mathAbs (mathTrunc 1725000000000999936)) then
          toBinary64 (1725000000000999936 / 10 ^ 6)
        else if 16 ≤ decimalDigits (mathAbs (mathTrunc 1725000000000999936)) then
          toBinary64 (1725000000000999936 / 10 ^ 3)
        else if 13 ≤ decimalDigits (mathAbs (mathTrunc 1725000000000999936)) then
          .finite 1725000000000999936
        else toBinary64 (1725000000000999936 * 10 ^ 3)) = .finite ms ∧
      toDate (recordingWorld plainHost noon) (.number (.finite 1725000000000999936)) [] =
        (newDate ms, []) ∧
      (isBinary64 1725000000000999936 → |ms| < 10 ^ 15) ∧ |ms| ≤ 8640000000000000 ∧
      (toDate (recordingWorld plainHost noon)
        (.number (.finite 1725000000000999936)) []).1.time = some (mathTrunc ms)) ∧
    toDate (recordingWorld plainHost noon) (.number (.finite 1725000000000999936)) [] =
      (⟨some 1725000000001⟩, []) :=
  ⟨isBinary64_example, mathAbs_trunc_example_lt,
    toDate_number_in_range (recordingWorld plainHost noon) 1725000000000999936 []
      mathAbs_trunc_example_lt,
    toDate_rounds_quotient (recordingWorld plainHost noon) []⟩

end Janus
